import Mathlib

/-!
# Hydrogen audio engine: transport, pattern lookup and note scheduling

A shallow embedding of the sequencer core of `src/core/Hydrogen.cpp` and the
properties established about it.

Conventions of the embedding.

* The module-level variables of `Hydrogen.cpp` (`m_audioEngineState`,
  `m_nSongPos`, the two note queues, ...) together with the fields of the audio
  driver's `TransportInfo` and of the current `Song` that the engine reads are
  gathered in one record, `Engine`; every engine function is a function from
  `Engine` to `Engine` (plus its return value).
* A `float` or `double` value is the rational number it stands for.  Where the
  code computes a tick number, a frame position, a note offset or a queue key
  in floating point, every operation is rounded as the hardware rounds it: to
  the nearest number with a significand of 24 bits (`toFloat`) or 53 bits
  (`toDouble`), a tie going to the even significand.  The exponent range is not
  limited: overflow and subnormal numbers do not occur in the model.  The
  values handed to the sampler (velocity, pitch) and the master peaks are kept
  exact.  A conversion of a `float` to an integer type truncates towards zero
  (`truncQ`).
* The transport frame position (`long long`) and the tick numbers (`int`) are
  unbounded integers.  Where a value passes through an `unsigned int` (the
  parameter of `audioEngine_start`, the local `framepos` and the frame sums of
  the scheduler, `m_nPatternTickPosition`, the start frame of a note), the
  conversion is written out with `% 2^32` (`toU32`); a value stored in the
  realtime frame counter (`unsigned long`) is reduced `% 2^64` (`toU64`).
* A `Pattern*` is the index of the pattern in the song's pattern list; the
  length of a pattern is a natural number of ticks.
* Code of the repository that is called here but whose source file is not at
  hand carries a doc comment starting `Modelled from the spec:`.
* What lies outside the engine is an input: the outcome of `try_lock_for`, the
  effect of the driver's `updateTransportInfo()`, the rendered audio, the random
  draws.  Logging and wall-clock measurements are left out.
-/

namespace H2Core

/-! ## Constants -/

/-- Maximum number of ticks of a pattern, the length used for an empty column
(`MAX_NOTES`, 192). -/
def MAX_NOTES : Int := 192

/-- Engine state `STATE_UNINITIALIZED`. -/
def STATE_UNINITIALIZED : Int := 1
/-- Engine state `STATE_INITIALIZED`. -/
def STATE_INITIALIZED : Int := 2
/-- Engine state `STATE_PREPARED`. -/
def STATE_PREPARED : Int := 3
/-- Engine state `STATE_READY`. -/
def STATE_READY : Int := 4
/-- Engine state `STATE_PLAYING`. -/
def STATE_PLAYING : Int := 5

/-- Largest humanize offset in frames, `Hydrogen::m_nMaxTimeHumanize`, set to
2000 by the constructor of `Hydrogen` and never assigned again. -/
def m_nMaxTimeHumanize : Int := 2000

/-- Modelled from the spec: the lower tempo bound `MIN_BPM` (the header that
defines it is not part of the sources at hand), the "global min" the tempo is
validated against. -/
def MIN_BPM : ℚ := 10

/-- Modelled from the spec: the upper tempo bound `MAX_BPM` (the header that
defines it is not part of the sources at hand), the "global max" the tempo is
validated against. -/
def MAX_BPM : ℚ := 400

/-- Conversion of a `float` to an integer type: truncation towards zero. -/
def truncQ (q : ℚ) : Int := if 0 ≤ q then ⌊q⌋ else ⌈q⌉

/-- Conversion of a signed integer to `unsigned int`. -/
def toU32 (x : Int) : Int := x % 4294967296

/-- Conversion of a signed integer to `unsigned long` (64 bits). -/
def toU64 (x : Int) : Int := x % 18446744073709551616

/-- Conversion of an `unsigned int` to `int`. -/
def toI32 (x : Int) : Int :=
  if toU32 x < 2147483648 then toU32 x else toU32 x - 4294967296

/-! ## Floating-point rounding -/

/-- The power `2 ^ k` for an integer exponent `k`. -/
def pow2 (k : Int) : ℚ :=
  if 0 ≤ k then ((2 ^ k.toNat : Nat) : ℚ) else 1 / ((2 ^ (-k).toNat : Nat) : ℚ)

/-- Rounding to the nearest integer, a tie going to the even one. -/
def roundNE (x : ℚ) : Int :=
  if x - ⌊x⌋ < 1 / 2 then ⌊x⌋
  else if x - ⌊x⌋ > 1 / 2 then ⌊x⌋ + 1
  else if ⌊x⌋ % 2 = 0 then ⌊x⌋ else ⌊x⌋ + 1

/-- The number of halvings that take `n` below 2, in at most `fuel` steps. -/
def log2Fuel : Nat → Nat → Nat
  | 0, _ => 0
  | fuel + 1, n => if n < 2 then 0 else log2Fuel fuel (n / 2) + 1

/-- The binary logarithm of `n ≥ 1`, rounded down. -/
def log2Floor (n : Nat) : Nat := log2Fuel n n

/-- The binary exponent of `q ≠ 0`: the `e` with `2 ^ e ≤ |q| < 2 ^ (e + 1)`. -/
def binExp (q : ℚ) : Int :=
  if pow2 ((log2Floor q.num.natAbs : Int) - (log2Floor q.den : Int)) ≤ |q| then
    (log2Floor q.num.natAbs : Int) - (log2Floor q.den : Int)
  else
    (log2Floor q.num.natAbs : Int) - (log2Floor q.den : Int) - 1

/-- Rounding to the nearest binary floating-point number with a significand of
`p` bits, ties to even; the exponent range is not limited. -/
def roundBits (p : Nat) (q : ℚ) : ℚ :=
  if q = 0 then 0
  else (roundNE (q / pow2 (binExp q - ((p : Int) - 1))) : ℚ) * pow2 (binExp q - ((p : Int) - 1))

/-- The `float` (binary32) nearest to `q`: the result of a `float` operation
whose exact result is `q`, and of the conversion of `q` to `float`. -/
def toFloat (q : ℚ) : ℚ := roundBits 24 q

/-- The `double` (binary64) nearest to `q`. -/
def toDouble (q : ℚ) : ℚ := roundBits 53 q

/-- The quotient `n / fTickSize` of an integer frame count and the tick size as
the code computes it: the integer is converted to `float`, the division is a
`float` division, and the quotient is converted to an integer. -/
def ticksOfFrames (n : Int) (fTickSize : ℚ) : Int :=
  truncQ (toFloat (toFloat (n : ℚ) / fTickSize))

/-! ## Data model -/

/-- A note: a template stored in a pattern, or a copy waiting in a queue. -/
structure Note where
  /-- Identifier of the instrument the note refers to. -/
  instrument : Nat
  position : Int
  velocity : ℚ
  pitch : ℚ
  humanize_delay : Int
  lead_lag : ℚ
  probability : ℚ
  note_off : Bool
  just_recorded : Bool
  deriving DecidableEq, Repr

/-- A pattern pointer: the index of the pattern in `Song.patternList`. -/
abbrev PatPtr := Nat

/-- A list of pattern pointers (`PatternList`): a column of the song, the
playing patterns, the next patterns. -/
abbrev PatternList := List PatPtr

/-- A pattern: its length in ticks, its note templates and the patterns it
pulls in as (flattened) virtual patterns. -/
structure Pattern where
  length : Nat
  notes : List Note
  flattened_virtual_patterns : List PatPtr
  deriving DecidableEq, Repr

/-- Playback mode of a song. -/
inductive SongMode where
  | PATTERN_MODE
  | SONG_MODE
  deriving DecidableEq, Repr

/-- The part of a `Song` the engine reads. -/
structure Song where
  mode : SongMode
  isLoopEnabled : Bool
  bpm : ℚ
  resolution : Int
  swingFactor : ℚ
  humanizeTimeValue : ℚ
  humanizeVelocityValue : ℚ
  /-- All patterns of the song (`getPatternList()`). -/
  patternList : List Pattern
  /-- The columns of the song (`getPatternGroupVector()`). -/
  patternGroupVector : List PatternList
  deriving DecidableEq, Repr

/-- Dereference a pattern pointer. -/
def Song.pattern (song : Song) (p : PatPtr) : Pattern :=
  song.patternList.getD p ⟨0, [], []⟩

/-- Modelled from the spec: `PatternList::longest_pattern_length` (its source
file is not part of the sources at hand), "longest contained pattern
length". -/
def longest_pattern_length (song : Song) (l : PatternList) : Int :=
  l.foldr (fun p m => max ((song.pattern p).length : Int) m) 0

/-! ## Pattern lookup -/

/-- Length of a column as both scans of `findPatternInTick` compute it:
`nPatternSize`. -/
def columnSize (song : Song) (pColumn : PatternList) : Int :=
  if pColumn.length ≠ 0 then longest_pattern_length song pColumn else MAX_NOTES

/-- One scan of `findPatternInTick` over the columns from index `i` on, with
`nTotalLength` the summed length of the columns before: `Sum.inl (i, start)`
when column `i`, starting at tick `start`, contains `nTick`; `Sum.inr total`
when the scan ends without a match, `total` being the final `nTotalLength`. -/
def scanColumns (song : Song) (nTick : Int) :
    List PatternList → Int → Int → Sum (Int × Int) Int
  | [], _, nTotalLength => Sum.inr nTotalLength
  | pColumn :: rest, i, nTotalLength =>
    let nPatternSize := columnSize song pColumn
    if nTick ≥ nTotalLength ∧ nTick < nTotalLength + nPatternSize then
      Sum.inl (i, nTotalLength)
    else
      scanColumns song nTick rest (i + 1) (nTotalLength + nPatternSize)

/-- Outcome of `findPatternInTick`: the returned index, the content of
`*pPatternStartTick` and the value left in `m_nSongSizeInTicks`. -/
structure FindResult where
  ret : Int
  patternStartTick : Int
  m_nSongSizeInTicks : Int
  deriving DecidableEq, Repr

/-- The lookup `findPatternInTick( nTick, bLoopMode, pPatternStartTick )`;
`startTick0` is the content of `*pPatternStartTick` before the call.  `%` on
`int` is the truncating remainder. -/
def findPatternInTick (song : Song) (nTick : Int) (bLoopMode : Bool)
    (startTick0 : Int) : FindResult :=
  match scanColumns song nTick song.patternGroupVector 0 0 with
  | Sum.inl (i, start) => ⟨i, start, 0⟩
  | Sum.inr nTotalLength =>
    if bLoopMode then
      let nLoopTick := if nTotalLength ≠ 0 then Int.tmod nTick nTotalLength else 0
      match scanColumns song nLoopTick song.patternGroupVector 0 0 with
      | Sum.inl (i, start) => ⟨i, start, nTotalLength⟩
      | Sum.inr _ => ⟨-1, startTick0, nTotalLength⟩
    else
      ⟨-1, startTick0, 0⟩

/-- Lengths of the columns of the song, in order. -/
def columnSizes (song : Song) : List Int :=
  song.patternGroupVector.map (columnSize song)

/-- Total length of the song in ticks: the sum of its column lengths. -/
def songSize (song : Song) : Int := (columnSizes song).sum

/-- Tick at which column `i` starts: the summed length of the columns before. -/
def columnStart (song : Song) (i : Nat) : Int := ((columnSizes song).take i).sum

/-- A song made of columns of the given lengths, one pattern per column. -/
def songOfLengths (lens : List Nat) (loop : Bool) : Song :=
  { mode := SongMode.SONG_MODE, isLoopEnabled := loop, bpm := 120, resolution := 48,
    swingFactor := 0, humanizeTimeValue := 0, humanizeVelocityValue := 0,
    patternList := lens.map (fun n => ⟨n, [], []⟩),
    patternGroupVector := (List.range lens.length).map (fun i => [i]) }

/-! ## Engine state -/

/-- Transport status reported by the audio driver. -/
inductive TransportStatus where
  | STOPPED
  | ROLLING
  | BAD
  deriving DecidableEq, Repr

/-- The `TransportInfo` of the audio driver (`m_pAudioDriver->m_transport`). -/
structure TransportInfo where
  m_status : TransportStatus
  m_nFrames : Int
  m_fTickSize : ℚ
  m_fBPM : ℚ
  deriving DecidableEq, Repr

/-- Kind of event pushed to the `EventQueue`. -/
inductive EventType where
  | EVENT_STATE
  | EVENT_PATTERN_CHANGED
  | EVENT_METRONOME
  | EVENT_NOTEON
  | EVENT_RECALCULATERUBBERBAND
  deriving DecidableEq, Repr

/-- An event of the `EventQueue`: its kind and its integer argument. -/
structure Event where
  type : EventType
  value : Int
  deriving DecidableEq, Repr

/-- The fields of an `Instrument` the engine reads or writes. -/
structure Instrument where
  /-- Number of `enqueue()` calls minus number of `dequeue()` calls. -/
  queued : Int
  volume : ℚ
  pitch_offset : ℚ
  random_pitch_factor : ℚ
  stop_notes : Bool
  deriving DecidableEq, Repr

/-- Class of the audio driver, as far as the engine tells drivers apart. -/
inductive DriverClass where
  | DiskWriterDriver
  | FakeDriver
  | JackAudioDriver
  | OtherDriver
  deriving DecidableEq, Repr

/-- State of the JACK timebase. -/
inductive Timebase where
  | Master
  | Slave
  | None
  deriving DecidableEq, Repr

/-- The state the engine functions of `Hydrogen.cpp` work on. -/
structure Engine where
  m_fMasterPeak_L : ℚ
  m_fMasterPeak_R : ℚ
  m_fNewBpmJTM : ℚ
  /-- Transport of the audio driver. -/
  m_transport : TransportInfo
  /-- Sample rate of the audio driver. -/
  sampleRate : Nat
  driverClass : DriverClass
  /-- Whether the driver is JACK with JACK transport in use. -/
  haveJackTransport : Bool
  /-- Current position of the JACK driver (`JackAudioDriver::m_currentPos`). -/
  m_currentPos : Int
  jackTimebaseState : Timebase
  /-- Song note queue, in the order its notes come out. -/
  m_songNoteQueue : List Note
  /-- MIDI note queue (a FIFO). -/
  m_midiNoteQueue : List Note
  m_pNextPatterns : PatternList
  m_pPlayingPatterns : PatternList
  m_nSongPos : Int
  m_nSelectedPatternNumber : Int
  m_audioEngineState : Int
  m_nPatternStartTick : Int
  m_nPatternTickPosition : Int
  m_nSongSizeInTicks : Int
  m_nRealtimeFrames : Int
  /-- The current song. -/
  song : Song
  /-- The instruments, by identifier. -/
  instruments : Nat → Instrument
  /-- Identifier of the metronome instrument. -/
  m_pMetronomeInstrument : Nat
  /-- `Preferences::patternModePlaysSelected()`. -/
  patternModePlaysSelected : Bool
  /-- `Preferences::m_bUseMetronome`. -/
  m_bUseMetronome : Bool
  /-- `Preferences::m_fMetronomeVolume`. -/
  m_fMetronomeVolume : ℚ
  /-- Events pushed to the `EventQueue`, oldest first. -/
  events : List Event
  /-- Notes handed to the sampler with `Sampler::noteOn`. -/
  samplerNotes : List Note
  /-- The velocity automation path of the song, `get_value( fPos )`. -/
  velocityAutomation : ℚ → ℚ
  /-- Values of the `float` product `x1 * w` in the successive calls of
  `getGaussian`. -/
  gaussian : Nat → ℚ
  /-- Values of the successive draws `rand() / RAND_MAX`. -/
  uniform : Nat → ℚ
  /-- Number of random draws made so far. -/
  nDraws : Nat

/-- Modelled from the spec: `AudioEngine::compute_tick_size` (its source file
is not part of the sources at hand), "tick size = 48000×60/(120×48)": frames
per tick from sample rate, tempo and resolution.  The function returns a
`float`: the result is the `float` nearest to the quotient. -/
def compute_tick_size (sampleRate : ℚ) (bpm : ℚ) (resolution : ℚ) : ℚ :=
  toFloat (sampleRate * 60 / bpm / resolution)

/-- The event `EventQueue::push_event( type, value )`. -/
def push_event (type : EventType) (value : Int) (e : Engine) : Engine :=
  { e with events := e.events ++ [⟨type, value⟩] }

/-- The call `enqueue()` on an instrument. -/
def Engine.enqueue (e : Engine) (i : Nat) : Engine :=
  { e with instruments := fun j =>
      if j = i then { e.instruments j with queued := (e.instruments j).queued + 1 }
      else e.instruments j }

/-- The call `dequeue()` on an instrument. -/
def Engine.dequeue (e : Engine) (i : Nat) : Engine :=
  { e with instruments := fun j =>
      if j = i then { e.instruments j with queued := (e.instruments j).queued - 1 }
      else e.instruments j }

/-! ### The song note queue

`m_songNoteQueue` is a `std::priority_queue` ordered by `compare_pNotes`, which
reads the tick size current at the time of the comparison.  The queue is kept
as the list of its notes in the order they come out: `push` places a note
behind the notes that do not compare greater, `top` is the head, `pop` drops
the head. -/

/-- Start time of a note as `compare_pNotes` computes it, in `float`:
`humanize_delay + position * fTickSize`. -/
def noteKey (fTickSize : ℚ) (n : Note) : ℚ :=
  toFloat (toFloat (n.humanize_delay : ℚ) + toFloat (toFloat (n.position : ℚ) * fTickSize))

/-- The comparison `compare_pNotes()( pNote1, pNote2 )`. -/
def compare_pNotes (fTickSize : ℚ) (pNote1 pNote2 : Note) : Bool :=
  decide (noteKey fTickSize pNote1 > noteKey fTickSize pNote2)

/-- Insertion of a note in the queue, behind every note it does not precede. -/
def queuePush (fTickSize : ℚ) (n : Note) : List Note → List Note
  | [] => [n]
  | m :: rest =>
    if compare_pNotes fTickSize m n then n :: m :: rest
    else m :: queuePush fTickSize n rest

/-- The call `m_songNoteQueue.push( pNote )`. -/
def Engine.pushSongNote (e : Engine) (n : Note) : Engine :=
  { e with m_songNoteQueue := queuePush e.m_transport.m_fTickSize n e.m_songNoteQueue }

/-- The loop that empties `m_songNoteQueue`: every note is taken from the top
and its instrument is dequeued. -/
def clearSongNoteQueue : List Note → Engine → Engine
  | [], e => { e with m_songNoteQueue := [] }
  | n :: rest, e => clearSongNoteQueue rest ({ e with m_songNoteQueue := rest }.dequeue n.instrument)

/-! ## Transport and state controller -/

/-- The function `audioEngine_start( bLockEngine, nTotalFrames )`: the value
returned and the engine afterwards.  The parameter `nTotalFrames` is an
`unsigned`: the argument is reduced modulo `2^32`. -/
def audioEngine_start (_bLockEngine : Bool) (nTotalFrames : Int) (e : Engine) : Int × Engine :=
  if e.m_audioEngineState ≠ STATE_READY then
    (0, e)
  else
    let e1 : Engine :=
      { e with
        m_fMasterPeak_L := 0
        m_fMasterPeak_R := 0
        m_transport :=
          { e.m_transport with
            m_nFrames := toU32 nTotalFrames
            m_fTickSize := compute_tick_size e.sampleRate e.song.bpm e.song.resolution }
        m_nSongPos := -1
        m_nPatternStartTick := -1
        m_nPatternTickPosition := 0
        m_audioEngineState := STATE_PLAYING }
    (0, push_event EventType.EVENT_STATE STATE_PLAYING e1)

/-- The function `audioEngine_stop( bLockEngine )`. -/
def audioEngine_stop (_bLockEngine : Bool) (e : Engine) : Engine :=
  if e.m_audioEngineState ≠ STATE_PLAYING then
    e
  else
    let e1 := push_event EventType.EVENT_STATE STATE_READY
      { e with m_audioEngineState := STATE_READY }
    let e2 : Engine :=
      { e1 with m_fMasterPeak_L := 0, m_fMasterPeak_R := 0, m_nPatternStartTick := -1 }
    let e3 := clearSongNoteQueue e2.m_songNoteQueue e2
    { e3 with m_midiNoteQueue := [] }

/-- The frame position `oldFrame` that `audioEngine_process_checkBPMChanged`
starts from. -/
def oldFrame (e : Engine) : Int :=
  if e.haveJackTransport ∧ e.m_audioEngineState ≠ STATE_PLAYING then e.m_currentPos
  else e.m_transport.m_nFrames

/-- The function `audioEngine_process_checkBPMChanged( pSong )`, without the
bookkeeping `JackAudioDriver::calculateFrameOffset` of the JACK driver.  The
tick number `(float)oldFrame / fOldTickSize` is a `float`; `ceil` is the
function of `<cmath>` on `double`, so the product with the new tick size is a
`double`, truncated when it is stored in the frame position. -/
def audioEngine_process_checkBPMChanged (pSong : Song) (e : Engine) : Engine :=
  if e.m_audioEngineState ≠ STATE_READY ∧ e.m_audioEngineState ≠ STATE_PLAYING then
    e
  else
    let fOldTickSize := e.m_transport.m_fTickSize
    let fNewTickSize := compute_tick_size e.sampleRate pSong.bpm pSong.resolution
    if fNewTickSize = fOldTickSize then
      e
    else
      let e1 : Engine := { e with m_transport := { e.m_transport with m_fTickSize := fNewTickSize } }
      if fNewTickSize = 0 ∨ fOldTickSize = 0 then
        e1
      else
        let fTickNumber : ℚ := toFloat (toFloat (oldFrame e : ℚ) / fOldTickSize)
        let nNewFrames : Int := truncQ (toDouble ((⌈fTickNumber⌉ : ℚ) * fNewTickSize))
        let e2 : Engine :=
          { e1 with m_transport := { e1.m_transport with m_nFrames := nNewFrames } }
        push_event EventType.EVENT_RECALCULATERUBBERBAND (-1) e2

/-- The function `audioEngine_clearNoteQueue()`. -/
def audioEngine_clearNoteQueue (e : Engine) : Engine :=
  let e1 := clearSongNoteQueue e.m_songNoteQueue e
  { e1 with samplerNotes := [], m_midiNoteQueue := [] }

/-- The function `audioEngine_seek( nFrames, bLoopMode )`.  The tick is the
`float` quotient of frame position and tick size, cast to `unsigned` and stored
in an `int`. -/
def audioEngine_seek (nFrames : Int) (bLoopMode : Bool) (e : Engine) : Engine :=
  if e.m_transport.m_nFrames = nFrames then
    e
  else
    let e1 : Engine := { e with m_transport := { e.m_transport with m_nFrames := nFrames } }
    let tickNumber_start : Int :=
      toI32 (toU32 (ticksOfFrames e1.m_transport.m_nFrames e1.m_transport.m_fTickSize))
    let loop := if bLoopMode then true else e1.song.isLoopEnabled
    let r := findPatternInTick e1.song tickNumber_start loop e1.m_nPatternStartTick
    let e2 : Engine :=
      { e1 with
        m_nSongPos := r.ret
        m_nPatternStartTick := r.patternStartTick
        m_nSongSizeInTicks := r.m_nSongSizeInTicks }
    audioEngine_clearNoteQueue e2

/-- The function `audioEngine_noteOn( note )`. -/
def audioEngine_noteOn (note : Note) (e : Engine) : Engine :=
  if e.m_audioEngineState ≠ STATE_READY ∧ e.m_audioEngineState ≠ STATE_PLAYING then
    e
  else
    { e with m_midiNoteQueue := e.m_midiNoteQueue ++ [note] }

/-! ## Pattern lists -/

/-- Modelled from the spec: `PatternList::add` (its source file is not part of
the sources at hand); the playing patterns are a "set", so a pattern already in
the list is not added again. -/
def PatternList.add (l : PatternList) (p : PatPtr) : PatternList :=
  if p ∈ l then l else l ++ [p]

/-- Modelled from the spec: `PatternList::del( pattern )` (its source file is
not part of the sources at hand), "if a pattern is already playing, remove
it": the pattern is taken out of the list and returned, and `none`, the null
pointer, is returned when it is not in the list. -/
def PatternList.del (l : PatternList) (p : PatPtr) : Option PatPtr × PatternList :=
  if p ∈ l then (some p, l.erase p) else (none, l)

/-- Modelled from the spec: `Pattern::extand_with_flattened_virtual_patterns`
(its source file is not part of the sources at hand), "flattening any
virtual/linked patterns": the flattened virtual patterns of the pattern are
added to the list. -/
def extand_with_flattened_virtual_patterns (song : Song) (p : PatPtr) (l : PatternList) :
    PatternList :=
  (song.pattern p).flattened_virtual_patterns.foldl PatternList.add l

/-! ## Note scheduler -/

/-- The function `Hydrogen::calculateLeadLagFactor( fTickSize )`: the `float`
product `fTickSize * 5` converted to `int`. -/
def calculateLeadLagFactor (fTickSize : ℚ) : Int := truncQ (toFloat (fTickSize * 5))

/-- The function `Hydrogen::calculateLookahead( fTickSize )`. -/
def calculateLookahead (fTickSize : ℚ) : Int :=
  calculateLeadLagFactor fTickSize + m_nMaxTimeHumanize + 1

/-- The function `getGaussian( z )`: the next Gaussian draw `x1 * w`, scaled by
the `float` parameter `z` in a `float` product. -/
def getGaussian (z : ℚ) (e : Engine) : ℚ × Engine :=
  (toFloat (e.gaussian e.nDraws * toFloat z), { e with nDraws := e.nDraws + 1 })

/-- Modelled from the spec: `stop()` of the audio driver (the drivers are not
part of the sources at hand), "stop the output driver": the transport status
becomes stopped. -/
def driverStop (e : Engine) : Engine :=
  { e with m_transport := { e.m_transport with m_status := TransportStatus.STOPPED } }

/-- Outcome of one pass of the tick loop of `audioEngine_updateNoteQueue`:
the loop goes on with the next tick, or the function returns. -/
inductive TickOutcome where
  | next (e : Engine) (bSendPatternChange : Bool)
  | done (ret : Int) (e : Engine)

/-- The MIDI merge at the head of the tick loop: notes are popped from the
front of `m_midiNoteQueue` into `m_songNoteQueue` until the queue is empty or
its front note lies after `tick`.  The first argument is the MIDI queue. -/
def midiMergeLoop (tick : Int) : List Note → Engine → Engine
  | [], e => { e with m_midiNoteQueue := [] }
  | pNote :: rest, e =>
    if pNote.position > tick then
      { e with m_midiNoteQueue := pNote :: rest }
    else
      midiMergeLoop tick rest
        (({ e with m_midiNoteQueue := rest }.enqueue pNote.instrument).pushSongNote pNote)

/-- The MIDI merge of one tick. -/
def midiMerge (tick : Int) (e : Engine) : Engine :=
  midiMergeLoop tick e.m_midiNoteQueue e

/-- The column at index `m_nSongPos` of the song; an index outside the vector
(undefined behaviour in the source) yields the empty column. -/
def columnAt (song : Song) (nSongPos : Int) : PatternList :=
  if 0 ≤ nSongPos then song.patternGroupVector.getD nSongPos.toNat [] else []

/-- The playing patterns rebuilt from a column: every pattern of the column is
added, followed by its flattened virtual patterns. -/
def playingFromColumn (song : Song) (pPatternList : PatternList) : PatternList :=
  pPatternList.foldl
    (fun playing pPattern =>
      extand_with_flattened_virtual_patterns song pPattern (PatternList.add playing pPattern))
    []

/-- The song-mode part of one tick. -/
def songModeTick (tick : Int) (e : Engine) (bSendPatternChange : Bool) : TickOutcome :=
  if e.song.patternGroupVector.length = 0 then
    TickOutcome.done (-1) (driverStop e)
  else
    let r := findPatternInTick e.song tick e.song.isLoopEnabled e.m_nPatternStartTick
    let nPatternTickPosition : Int :=
      if r.m_nSongSizeInTicks ≠ 0 then
        toU32 (Int.tmod (tick - r.patternStartTick) r.m_nSongSizeInTicks)
      else
        toU32 (tick - r.patternStartTick)
    let e1 : Engine :=
      { e with
        m_nSongPos := r.ret
        m_nPatternStartTick := r.patternStartTick
        m_nSongSizeInTicks := r.m_nSongSizeInTicks
        m_nPatternTickPosition := nPatternTickPosition }
    let bSend := if nPatternTickPosition = 0 then true else bSendPatternChange
    if e1.m_nSongPos = -1 ∧ e1.song.isLoopEnabled = false then
      TickOutcome.done (-1) e1
    else
      let e2 : Engine :=
        if e1.m_nSongPos = -1 then
          let r2 := findPatternInTick e1.song 0 true e1.m_nPatternStartTick
          { e1 with
            m_nSongPos := r2.ret
            m_nPatternStartTick := r2.patternStartTick
            m_nSongSizeInTicks := r2.m_nSongSizeInTicks }
        else e1
      TickOutcome.next
        { e2 with m_pPlayingPatterns := playingFromColumn e2.song (columnAt e2.song e2.m_nSongPos) }
        bSend

/-- The playing patterns the pattern-mode part of a tick works on: the
selected pattern and its virtual patterns when "play selected pattern" is on,
the current playing patterns otherwise. -/
def patternModePlaying (e : Engine) : PatternList :=
  if e.patternModePlaysSelected then
    extand_with_flattened_virtual_patterns e.song e.m_nSelectedPatternNumber.toNat
      (PatternList.add [] e.m_nSelectedPatternNumber.toNat)
  else
    e.m_pPlayingPatterns

/-- The local `nPatternSize` of the pattern-mode part of a tick. -/
def patternModeSize (e : Engine) : Int :=
  if (patternModePlaying e).length ≠ 0 then longest_pattern_length e.song (patternModePlaying e)
  else MAX_NOTES

/-- The loop that merges `m_pNextPatterns` into the playing patterns: a next
pattern found in the playing patterns is removed from them, another one is
added. -/
def mergeNextPatterns (next : PatternList) (playing : PatternList) : PatternList :=
  next.foldl
    (fun pl pPattern =>
      if (PatternList.del pl pPattern).1 = none then
        PatternList.add (PatternList.del pl pPattern).2 pPattern
      else (PatternList.del pl pPattern).2)
    playing

/-- The pattern-mode part of one tick: the engine and the flag
`bSendPatternChange` afterwards. -/
def patternModeTick (tick : Int) (e : Engine) (bSendPatternChange : Bool) : Engine × Bool :=
  let nPatternSize := patternModeSize e
  let e1 : Engine := { e with m_pPlayingPatterns := patternModePlaying e }
  let r : Engine × Bool :=
    if tick = e1.m_nPatternStartTick + nPatternSize ∨ e1.m_nPatternStartTick = -1 then
      let r1 : Engine × Bool :=
        if e1.m_pNextPatterns.length > 0 then
          ({ e1 with
              m_pPlayingPatterns := mergeNextPatterns e1.m_pNextPatterns e1.m_pPlayingPatterns
              m_pNextPatterns := [] }, true)
        else (e1, bSendPatternChange)
      if r1.1.m_nPatternStartTick = -1 ∧ nPatternSize > 0 then
        ({ r1.1 with m_nPatternStartTick := tick - Int.tmod tick nPatternSize }, r1.2)
      else
        ({ r1.1 with m_nPatternStartTick := tick }, r1.2)
    else (e1, bSendPatternChange)
  let nPatternTickPosition := toU32 (tick - r.1.m_nPatternStartTick)
  if nPatternTickPosition > toU32 nPatternSize ∧ nPatternSize > 0 then
    ({ r.1 with m_nPatternTickPosition := toU32 (Int.tmod tick nPatternSize) }, r.2)
  else
    ({ r.1 with m_nPatternTickPosition := nPatternTickPosition }, r.2)

/-- The metronome part of one tick. -/
def metronomeTick (tick : Int) (e : Engine) : Engine :=
  if e.m_nPatternTickPosition % 48 = 0 then
    let fPitch : ℚ := if e.m_nPatternTickPosition = 0 then 3 else 0
    let fVelocity : ℚ := if e.m_nPatternTickPosition = 0 then 1 else 4 / 5
    let e1 := push_event EventType.EVENT_METRONOME
      (if e.m_nPatternTickPosition = 0 then 1 else 0) e
    if e1.m_bUseMetronome then
      let e2 : Engine :=
        { e1 with instruments := fun j =>
            if j = e1.m_pMetronomeInstrument then
              { e1.instruments j with volume := e1.m_fMetronomeVolume }
            else e1.instruments j }
      let pMetronomeNote : Note :=
        { instrument := e2.m_pMetronomeInstrument, position := tick, velocity := fVelocity,
          pitch := fPitch, humanize_delay := 0, lead_lag := 0, probability := 1,
          note_off := false, just_recorded := false }
      (e2.enqueue e2.m_pMetronomeInstrument).pushSongNote pMetronomeNote
    else e1
  else e

/-- The swing part of the offset of a note scheduled at pattern tick position
`nPatternTickPosition`: `(int)( 6.0 * fTickSize * fSwingFactor )`, a product of
`double`s. -/
def swingOffset (fTickSize : ℚ) (fSwingFactor : ℚ) (nPatternTickPosition : Int) : Int :=
  if nPatternTickPosition % 12 = 0 ∧ nPatternTickPosition % 24 ≠ 0 then
    truncQ (toDouble (toDouble (6 * fTickSize) * fSwingFactor))
  else 0

/-- The humanize part of the offset of a note, from the value `fGaussian` that
`getGaussian( 0.3 )` returns: `(int)( fGaussian * fHumanizeTimeValue *
m_nMaxTimeHumanize )`, a product of `float`s. -/
def humanizeOffset (fGaussian : ℚ) (fHumanizeTimeValue : ℚ) : Int :=
  truncQ (toFloat (toFloat (fGaussian * fHumanizeTimeValue) * toFloat m_nMaxTimeHumanize))

/-- The lead/lag part of the offset of a note: `(int)( lead_lag *
nLeadLagFactor )`, a `float` product of the `float` lead/lag of the note and
the integer factor. -/
def leadLagOffset (fLeadLag : ℚ) (nLeadLagFactor : Int) : Int :=
  truncQ (toFloat (fLeadLag * toFloat (nLeadLagFactor : ℚ)))

/-- The body of the note loop for one note template `pNote` (whose
`just_recorded` flag has been cleared): the offset is computed and a copy of
the note with position `tick` and that offset is pushed to the song note
queue. -/
def scheduleNote (tick : Int) (fTickSize : ℚ) (nLeadLagFactor : Int) (e : Engine)
    (pNote : Note) : Engine :=
  let nSwing := swingOffset fTickSize e.song.swingFactor e.m_nPatternTickPosition
  let h : Int × Engine :=
    if e.song.humanizeTimeValue ≠ 0 then
      (humanizeOffset (getGaussian (3 / 10) e).1 e.song.humanizeTimeValue,
        (getGaussian (3 / 10) e).2)
    else (0, e)
  let nOffset : Int := nSwing + h.1 + leadLagOffset pNote.lead_lag nLeadLagFactor
  let nOffset : Int := if tick = 0 ∧ nOffset < 0 then 0 else nOffset
  let pCopiedNote : Note := { pNote with position := tick, humanize_delay := nOffset }
  (h.2.enqueue pNote.instrument).pushSongNote pCopiedNote

/-- The effect of `set_just_recorded( false )` on the templates of a pattern
that sit at tick position `pos`. -/
def clearJustRecorded (pos : Int) (pattern : Pattern) : Pattern :=
  let notes : List Note := pattern.notes.map
    (fun n => if n.position = pos then { n with just_recorded := false } else n)
  { pattern with notes := notes }

/-- The note loop for one playing pattern: every template at the current
pattern tick position has its `just_recorded` flag cleared and is scheduled. -/
def schedulePattern (tick : Int) (fTickSize : ℚ) (nLeadLagFactor : Int) (e : Engine)
    (pPattern : PatPtr) : Engine :=
  let patterns : List Pattern :=
    List.modify (clearJustRecorded e.m_nPatternTickPosition) pPattern e.song.patternList
  let e1 : Engine := { e with song := { e.song with patternList := patterns } }
  ((e1.song.pattern pPattern).notes.filter
      (fun n => decide (n.position = e1.m_nPatternTickPosition))).foldl
    (scheduleNote tick fTickSize nLeadLagFactor) e1

/-- The note loop over the playing patterns: the part "update the notes queue"
of one tick. -/
def scheduleNotes (tick : Int) (fTickSize : ℚ) (nLeadLagFactor : Int) (e : Engine) : Engine :=
  if e.m_pPlayingPatterns.length ≠ 0 then
    e.m_pPlayingPatterns.foldl (schedulePattern tick fTickSize nLeadLagFactor) e
  else e

/-- The body of the tick loop of `audioEngine_updateNoteQueue` for one tick. -/
def updateNoteQueue_tick (tick : Int) (fTickSize : ℚ) (nLeadLagFactor : Int) (e : Engine)
    (bSendPatternChange : Bool) : TickOutcome :=
  let e1 := midiMerge tick e
  if e1.m_audioEngineState ≠ STATE_PLAYING then
    TickOutcome.next e1 bSendPatternChange
  else
    let o : TickOutcome :=
      if e1.song.mode = SongMode.SONG_MODE then songModeTick tick e1 bSendPatternChange
      else
        TickOutcome.next (patternModeTick tick e1 bSendPatternChange).1
          (patternModeTick tick e1 bSendPatternChange).2
    match o with
    | TickOutcome.done ret e2 => TickOutcome.done ret e2
    | TickOutcome.next e2 bSend =>
      TickOutcome.next (scheduleNotes tick fTickSize nLeadLagFactor (metronomeTick tick e2)) bSend

/-- The tick loop of `audioEngine_updateNoteQueue` over the ticks still to be
processed, and the value the function returns after it. -/
def updateNoteQueue_loop (fTickSize : ℚ) (nLeadLagFactor : Int) :
    List Int → Engine → Bool → Int × Engine
  | [], e, bSendPatternChange => (if bSendPatternChange then 2 else 0, e)
  | tick :: rest, e, bSendPatternChange =>
    match updateNoteQueue_tick tick fTickSize nLeadLagFactor e bSendPatternChange with
    | TickOutcome.done ret e1 => (ret, e1)
    | TickOutcome.next e1 bSend => updateNoteQueue_loop fTickSize nLeadLagFactor rest e1 bSend

/-- The ticks on which the body of the tick loop is run. -/
def visitedTicks (fTickSize : ℚ) (nLeadLagFactor : Int) :
    List Int → Engine → Bool → List Int
  | [], _, _ => []
  | tick :: rest, e, bSendPatternChange =>
    match updateNoteQueue_tick tick fTickSize nLeadLagFactor e bSendPatternChange with
    | TickOutcome.done _ _ => [tick]
    | TickOutcome.next e1 bSend => tick :: visitedTicks fTickSize nLeadLagFactor rest e1 bSend

/-- The local `unsigned int framepos` of the scheduler and of the renderer
feed: the transport position while playing, the realtime frame counter
otherwise, reduced modulo `2^32`. -/
def framepos (e : Engine) : Int :=
  if e.m_audioEngineState = STATE_PLAYING then toU32 e.m_transport.m_nFrames
  else toU32 e.m_nRealtimeFrames

/-- The local `tickNumber_start` of `audioEngine_updateNoteQueue`: the sum
`framepos + lookahead` is an `unsigned int`, the division by the tick size a
`float` division. -/
def tickNumber_start (e : Engine) : Int :=
  if framepos e = 0
      ∨ (e.m_audioEngineState = STATE_PLAYING ∧ e.song.mode = SongMode.SONG_MODE
          ∧ e.m_nSongPos = -1) then
    ticksOfFrames (framepos e) e.m_transport.m_fTickSize
  else
    ticksOfFrames (toU32 (framepos e + calculateLookahead e.m_transport.m_fTickSize))
      e.m_transport.m_fTickSize

/-- The local `tickNumber_end` of `audioEngine_updateNoteQueue`: the sum
`framepos + nFrames + lookahead` is an `unsigned int`, the division by the
tick size a `float` division. -/
def tickNumber_end (nFrames : Nat) (e : Engine) : Int :=
  ticksOfFrames (toU32 (framepos e + nFrames + calculateLookahead e.m_transport.m_fTickSize))
    e.m_transport.m_fTickSize

/-- The ticks `a, a + 1, ..., b - 1` of a loop `for ( tick = a; tick < b; tick++ )`. -/
def tickRange (a b : Int) : List Int :=
  (List.range (b - a).toNat).map (fun (i : Nat) => a + (i : Int))

/-- The function `audioEngine_updateNoteQueue( nFrames )`: the value returned
and the engine afterwards. -/
def audioEngine_updateNoteQueue (nFrames : Nat) (e : Engine) : Int × Engine :=
  updateNoteQueue_loop e.m_transport.m_fTickSize
    (calculateLeadLagFactor e.m_transport.m_fTickSize)
    (tickRange (tickNumber_start e) (tickNumber_end nFrames e)) e false

/-- The ticks visited by `audioEngine_updateNoteQueue( nFrames )`. -/
def updateNoteQueue_visited (nFrames : Nat) (e : Engine) : List Int :=
  visitedTicks e.m_transport.m_fTickSize (calculateLeadLagFactor e.m_transport.m_fTickSize)
    (tickRange (tickNumber_start e) (tickNumber_end nFrames e)) e false

/-! ## Renderer feed -/

/-- Modelled from the spec: `Song::lengthInTicks` (its source file is not part
of the sources at hand), "column lengths summed to find song length in
ticks". -/
def Song.lengthInTicks (song : Song) : Int := songSize song

/-- The local `noteStartInFrames` of `audioEngine_process_playNotes`, an
`unsigned int`: the truncated start frame of the note, a `float` product of
position and tick size, to which a negative humanize delay is added. -/
def noteStartInFrames (fTickSize : ℚ) (pNote : Note) : Int :=
  if pNote.humanize_delay < 0 then
    toU32 (toU32 (truncQ (toFloat (toFloat (pNote.position : ℚ) * fTickSize)))
      + pNote.humanize_delay)
  else
    toU32 (truncQ (toFloat (toFloat (pNote.position : ℚ) * fTickSize)))

/-- Whether the renderer feed takes a note in this buffer: `isNoteStart ||
isOldNote`. -/
def noteIsDue (fTickSize : ℚ) (nFramepos : Int) (nframes : Nat) (pNote : Note) : Bool :=
  decide ((noteStartInFrames fTickSize pNote ≥ nFramepos
      ∧ noteStartInFrames fTickSize pNote < nFramepos + nframes)
    ∨ noteStartInFrames fTickSize pNote < nFramepos)

/-- The handling of a due note once its velocity automation is done and it has
passed the probability test: velocity and pitch are humanized, a note-off is
sent first for a "stop note" instrument, the note goes to the sampler, leaves
the queue `pNote :: rest` and its instrument is dequeued. -/
def playNote (pNote : Note) (rest : List Note) (e : Engine) : Engine :=
  let v : Note × Engine :=
    if e.song.humanizeVelocityValue ≠ 0 then
      let random : ℚ := e.song.humanizeVelocityValue * (getGaussian (1 / 5) e).1
      let fVelocity : ℚ := pNote.velocity + (random - e.song.humanizeVelocityValue / 2)
      ({ pNote with velocity := if fVelocity > 1 then 1 else if fVelocity < 0 then 0 else fVelocity },
        (getGaussian (1 / 5) e).2)
    else (pNote, e)
  let fPitch0 : ℚ := v.1.pitch + (v.2.instruments v.1.instrument).pitch_offset
  let fRandomPitchFactor : ℚ := (v.2.instruments v.1.instrument).random_pitch_factor
  let pt : ℚ × Engine :=
    if fRandomPitchFactor ≠ 0 then
      (fPitch0 + (getGaussian (2 / 5) v.2).1 * fRandomPitchFactor, (getGaussian (2 / 5) v.2).2)
    else (fPitch0, v.2)
  let pNote2 : Note := { v.1 with pitch := pt.1 }
  let pOffNote : Note :=
    { instrument := pNote2.instrument, position := 0, velocity := 0, pitch := 0,
      humanize_delay := 0, lead_lag := 0, probability := 1, note_off := true,
      just_recorded := false }
  let e1 : Engine :=
    if (pt.2.instruments pNote2.instrument).stop_notes then
      { pt.2 with samplerNotes := pt.2.samplerNotes ++ [pOffNote] }
    else pt.2
  let e2 : Engine :=
    { e1 with samplerNotes := e1.samplerNotes ++ [pNote2], m_songNoteQueue := rest }
  push_event EventType.EVENT_NOTEON pNote2.instrument (e2.dequeue pNote2.instrument)

/-- The velocity automation adjustment of a due note: in song mode its
velocity is scaled by the value of the automation path at the position of the
note in the pattern columns. -/
def velocityAutomationAdjust (nSongLength : Int) (e : Engine) (pNote : Note) : Note :=
  let fPos : ℚ :=
    (e.m_nSongPos : ℚ)
      + ((Int.tmod pNote.position nSongLength - e.m_nPatternStartTick : Int) : ℚ)
        / (longest_pattern_length e.song e.m_pPlayingPatterns : ℚ)
  if e.song.mode = SongMode.SONG_MODE then
    { pNote with velocity := pNote.velocity * e.velocityAutomation fPos }
  else pNote

/-- The loop of `audioEngine_process_playNotes` that reads from
`m_songNoteQueue`; its first list argument is the queue.  The result is
`none` when the loop computes `position % nSongLength` with `nSongLength = 0`,
which is undefined. -/
def playNotesLoop (nframes : Nat) (nFramepos : Int) (nSongLength : Int) :
    List Note → Engine → Option Engine
  | [], e => some { e with m_songNoteQueue := [] }
  | pNote :: rest, e =>
    if noteIsDue e.m_transport.m_fTickSize nFramepos nframes pNote then
      if e.song.mode = SongMode.SONG_MODE ∧ nSongLength = 0 then
        none
      else if (velocityAutomationAdjust nSongLength e pNote).probability ≠ 1 then
        if (velocityAutomationAdjust nSongLength e pNote).probability < e.uniform e.nDraws then
          playNotesLoop nframes nFramepos nSongLength rest
            ({ e with nDraws := e.nDraws + 1, m_songNoteQueue := rest }.dequeue pNote.instrument)
        else
          playNotesLoop nframes nFramepos nSongLength rest
            (playNote (velocityAutomationAdjust nSongLength e pNote) rest
              { e with nDraws := e.nDraws + 1 })
      else
        playNotesLoop nframes nFramepos nSongLength rest
          (playNote (velocityAutomationAdjust nSongLength e pNote) rest e)
    else
      some { e with m_songNoteQueue := pNote :: rest }

/-- The function `audioEngine_process_playNotes( nframes )`. -/
def audioEngine_process_playNotes (nframes : Nat) (e : Engine) : Option Engine :=
  playNotesLoop nframes (framepos e)
    (if e.song.mode = SongMode.SONG_MODE then e.song.lengthInTicks else 0)
    e.m_songNoteQueue e

/-! ## Audio callback -/

/-- The function `Hydrogen::setBPM( fBPM )` with an audio driver and a song
present; `setBpm` of the driver stores the tempo in its transport. -/
def setBPM (fBPM : ℚ) (e : Engine) : Engine :=
  let fBPM1 : ℚ := if fBPM > MAX_BPM then MAX_BPM else if fBPM < MIN_BPM then MIN_BPM else fBPM
  if e.jackTimebaseState = Timebase.Slave then
    e
  else
    { e with
      m_transport := { e.m_transport with m_fBPM := fBPM1 }
      song := { e.song with bpm := fBPM1 }
      m_fNewBpmJTM := fBPM1 }

/-- The function `audioEngine_process_transport( nFrames )`.  What
`updateTransportInfo()` of the audio driver does to the transport is an input:
`updateTransportInfo`.  A transport status other than rolling or stopped
(`BAD`) falls through the `switch`.  `audioEngine_start` takes the frame
position as an `unsigned`; the realtime frame counter is an `unsigned long`. -/
def audioEngine_process_transport (nFrames : Nat)
    (updateTransportInfo : TransportInfo → TransportInfo) (e : Engine) : Engine :=
  if e.m_audioEngineState ≠ STATE_READY ∧ e.m_audioEngineState ≠ STATE_PLAYING then
    e
  else
    let e1 : Engine := { e with m_transport := updateTransportInfo e.m_transport }
    match e1.m_transport.m_status with
    | TransportStatus.ROLLING =>
      let e2 : Engine :=
        if e1.m_audioEngineState = STATE_READY then
          (audioEngine_start false e1.m_transport.m_nFrames e1).2
        else e1
      if e2.m_audioEngineState ≠ STATE_PLAYING then
        e2
      else
        let e3 : Engine :=
          if e2.song.bpm ≠ e2.m_transport.m_fBPM then setBPM e2.m_transport.m_fBPM e2 else e2
        { e3 with m_nRealtimeFrames := toU64 e3.m_transport.m_nFrames }
    | TransportStatus.STOPPED =>
      let e2 : Engine :=
        if e1.m_audioEngineState = STATE_PLAYING then audioEngine_stop false e1 else e1
      { e2 with m_nRealtimeFrames := toU64 (e2.m_nRealtimeFrames + nFrames) }
    | TransportStatus.BAD => e1

/-- Modelled from the spec: `AudioEngine::locate( 0 )` (its source file is not
part of the sources at hand), "relocate to frame 0". -/
def locate0 (e : Engine) : Engine :=
  { e with m_transport := { e.m_transport with m_nFrames := 0 } }

/-- The update of the master peaks from the output buffers. -/
def updateMasterPeaks (pBuffer : List (ℚ × ℚ)) (e : Engine) : Engine :=
  pBuffer.foldl
    (fun e1 val =>
      { e1 with
        m_fMasterPeak_L := if val.1 > e1.m_fMasterPeak_L then val.1 else e1.m_fMasterPeak_L
        m_fMasterPeak_R := if val.2 > e1.m_fMasterPeak_R then val.2 else e1.m_fMasterPeak_R })
    e

/-- The end of `audioEngine_process`, once the due notes are handed to the
sampler: the master peaks are updated, the transport advances by the buffer
size if the engine is playing, and the pattern-change event is pushed if the
scheduler returned 2. -/
def processFinish (nframes : Nat) (pBuffer : List (ℚ × ℚ)) (nResNoteQueue : Int)
    (e4 : Engine) : Engine :=
  let e5 : Engine :=
    if e4.m_audioEngineState ≥ STATE_READY then updateMasterPeaks pBuffer e4 else e4
  let e6 : Engine :=
    if e5.m_audioEngineState = STATE_PLAYING then
      { e5 with m_transport :=
          { e5.m_transport with m_nFrames := e5.m_transport.m_nFrames + nframes } }
    else e5
  if nResNoteQueue = 2 then push_event EventType.EVENT_PATTERN_CHANGED (-1) e6 else e6

/-- The function `audioEngine_process( nframes, arg )`: the value returned and
the engine afterwards, `none` when the renderer feed hits its undefined
modulo.  Inputs from outside the engine: `bLocked`, whether `try_lock_for`
obtained the engine lock; `updateTransportInfo`, what the driver does to the
transport; `pBuffer`, the content of the output buffers once sampler, synth
and effects have rendered.  Wall-clock measurements are left out. -/
def audioEngine_process (nframes : Nat) (bLocked : Bool)
    (updateTransportInfo : TransportInfo → TransportInfo) (pBuffer : List (ℚ × ℚ))
    (e : Engine) : Option (Int × Engine) :=
  if bLocked = false then
    some (if e.driverClass = DriverClass.DiskWriterDriver then 2 else 0, e)
  else if e.m_audioEngineState < STATE_READY then
    some (0, e)
  else
    let e1 := audioEngine_process_transport nframes updateTransportInfo e
    let e2 := audioEngine_process_checkBPMChanged e1.song e1
    let r := audioEngine_updateNoteQueue nframes e2
    if r.1 = -1 then
      some (if r.2.driverClass = DriverClass.DiskWriterDriver
              ∨ r.2.driverClass = DriverClass.FakeDriver then 1 else 0,
            locate0 (driverStop r.2))
    else
      match audioEngine_process_playNotes nframes r.2 with
      | none => none
      | some e4 => some (0, processFinish nframes pBuffer r.1 e4)

/-- The engine a pass of the tick loop ends with. -/
def TickOutcome.engine : TickOutcome → Engine
  | TickOutcome.next e _ => e
  | TickOutcome.done _ e => e

/-- The engine `e'` agrees with `e` on what neither the scheduler nor the
renderer feed writes: frame position, tick size, engine state, realtime frame
counter, and the mode, loop flag, columns and pattern lengths of the song. -/
def Engine.sameControl (e e' : Engine) : Prop :=
  e'.m_transport.m_nFrames = e.m_transport.m_nFrames ∧
  e'.m_transport.m_fTickSize = e.m_transport.m_fTickSize ∧
  e'.m_audioEngineState = e.m_audioEngineState ∧
  e'.song.mode = e.song.mode ∧
  e'.m_nRealtimeFrames = e.m_nRealtimeFrames ∧
  e'.song.isLoopEnabled = e.song.isLoopEnabled ∧
  e'.song.patternGroupVector = e.song.patternGroupVector ∧
  ∀ p : PatPtr, (e'.song.pattern p).length = (e.song.pattern p).length

/-- The engine in state `e` when `audioEngine_process` has synchronised the
transport and is about to recompute the tick size. -/
def engineAfterTransport (nframes : Nat) (updateTransportInfo : TransportInfo → TransportInfo)
    (e : Engine) : Engine :=
  audioEngine_process_transport nframes updateTransportInfo e

/-- The engine when `audioEngine_process` calls the scheduler: the transport
is synchronised and the tick size recomputed. -/
def engineAtScheduler (nframes : Nat) (updateTransportInfo : TransportInfo → TransportInfo)
    (e : Engine) : Engine :=
  audioEngine_process_checkBPMChanged (engineAfterTransport nframes updateTransportInfo e).song
    (engineAfterTransport nframes updateTransportInfo e)

/-- The engine `e'` has the playing patterns and the next patterns of `e`. -/
def Engine.samePatterns (e e' : Engine) : Prop :=
  e'.m_pPlayingPatterns = e.m_pPlayingPatterns ∧ e'.m_pNextPatterns = e.m_pNextPatterns

/-- Tick position of the transport as `audioEngine_seek` and the scheduler
compute it: frame position divided by tick size in `float`, truncated. -/
def tickPosition (tr : TransportInfo) : Int :=
  ticksOfFrames tr.m_nFrames tr.m_fTickSize

/-! ## Sample data -/

/-- A snare note at the given tick. -/
def noteAt (position : Int) : Note :=
  { instrument := 1, position := position, velocity := 4 / 5, pitch := 0, humanize_delay := 0,
    lead_lag := 0, probability := 1, note_off := false, just_recorded := false }

/-- A song of two columns of 192 and 96 ticks at 120 BPM, resolution 48. -/
def song0 : Song := songOfLengths [192, 96] false

/-- The song `song0` slowed down to 100 BPM (tick size 600 at 48000 Hz). -/
def song100 : Song := { song0 with bpm := 100 }

/-- An engine in state READY on `song0` at 48000 Hz (tick size 500), transport
at frame 0, both note queues empty. -/
def engine0 : Engine :=
  { m_fMasterPeak_L := 1 / 2, m_fMasterPeak_R := 1 / 4, m_fNewBpmJTM := 120,
    m_transport := { m_status := TransportStatus.STOPPED, m_nFrames := 0, m_fTickSize := 500,
                     m_fBPM := 120 },
    sampleRate := 48000, driverClass := DriverClass.OtherDriver, haveJackTransport := false,
    m_currentPos := 0, jackTimebaseState := Timebase.None,
    m_songNoteQueue := [], m_midiNoteQueue := [], m_pNextPatterns := [],
    m_pPlayingPatterns := [], m_nSongPos := 0, m_nSelectedPatternNumber := 0,
    m_audioEngineState := STATE_READY, m_nPatternStartTick := 0, m_nPatternTickPosition := 7,
    m_nSongSizeInTicks := 0, m_nRealtimeFrames := 0,
    song := song0, instruments := fun _ => ⟨0, 1, 0, 0, false⟩, m_pMetronomeInstrument := 0,
    patternModePlaysSelected := false, m_bUseMetronome := false, m_fMetronomeVolume := 1 / 2,
    events := [], samplerNotes := [], velocityAutomation := fun _ => 1, gaussian := fun _ => 0, uniform := fun _ => 0,
    nDraws := 0 }

/-- The engine `engine0` playing at the given frame, with one note waiting in
each queue. -/
def enginePlaying (nFrames : Int) : Engine :=
  { engine0 with
    m_audioEngineState := STATE_PLAYING
    m_transport := { engine0.m_transport with m_status := TransportStatus.ROLLING,
                                              m_nFrames := nFrames }
    m_songNoteQueue := [noteAt 300]
    m_midiNoteQueue := [noteAt 0] }

/-- The engine `engine0`, in state READY, whose driver reports the transport
rolling at the given frame. -/
def engineReadyRolling (nFrames : Int) : Engine :=
  { engine0 with
    m_transport := { engine0.m_transport with m_status := TransportStatus.ROLLING,
                                              m_nFrames := nFrames } }

/-- The engine `engine0` playing `song` at the given frame. -/
def enginePlayingSong (song : Song) (nFrames : Int) : Engine :=
  { engine0 with
    m_audioEngineState := STATE_PLAYING
    song := song
    m_transport := { engine0.m_transport with m_status := TransportStatus.ROLLING,
                                              m_nFrames := nFrames } }

/-- The engine `engine0` with the realtime frame counter at 3000, after
`audioEngine_noteOn` of a note for tick 20 and then of a note for tick 12. -/
def engineMidi : Engine :=
  audioEngine_noteOn (noteAt 12)
    (audioEngine_noteOn (noteAt 20) { engine0 with m_nRealtimeFrames := 3000 })

/-- A song in pattern mode with three patterns of 192 ticks. -/
def songPatternMode : Song :=
  { songOfLengths [192, 192, 192] false with mode := SongMode.PATTERN_MODE }

/-- The engine playing `songPatternMode` at frame 0, pattern 0 playing, no
pattern start tick known yet, with the given next patterns. -/
def enginePatternMode (next : PatternList) : Engine :=
  { enginePlayingSong songPatternMode 0 with
    m_pPlayingPatterns := [0]
    m_pNextPatterns := next
    m_nPatternStartTick := -1 }

/-- The engine playing `songPatternMode` with "play selected pattern" on and
pattern 0 selected, while pattern 1 is playing and is queued as next pattern. -/
def enginePatternSelected : Engine :=
  { enginePatternMode [1] with
    m_pPlayingPatterns := [1]
    patternModePlaysSelected := true
    m_nSelectedPatternNumber := 0 }

/-- The engine `e'` has the song position of `e`: column index, pattern start
tick, position within the pattern and song size in ticks. -/
def Engine.samePosition (e e' : Engine) : Prop :=
  e'.m_nPatternTickPosition = e.m_nPatternTickPosition ∧
  e'.m_nSongPos = e.m_nSongPos ∧
  e'.m_nPatternStartTick = e.m_nPatternStartTick ∧
  e'.m_nSongSizeInTicks = e.m_nSongSizeInTicks

/-- The copy of the template `pNote` that the note loop pushes to the song note
queue at `tick`: position `tick` and, as humanize delay, the offset made of
swing, humanize draw and lead/lag, replaced by 0 when negative at tick 0. -/
def scheduledCopy (tick : Int) (fTickSize : ℚ) (nLeadLagFactor : Int) (e : Engine)
    (pNote : Note) : Note :=
  let nSwing := swingOffset fTickSize e.song.swingFactor e.m_nPatternTickPosition
  let nHumanize : Int :=
    if e.song.humanizeTimeValue ≠ 0 then
      humanizeOffset (getGaussian (3 / 10) e).1 e.song.humanizeTimeValue
    else 0
  let nOffset : Int := nSwing + nHumanize + leadLagOffset pNote.lead_lag nLeadLagFactor
  { pNote with position := tick, humanize_delay := if tick = 0 ∧ nOffset < 0 then 0 else nOffset }

/-- A snare note at tick 1 played as early as the lead/lag setting allows. -/
def noteLead : Note := { noteAt 1 with lead_lag := -1 }

/-- The song `song0` whose first pattern holds the note `noteLead`. -/
def songLead : Song :=
  { song0 with patternList := [⟨192, [noteLead], []⟩, ⟨96, [], []⟩] }

/-- A snare note at tick 1 with the lead/lag `0.7f`. -/
def noteLag : Note := { noteAt 1 with lead_lag := toFloat (7 / 10) }

/-- The song `song0` whose first pattern holds the note `noteLag`. -/
def songLag : Song :=
  { song0 with patternList := [⟨192, [noteLag], []⟩, ⟨96, [], []⟩] }

/-- The song `song0` with a swing factor of 0.5 and, in its first pattern, a
note at tick 12 with the lead/lag 0.5. -/
def songSwingLag : Song :=
  { song0 with
    swingFactor := 1 / 2
    patternList := [⟨192, [{ noteAt 12 with lead_lag := 1 / 2 }], []⟩, ⟨96, [], []⟩] }

/-- The engine `enginePlaying 250` driven by the disk writer. -/
def engineDisk : Engine :=
  { enginePlaying 250 with driverClass := DriverClass.DiskWriterDriver }

/-- The engine `engine0` at frame 250 with a tick size of 0 stored in the
transport. -/
def engineNoTick : Engine :=
  { engine0 with m_transport := { engine0.m_transport with m_fTickSize := 0, m_nFrames := 250 } }

/-- The template `n'` is the template `n`, or `n` with the flag
`just_recorded` cleared: every other field has the value it has in `n`. -/
def Note.sameButRecorded (n n' : Note) : Prop :=
  n' = n ∨ n' = { n with just_recorded := false }

/-- The pattern `p'` is the pattern `p` up to cleared `just_recorded` flags of
its templates: same length, same virtual patterns, the same templates in the
same order. -/
def Pattern.sameTemplates (p p' : Pattern) : Prop :=
  p'.length = p.length ∧
  p'.flattened_virtual_patterns = p.flattened_virtual_patterns ∧
  List.Forall₂ Note.sameButRecorded p.notes p'.notes

/-- The patterns of the song of `e'` are those of the song of `e` up to cleared
`just_recorded` flags. -/
def Engine.sameTemplates (e e' : Engine) : Prop :=
  List.Forall₂ Pattern.sameTemplates e.song.patternList e'.song.patternList

/-- A snare note at tick 0 that has just been recorded. -/
def noteRec : Note := { noteAt 0 with just_recorded := true }

/-- The song `song0` whose first pattern holds the note `noteRec`. -/
def songRec : Song :=
  { song0 with patternList := [⟨192, [noteRec], []⟩, ⟨96, [], []⟩] }

/-- The queue `q`, read from the top, is in order of start time at tick size
`fTickSize`: no note comes out before a note that `compare_pNotes` puts
strictly ahead of it. -/
def queueSorted (fTickSize : ℚ) (q : List Note) : Prop :=
  q.Pairwise (fun a b => noteKey fTickSize a ≤ noteKey fTickSize b)

/-- The song note queue of the engine is in order at the current tick size. -/
def Engine.queueOrdered (e : Engine) : Prop :=
  queueSorted e.m_transport.m_fTickSize e.m_songNoteQueue

/-- The song `song0` with a swing factor of 11/30 (the `float` nearest to it)
and, in its first pattern, a note at tick 12 (which gets the swing offset) and
a note at tick 14. -/
def songSwing : Song :=
  { song0 with
    swingFactor := toFloat (11 / 30)
    patternList := [⟨192, [noteAt 12, noteAt 14], []⟩, ⟨96, [], []⟩] }

/-- The engine playing `songSwing` once the scheduler has queued the ticks 0
to 24 at tick size 500 and the tempo has been set to 100 BPM. -/
def engineSwingQueued : Engine :=
  setBPM 100 (audioEngine_updateNoteQueue 8192 (enginePlayingSong songSwing 0)).2

/-- The engine `engine0` whose JACK timebase is controlled by an external
master. -/
def engineSlave : Engine := { engine0 with jackTimebaseState := Timebase.Slave }

/-- The function `audioEngine_setSong( pNewSong )`, without the setup of the
LADSPA effects and the renaming of the JACK ports.  The message about a state
other than PREPARED is only logged.  The pattern
`pNewSong->getPatternList()->get( 0 )` is the pattern pointer 0; `setBpm` of
the driver stores the tempo in its transport. -/
def audioEngine_setSong (pNewSong : Song) (e : Engine) : Engine :=
  let e1 := audioEngine_process_checkBPMChanged pNewSong e
  let e2 : Engine :=
    if pNewSong.patternList.length > 0 then
      { e1 with m_pPlayingPatterns := PatternList.add e1.m_pPlayingPatterns 0 }
    else e1
  let transport : TransportInfo :=
    { e2.m_transport with
      m_fBPM := pNewSong.bpm
      m_fTickSize := compute_tick_size e2.sampleRate pNewSong.bpm pNewSong.resolution }
  let e3 : Engine := { e2 with m_transport := transport, m_audioEngineState := STATE_READY }
  push_event EventType.EVENT_STATE STATE_READY (locate0 e3)

/-- The function `Hydrogen::getTickForPosition( pos )` on the song `song`. -/
def getTickForPosition (song : Song) (pos : Int) : Int :=
  let nPatternGroups : Int := song.patternGroupVector.length
  if nPatternGroups = 0 then
    -1
  else if pos ≥ nPatternGroups ∧ song.isLoopEnabled = false then
    -1
  else
    let pos1 : Int := if pos ≥ nPatternGroups then Int.tmod pos nPatternGroups else pos
    (song.patternGroupVector.take pos1.toNat).foldl
      (fun totalTick pColumn =>
        totalTick
          + (if pColumn.length > 0 then longest_pattern_length song pColumn else MAX_NOTES))
      0

/-- The ready engine `engine0` with a song in song mode that has no columns,
after `audioEngine_noteOn` of a note for tick 0. -/
def engineNoColumns : Engine :=
  audioEngine_noteOn (noteAt 0) { engine0 with song := songOfLengths [] false }

/-- The engine playing `songSwing` at frame 5120, with the two copies in the
song note queue that the scheduler has pushed for the ticks 12 and 14. -/
def engineLateNote : Engine :=
  { enginePlayingSong songSwing 5120 with
    m_songNoteQueue := [noteAt 14, { noteAt 12 with humanize_delay := 1100 }] }

/-- Number of notes of the queue `q` that refer to instrument `j`. -/
def queuedCount (q : List Note) (j : Nat) : Int :=
  (q.countP (fun n => decide (n.instrument = j)) : Nat)

/-- The counters of the instruments match the queue `q`: for every instrument,
the number of `enqueue()` calls minus the number of `dequeue()` calls is the
number of notes of `q` that refer to it. -/
def queuedMatches (instruments : Nat → Instrument) (q : List Note) : Prop :=
  ∀ j : Nat, (instruments j).queued = queuedCount q j

/-- The counters of the instruments match the song note queue of the engine. -/
def Engine.queuedInvariant (e : Engine) : Prop :=
  queuedMatches e.instruments e.m_songNoteQueue

/-! # Theorems -/

/-! ## Pattern lookup -/

theorem longest_pattern_length_nonneg (song : Song) (l : PatternList) :
    0 ≤ longest_pattern_length song l := by
  induction l with
  | nil => simp [longest_pattern_length]
  | cons p t ih =>
    simp only [longest_pattern_length, List.foldr_cons] at ih ⊢
    exact le_max_of_le_right ih

theorem columnSize_nonneg (song : Song) (c : PatternList) : 0 ≤ columnSize song c := by
  unfold columnSize
  split
  · exact longest_pattern_length_nonneg song c
  · decide

theorem sum_map_columnSize_nonneg (song : Song) (cols : List PatternList) :
    0 ≤ (cols.map (columnSize song)).sum := by
  induction cols with
  | nil => simp
  | cons c t ih =>
    have := columnSize_nonneg song c
    simp only [List.map_cons, List.sum_cons]
    omega

theorem sum_take_map_columnSize_mono (song : Song) (cols : List PatternList) (j k : Nat)
    (hjk : j ≤ k) :
    ((cols.map (columnSize song)).take j).sum ≤ ((cols.map (columnSize song)).take k).sum := by
  induction cols generalizing j k with
  | nil => simp
  | cons c t ih =>
    cases j with
    | zero =>
      simp only [List.take_zero, List.sum_nil]
      rw [← List.map_take]
      exact sum_map_columnSize_nonneg song _
    | succ j =>
      cases k with
      | zero => omega
      | succ k =>
        have := ih j k (by omega)
        simp only [List.map_cons, List.take_succ_cons, List.sum_cons]
        omega

theorem columnStart_mono (song : Song) {j k : Nat} (hjk : j ≤ k) :
    columnStart song j ≤ columnStart song k :=
  sum_take_map_columnSize_mono song song.patternGroupVector j k hjk

theorem columnStart_length (song : Song) :
    columnStart song song.patternGroupVector.length = songSize song := by
  unfold columnStart songSize columnSizes
  rw [List.take_of_length_le (by simp)]

/-- A scan that starts at or before the tick and whose columns reach beyond it
stops in the column that contains the tick. -/
theorem scanColumns_found (song : Song) (T : Int) :
    ∀ (cols : List PatternList) (i acc : Int), acc ≤ T →
      T < acc + (cols.map (columnSize song)).sum →
      ∃ k : Nat, k < cols.length ∧
        scanColumns song T cols i acc
          = Sum.inl (i + k, acc + ((cols.map (columnSize song)).take k).sum) ∧
        acc + ((cols.map (columnSize song)).take k).sum ≤ T ∧
        T < acc + ((cols.map (columnSize song)).take (k + 1)).sum := by
  intro cols
  induction cols with
  | nil => intro i acc h1 h2; simp at h2; omega
  | cons c t ih =>
    intro i acc h1 h2
    simp only [List.map_cons, List.sum_cons] at h2
    by_cases hc : T < acc + columnSize song c
    · refine ⟨0, by simp, ?_, by simpa using h1, by simpa using hc⟩
      simp [scanColumns, h1, hc]
    · obtain ⟨k, hk, hs, hlo, hhi⟩ := ih (i + 1) (acc + columnSize song c) (by omega) (by omega)
      refine ⟨k + 1, by simpa using hk, ?_, ?_, ?_⟩
      · have : ¬ (T ≥ acc ∧ T < acc + columnSize song c) := fun h => hc h.2
        simp only [scanColumns, this, if_false, hs, List.map_cons, List.take_succ_cons,
          List.sum_cons]
        congr 2
        · push_cast; ring
        · ring
      · simp only [List.map_cons, List.take_succ_cons, List.sum_cons]; omega
      · simp only [List.map_cons, List.take_succ_cons, List.sum_cons]; omega

/-- A scan whose tick lies before its start or at or beyond the end of its
columns runs to the end and yields the summed length. -/
theorem scanColumns_notFound (song : Song) (T : Int) :
    ∀ (cols : List PatternList) (i acc : Int),
      (T < acc ∨ acc + (cols.map (columnSize song)).sum ≤ T) →
      scanColumns song T cols i acc = Sum.inr (acc + (cols.map (columnSize song)).sum) := by
  intro cols
  induction cols with
  | nil => intro i acc _; simp [scanColumns]
  | cons c t ih =>
    intro i acc h
    have hc := columnSize_nonneg song c
    have ht := sum_map_columnSize_nonneg song t
    simp only [List.map_cons, List.sum_cons] at h ⊢
    have hno : ¬ (T ≥ acc ∧ T < acc + columnSize song c) := by
      rintro ⟨h1, h2⟩; omega
    simp only [scanColumns, hno, if_false]
    rw [ih (i + 1) (acc + columnSize song c) (by omega)]
    congr 1; ring

/-- The first scan of the lookup on an in-range tick. -/
theorem scanColumns_song_found (song : Song) (T : Int) (h0 : 0 ≤ T) (h1 : T < songSize song) :
    ∃ k : Nat, k < song.patternGroupVector.length ∧
      scanColumns song T song.patternGroupVector 0 0 = Sum.inl ((k : Int), columnStart song k) ∧
      columnStart song k ≤ T ∧ T < columnStart song (k + 1) := by
  obtain ⟨k, hk, hs, hlo, hhi⟩ :=
    scanColumns_found song T song.patternGroupVector 0 0 h0 (by simpa [songSize, columnSizes] using h1)
  refine ⟨k, hk, ?_, ?_, ?_⟩
  · simpa [columnStart, columnSizes] using hs
  · simpa [columnStart, columnSizes] using hlo
  · simpa [columnStart, columnSizes] using hhi

/-- With looping on, a song of positive length and a tick `T ≥ 0`, the lookup
returns what one scan finds for `T % songSize`. -/
theorem findPatternInTick_loop (song : Song) (T : Int) (s0 : Int) (h0 : 0 ≤ T)
    (hL : 0 < songSize song) :
    ∃ k : Nat, k < song.patternGroupVector.length ∧
      (findPatternInTick song T true s0).ret = k ∧
      (findPatternInTick song T true s0).patternStartTick = columnStart song k ∧
      columnStart song k ≤ T % songSize song ∧ T % songSize song < columnStart song (k + 1) := by
  by_cases hT : T < songSize song
  · obtain ⟨k, hk, hs, hlo, hhi⟩ := scanColumns_song_found song T h0 hT
    rw [Int.emod_eq_of_lt h0 hT]
    exact ⟨k, hk, by simp [findPatternInTick, hs], by simp [findPatternInTick, hs], hlo, hhi⟩
  · have hnf := scanColumns_notFound song T song.patternGroupVector 0 0
      (Or.inr (by simpa [songSize, columnSizes] using hT))
    have hsz : (0 : Int) + (song.patternGroupVector.map (columnSize song)).sum = songSize song := by
      simp [songSize, columnSizes]
    rw [hsz] at hnf
    obtain ⟨k, hk, hs, hlo, hhi⟩ := scanColumns_song_found song (T % songSize song)
      (Int.emod_nonneg _ (ne_of_gt hL)) (Int.emod_lt_of_pos _ hL)
    have hne : songSize song ≠ 0 := ne_of_gt hL
    have htm : Int.tmod T (songSize song) = T % songSize song :=
      Int.tmod_eq_emod h0 (le_of_lt hL)
    exact ⟨k, hk, by simp [findPatternInTick, hnf, hne, htm, hs],
      by simp [findPatternInTick, hnf, hne, htm, hs], hlo, hhi⟩

/-- C1. In-range lookup: for a tick `T` with `0 ≤ T < songSize`, whatever the
loop flag and the previous content of the start-tick output,
`findPatternInTick` returns the index `i` of the one column with
`columnStart i ≤ T < columnStart (i + 1)` and writes `columnStart i`, the
summed length of the columns before `i`; no other column index has that
property. -/
theorem findPatternInTick_in_range (song : Song) (T : Int) (loop : Bool) (s0 : Int)
    (h0 : 0 ≤ T) (h1 : T < songSize song) :
    ∃ i : Nat, i < song.patternGroupVector.length ∧
      (findPatternInTick song T loop s0).ret = i ∧
      (findPatternInTick song T loop s0).patternStartTick = columnStart song i ∧
      columnStart song i ≤ T ∧ T < columnStart song (i + 1) ∧
      ∀ j : Nat, j < song.patternGroupVector.length →
        columnStart song j ≤ T → T < columnStart song (j + 1) → j = i := by
  obtain ⟨k, hk, hs, hlo, hhi⟩ := scanColumns_song_found song T h0 h1
  refine ⟨k, hk, by simp [findPatternInTick, hs], by simp [findPatternInTick, hs], hlo, hhi, ?_⟩
  intro j _ hjlo hjhi
  by_contra hne
  rcases Nat.lt_or_gt_of_ne hne with h | h
  · have := columnStart_mono song (show j + 1 ≤ k by omega)
    omega
  · have := columnStart_mono song (show k + 1 ≤ j by omega)
    omega

/-- Witness of C1: columns of 192 and 96 ticks, tick 200. -/
theorem findPatternInTick_in_range_witness :
    ∃ i : Nat, i < (songOfLengths [192, 96] false).patternGroupVector.length ∧
      (findPatternInTick (songOfLengths [192, 96] false) 200 false 7).ret = i ∧
      (findPatternInTick (songOfLengths [192, 96] false) 200 false 7).patternStartTick
        = columnStart (songOfLengths [192, 96] false) i ∧
      columnStart (songOfLengths [192, 96] false) i ≤ 200 ∧
      200 < columnStart (songOfLengths [192, 96] false) (i + 1) ∧
      ∀ j : Nat, j < (songOfLengths [192, 96] false).patternGroupVector.length →
        columnStart (songOfLengths [192, 96] false) j ≤ 200 →
        200 < columnStart (songOfLengths [192, 96] false) (j + 1) → j = i :=
  findPatternInTick_in_range (songOfLengths [192, 96] false) 200 false 7 (by decide) (by decide)

/-- C2. Loop periodicity: for a song of total length `L > 0` and a tick
`T ≥ 0`, the lookups of `T` and of `T + L` with looping on return the same
column index and write the same start tick. -/
theorem findPatternInTick_loop_periodic (song : Song) (T : Int) (s0 s1 : Int)
    (hL : 0 < songSize song) (h0 : 0 ≤ T) :
    (findPatternInTick song (T + songSize song) true s1).ret
        = (findPatternInTick song T true s0).ret ∧
      (findPatternInTick song (T + songSize song) true s1).patternStartTick
        = (findPatternInTick song T true s0).patternStartTick := by
  obtain ⟨k, hk, hr, hs, hlo, hhi⟩ := findPatternInTick_loop song T s0 h0 hL
  obtain ⟨k2, hk2, hr2, hs2, hlo2, hhi2⟩ :=
    findPatternInTick_loop song (T + songSize song) s1 (by omega) hL
  rw [Int.add_emod_self] at hlo2 hhi2
  have hkk : k2 = k := by
    by_contra hne
    rcases Nat.lt_or_gt_of_ne hne with h | h
    · have := columnStart_mono song (show k2 + 1 ≤ k by omega)
      omega
    · have := columnStart_mono song (show k + 1 ≤ k2 by omega)
      omega
  subst hkk
  exact ⟨by rw [hr, hr2], by rw [hs, hs2]⟩

/-- Witness of C2: columns of 192 and 96 ticks (288 in all); tick 300 resolves
as tick 12 does, to column 0 starting at tick 0. -/
theorem findPatternInTick_loop_periodic_witness :
    ((findPatternInTick (songOfLengths [192, 96] true)
          (12 + songSize (songOfLengths [192, 96] true)) true 0).ret
        = (findPatternInTick (songOfLengths [192, 96] true) 12 true 0).ret ∧
      (findPatternInTick (songOfLengths [192, 96] true)
          (12 + songSize (songOfLengths [192, 96] true)) true 0).patternStartTick
        = (findPatternInTick (songOfLengths [192, 96] true) 12 true 0).patternStartTick) ∧
    songSize (songOfLengths [192, 96] true) = 288 ∧
    findPatternInTick (songOfLengths [192, 96] true) 300 true 0 = ⟨0, 0, 288⟩ ∧
    findPatternInTick (songOfLengths [192, 96] true) 12 true 0 = ⟨0, 0, 0⟩ :=
  ⟨findPatternInTick_loop_periodic (songOfLengths [192, 96] true) 12 0 0 (by decide) (by decide),
    by decide, by decide, by decide⟩

/-! ## Arithmetic of the conversions -/

theorem truncQ_of_nonneg {q : ℚ} (h : 0 ≤ q) : truncQ q = ⌊q⌋ := by
  simp [truncQ, h]

theorem truncQ_intCast (n : Int) : truncQ (n : ℚ) = n := by
  unfold truncQ
  split <;> simp

theorem truncQ_eq_of_bounds {q : ℚ} {n : Int} (h0 : 0 ≤ q) (h1 : (n : ℚ) ≤ q)
    (h2 : q < n + 1) : truncQ q = n := by
  rw [truncQ_of_nonneg h0, Int.floor_eq_iff]
  exact ⟨h1, h2⟩

theorem toU32_of_bounds {x : Int} (h0 : 0 ≤ x) (h1 : x < 4294967296) : toU32 x = x :=
  Int.emod_eq_of_lt h0 h1

theorem toU32_nonneg (x : Int) : 0 ≤ toU32 x :=
  Int.emod_nonneg x (by norm_num)

theorem toU32_lt (x : Int) : toU32 x < 4294967296 :=
  Int.emod_lt_of_pos x (by norm_num)

/-! ## Arithmetic of the floating-point rounding -/

theorem pow2_eq_zpow (k : Int) : pow2 k = (2 : ℚ) ^ k := by
  unfold pow2
  split_ifs with h
  · obtain ⟨n, rfl⟩ := Int.eq_ofNat_of_zero_le h
    simp
  · have h' : 0 ≤ -k := by omega
    obtain ⟨n, hn⟩ := Int.eq_ofNat_of_zero_le h'
    have hk : k = -(n : Int) := by omega
    subst hk
    simp

theorem pow2_pos (k : Int) : 0 < pow2 k := by
  rw [pow2_eq_zpow]
  positivity

theorem log2Fuel_spec (fuel n : Nat) (hfuel : n ≤ fuel) (hn : n ≠ 0) :
    2 ^ log2Fuel fuel n ≤ n ∧ n < 2 ^ (log2Fuel fuel n + 1) := by
  induction fuel generalizing n with
  | zero => omega
  | succ fuel ih =>
    rw [log2Fuel]
    split_ifs with h2
    · have : n = 1 := by omega
      subst this
      simp
    · have hdiv : n / 2 ≤ fuel := by omega
      have hne : n / 2 ≠ 0 := by omega
      obtain ⟨h1, h3⟩ := ih (n / 2) hdiv hne
      rw [pow_succ] at h3 ⊢
      rw [pow_succ]
      constructor <;> omega

theorem log2Floor_spec (n : Nat) (hn : n ≠ 0) :
    2 ^ log2Floor n ≤ n ∧ n < 2 ^ (log2Floor n + 1) :=
  log2Fuel_spec n n (le_refl n) hn

/-- The binary exponent brackets the number. -/
theorem binExp_spec (q : ℚ) (hq : q ≠ 0) :
    pow2 (binExp q) ≤ |q| ∧ |q| < pow2 (binExp q + 1) := by
  have hnum : q.num.natAbs ≠ 0 := by
    simpa [Int.natAbs_eq_zero] using hq
  have hden : q.den ≠ 0 := q.den_nz
  obtain ⟨ha1, ha2⟩ := log2Floor_spec _ hnum
  obtain ⟨hb1, hb2⟩ := log2Floor_spec _ hden
  have habs : |q| = (q.num.natAbs : ℚ) / (q.den : ℚ) := by
    conv_lhs => rw [← Rat.num_div_den q]
    rw [abs_div, Nat.abs_cast]
    congr 1
    have h := Int.natCast_natAbs q.num
    have h' : (q.num.natAbs : ℚ) = ((|q.num| : Int) : ℚ) := by
      rw [← h, Int.cast_natCast]
    rw [h', Int.cast_abs]
  have hdpos : (0 : ℚ) < q.den := by exact_mod_cast Nat.pos_of_ne_zero hden
  have ha1' : (2 : ℚ) ^ log2Floor q.num.natAbs ≤ (q.num.natAbs : ℚ) := by exact_mod_cast ha1
  have ha2' : (q.num.natAbs : ℚ) < (2 : ℚ) ^ (log2Floor q.num.natAbs + 1) := by
    exact_mod_cast ha2
  have hb1' : (2 : ℚ) ^ log2Floor q.den ≤ (q.den : ℚ) := by exact_mod_cast hb1
  have hb2' : (q.den : ℚ) < (2 : ℚ) ^ (log2Floor q.den + 1) := by exact_mod_cast hb2
  have h2 : (0 : ℚ) < 2 := by norm_num
  have e1 : (2 : ℚ) ^ ((log2Floor q.num.natAbs : Int) - (log2Floor q.den : Int) + 1)
      = (2 : ℚ) ^ (log2Floor q.num.natAbs + 1) / (2 : ℚ) ^ log2Floor q.den := by
    rw [show ((log2Floor q.num.natAbs : Int) - (log2Floor q.den : Int) + 1)
        = ((log2Floor q.num.natAbs + 1 : Nat) : Int) - ((log2Floor q.den : Nat) : Int) by
      push_cast; ring]
    rw [zpow_sub₀ (ne_of_gt h2), zpow_natCast, zpow_natCast]
  have e2 : (2 : ℚ) ^ ((log2Floor q.num.natAbs : Int) - (log2Floor q.den : Int) - 1)
      = (2 : ℚ) ^ log2Floor q.num.natAbs / (2 : ℚ) ^ (log2Floor q.den + 1) := by
    rw [show ((log2Floor q.num.natAbs : Int) - (log2Floor q.den : Int) - 1)
        = ((log2Floor q.num.natAbs : Nat) : Int) - ((log2Floor q.den + 1 : Nat) : Int) by
      push_cast; ring]
    rw [zpow_sub₀ (ne_of_gt h2), zpow_natCast, zpow_natCast]
  unfold binExp
  split_ifs with htest
  · refine ⟨htest, ?_⟩
    rw [pow2_eq_zpow, e1, habs]
    rw [div_lt_div_iff₀ hdpos (by positivity)]
    calc (q.num.natAbs : ℚ) * (2 : ℚ) ^ log2Floor q.den
        ≤ (q.num.natAbs : ℚ) * q.den := by
          apply mul_le_mul_of_nonneg_left hb1' (by positivity)
      _ < (2 : ℚ) ^ (log2Floor q.num.natAbs + 1) * q.den := by
          apply mul_lt_mul_of_pos_right ha2' hdpos
  · constructor
    · rw [pow2_eq_zpow, e2, habs]
      rw [div_le_div_iff₀ (by positivity) hdpos]
      calc (2 : ℚ) ^ log2Floor q.num.natAbs * q.den
          ≤ (q.num.natAbs : ℚ) * q.den := by
            apply mul_le_mul_of_nonneg_right ha1' (le_of_lt hdpos)
        _ ≤ (q.num.natAbs : ℚ) * (2 : ℚ) ^ (log2Floor q.den + 1) := by
            apply mul_le_mul_of_nonneg_left (le_of_lt hb2') (by positivity)
    · rw [show ((log2Floor q.num.natAbs : Int) - (log2Floor q.den : Int) - 1 + 1)
          = (log2Floor q.num.natAbs : Int) - (log2Floor q.den : Int) by ring]
      exact lt_of_not_le htest

theorem roundNE_intCast (n : Int) : roundNE (n : ℚ) = n := by
  unfold roundNE
  simp

theorem roundNE_error (x : ℚ) : |(roundNE x : ℚ) - x| ≤ 1 / 2 := by
  have h1 := Int.floor_le x
  have h2 := Int.lt_floor_add_one x
  unfold roundNE
  split_ifs with a b c
  · rw [abs_le]; constructor <;> linarith
  · rw [abs_le]; push_cast; constructor <;> linarith
  · rw [abs_le]; constructor <;> linarith
  · rw [abs_le]; push_cast; constructor <;> linarith

/-- An integer of fewer than `p` bits is a floating-point number of `p` bits. -/
theorem roundBits_intCast (p : Nat) (n : Int) (hn : |n| < 2 ^ p) :
    roundBits p (n : ℚ) = n := by
  unfold roundBits
  by_cases h0 : (n : ℚ) = 0
  · rw [if_pos h0, h0]
  · rw [if_neg h0]
    obtain ⟨hlo, _⟩ := binExp_spec (n : ℚ) h0
    have hlt : pow2 (binExp (n : ℚ)) < pow2 (p : Int) := by
      refine lt_of_le_of_lt hlo ?_
      rw [pow2_eq_zpow, zpow_natCast, ← Int.cast_abs]
      exact_mod_cast hn
    rw [pow2_eq_zpow, pow2_eq_zpow] at hlt
    have he : binExp (n : ℚ) < (p : Int) := (zpow_lt_zpow_iff_right₀ (by norm_num)).1 hlt
    have hj : 0 ≤ (p : Int) - 1 - binExp (n : ℚ) := by omega
    obtain ⟨j, hj'⟩ := Int.eq_ofNat_of_zero_le hj
    have hs : pow2 (binExp (n : ℚ) - ((p : Int) - 1)) = 1 / (2 : ℚ) ^ j := by
      rw [pow2_eq_zpow, show binExp (n : ℚ) - ((p : Int) - 1) = -(j : Int) by omega]
      rw [zpow_neg, zpow_natCast, one_div]
    rw [hs]
    have hq : (n : ℚ) / (1 / (2 : ℚ) ^ j) = ((n * 2 ^ j : Int) : ℚ) := by
      push_cast
      field_simp
    rw [hq, roundNE_intCast]
    push_cast
    field_simp

/-- The relative error of rounding to `p` bits is at most `2 ^ (-p)`. -/
theorem roundBits_error (p : Nat) (q : ℚ) :
    |roundBits p q - q| ≤ |q| / 2 ^ p := by
  unfold roundBits
  by_cases h0 : q = 0
  · rw [if_pos h0, h0]
    simp
  · rw [if_neg h0]
    obtain ⟨hlo, _⟩ := binExp_spec q h0
    have hspos := pow2_pos (binExp q - ((p : Int) - 1))
    have herr := roundNE_error (q / pow2 (binExp q - ((p : Int) - 1)))
    have hs : pow2 (binExp q - ((p : Int) - 1)) / 2 = pow2 (binExp q) / 2 ^ p := by
      rw [pow2_eq_zpow, pow2_eq_zpow,
        show binExp q - ((p : Int) - 1) = binExp q - (p : Int) + 1 by ring,
        zpow_add_one₀ (by norm_num), zpow_sub₀ (by norm_num), zpow_natCast]
      ring
    have hfac : (roundNE (q / pow2 (binExp q - ((p : Int) - 1))) : ℚ)
          * pow2 (binExp q - ((p : Int) - 1)) - q
        = ((roundNE (q / pow2 (binExp q - ((p : Int) - 1))) : ℚ)
            - q / pow2 (binExp q - ((p : Int) - 1))) * pow2 (binExp q - ((p : Int) - 1)) := by
      field_simp
    rw [hfac, abs_mul, abs_of_pos hspos]
    calc |(roundNE (q / pow2 (binExp q - ((p : Int) - 1))) : ℚ)
            - q / pow2 (binExp q - ((p : Int) - 1))| * pow2 (binExp q - ((p : Int) - 1))
        ≤ 1 / 2 * pow2 (binExp q - ((p : Int) - 1)) :=
          mul_le_mul_of_nonneg_right herr (le_of_lt hspos)
      _ = pow2 (binExp q) / 2 ^ p := by rw [← hs]; ring
      _ ≤ |q| / 2 ^ p := by
          apply div_le_div_of_nonneg_right hlo (by positivity)

/-- Truncating the `float` nearest to a fraction `a / D` with `0 ≤ a < 2 ^ 24`
gives the whole part of the fraction. -/
theorem truncQ_toFloat_div (a D : Int) (ha : 0 ≤ a) (ha2 : a < 16777216) (hD : 0 < D) :
    truncQ (toFloat ((a : ℚ) / (D : ℚ))) = a / D := by
  have hDq : (0 : ℚ) < D := by exact_mod_cast hD
  have hmod := Int.emod_add_ediv a D
  have hr0 := Int.emod_nonneg a (ne_of_gt hD)
  have hr1 := Int.emod_lt_of_pos a hD
  have hn0 : 0 ≤ a / D := Int.ediv_nonneg ha (le_of_lt hD)
  have hx : (a : ℚ) / D = ((a / D : Int) : ℚ) + ((a % D : Int) : ℚ) / D := by
    have : (a : ℚ) = ((a % D : Int) : ℚ) + (D : ℚ) * ((a / D : Int) : ℚ) := by
      exact_mod_cast hmod.symm
    field_simp
    linarith
  by_cases hr : a % D = 0
  · have hxn : (a : ℚ) / D = ((a / D : Int) : ℚ) := by
      rw [hx, hr]; simp
    have hnle : a / D ≤ a := Int.ediv_le_self D ha
    rw [hxn]
    unfold toFloat
    rw [roundBits_intCast 24 (a / D) (by rw [abs_of_nonneg hn0]; omega)]
    unfold truncQ
    have : (0 : ℚ) ≤ ((a / D : Int) : ℚ) := by exact_mod_cast hn0
    rw [if_pos this, Int.floor_intCast]
  · have hrpos : 1 ≤ a % D := by omega
    have hapos : (0 : ℚ) < a := by
      have : 0 < a := by
        by_contra hcon
        have : a = 0 := by omega
        subst this
        simp at hr
      exact_mod_cast this
    have herr := roundBits_error 24 ((a : ℚ) / D)
    rw [abs_of_pos (div_pos hapos hDq)] at herr
    have hbound : (a : ℚ) / D / 2 ^ 24 < 1 / D := by
      rw [div_div, div_lt_div_iff₀ (by positivity) hDq]
      have : (a : ℚ) < 2 ^ 24 := by
        have : (a : ℚ) < 16777216 := by exact_mod_cast ha2
        norm_num
        exact this
      nlinarith
    have hlow : ((a / D : Int) : ℚ) + 1 / D ≤ (a : ℚ) / D := by
      rw [hx]
      have : (1 : ℚ) ≤ ((a % D : Int) : ℚ) := by exact_mod_cast hrpos
      have := div_le_div_of_nonneg_right this (le_of_lt hDq)
      linarith
    have hhigh : (a : ℚ) / D ≤ ((a / D : Int) : ℚ) + 1 - 1 / D := by
      rw [hx]
      have h1 : ((a % D : Int) : ℚ) ≤ (D : ℚ) - 1 := by
        have : a % D ≤ D - 1 := by omega
        exact_mod_cast this
      have h2 := div_le_div_of_nonneg_right h1 (le_of_lt hDq)
      have h3 : ((D : ℚ) - 1) / D = 1 - 1 / D := by field_simp
      linarith
    rw [abs_le] at herr
    have hf1 : ((a / D : Int) : ℚ) < toFloat ((a : ℚ) / D) := by
      unfold toFloat; linarith [herr.1]
    have hf2 : toFloat ((a : ℚ) / D) < ((a / D : Int) : ℚ) + 1 := by
      unfold toFloat; linarith [herr.2]
    have hf0 : (0 : ℚ) ≤ toFloat ((a : ℚ) / D) := by
      have : (0 : ℚ) ≤ ((a / D : Int) : ℚ) := by exact_mod_cast hn0
      linarith
    unfold truncQ
    rw [if_pos hf0, Int.floor_eq_iff]
    exact ⟨le_of_lt hf1, hf2⟩

/-- An integer below `2 ^ 24` in absolute value is a `float`. -/
theorem toFloat_intCast (n : Int) (hn : |n| < 16777216) : toFloat (n : ℚ) = n :=
  roundBits_intCast 24 n (by norm_num; exact hn)

/-- An integer below `2 ^ 53` in absolute value is a `double`. -/
theorem toDouble_intCast (n : Int) (hn : |n| < 9007199254740992) : toDouble (n : ℚ) = n :=
  roundBits_intCast 53 n (by norm_num; exact hn)

theorem floor_intCast_div (a D : Int) (hD : 0 < D) : ⌊(a : ℚ) / (D : ℚ)⌋ = a / D := by
  obtain ⟨d, rfl⟩ := Int.eq_ofNat_of_zero_le (le_of_lt hD)
  exact_mod_cast Rat.floor_intCast_div_natCast a d

/-- The tick number of a frame position is the whole part of the exact quotient
when the frame position times the denominator of the tick size is below
`2 ^ 24`. -/
theorem ticksOfFrames_exact (f : Int) (ts : ℚ) (hf : 0 ≤ f) (hts : 0 < ts)
    (h : f * (ts.den : Int) < 16777216) : ticksOfFrames f ts = ⌊(f : ℚ) / ts⌋ := by
  have hden : (1 : Int) ≤ (ts.den : Int) := by exact_mod_cast ts.den_pos
  have hnum : 0 < ts.num := Rat.num_pos.mpr hts
  have hf2 : f < 16777216 := by nlinarith
  have hq : (f : ℚ) / ts = ((f * (ts.den : Int) : Int) : ℚ) / (ts.num : ℚ) := by
    have hnq : (ts.num : ℚ) ≠ 0 := by exact_mod_cast ne_of_gt hnum
    have hdq : (ts.den : ℚ) ≠ 0 := by exact_mod_cast ts.den_nz
    conv_lhs => rw [← Rat.num_div_den ts]
    push_cast
    field_simp
  unfold ticksOfFrames
  rw [toFloat_intCast f (by rw [abs_of_nonneg hf]; exact hf2), hq,
    truncQ_toFloat_div _ _ (mul_nonneg hf (by omega)) h hnum, floor_intCast_div _ _ hnum]

/-- The lead/lag factor is the whole part of five tick sizes when five times
the numerator of the tick size is below `2 ^ 24`. -/
theorem calculateLeadLagFactor_exact (ts : ℚ) (hts : 0 < ts) (h : 5 * ts.num < 16777216) :
    calculateLeadLagFactor ts = ⌊5 * ts⌋ := by
  have hnum : 0 < ts.num := Rat.num_pos.mpr hts
  have hdpos : (0 : Int) < (ts.den : Int) := by exact_mod_cast ts.den_pos
  have hq : ts * 5 = ((5 * ts.num : Int) : ℚ) / ((ts.den : Int) : ℚ) := by
    have hdq : (ts.den : ℚ) ≠ 0 := by exact_mod_cast ts.den_nz
    conv_lhs => rw [← Rat.num_div_den ts]
    push_cast
    field_simp
    ring
  unfold calculateLeadLagFactor
  rw [hq, truncQ_toFloat_div _ _ (by omega) h hdpos, ← floor_intCast_div _ _ hdpos, ← hq, mul_comm]

/-- Rounding to `p` bits keeps the sign. -/
theorem roundBits_nonneg (p : Nat) (q : ℚ) (hq : 0 ≤ q) : 0 ≤ roundBits p q := by
  have herr := roundBits_error p q
  rw [abs_of_nonneg hq, abs_le] at herr
  have h1 : q / 2 ^ p ≤ q := by
    apply div_le_self hq
    exact one_le_pow₀ (by norm_num)
  linarith [herr.1]

theorem calculateLeadLagFactor_nonneg (ts : ℚ) (hts : 0 ≤ ts) :
    0 ≤ calculateLeadLagFactor ts := by
  unfold calculateLeadLagFactor
  have h : (0 : ℚ) ≤ toFloat (ts * 5) := roundBits_nonneg 24 _ (by positivity)
  rw [truncQ_of_nonneg h]
  exact Int.floor_nonneg.mpr h

theorem toI32_toU32_of_bounds {x : Int} (h0 : 0 ≤ x) (h1 : x < 2147483648) :
    toI32 (toU32 x) = x := by
  have h : toU32 x = x := toU32_of_bounds h0 (by omega)
  unfold toI32
  rw [h, h, if_pos h1]

theorem toFloat_nonneg (q : ℚ) (hq : 0 ≤ q) : 0 ≤ toFloat q := roundBits_nonneg 24 q hq

theorem ticksOfFrames_nonneg (f : Int) (ts : ℚ) (hf : 0 ≤ f) (hts : 0 < ts) :
    0 ≤ ticksOfFrames f ts := by
  have h1 : (0 : ℚ) ≤ toFloat (f : ℚ) := toFloat_nonneg _ (by exact_mod_cast hf)
  have h2 : (0 : ℚ) ≤ toFloat (toFloat (f : ℚ) / ts) :=
    toFloat_nonneg _ (div_nonneg h1 (le_of_lt hts))
  unfold ticksOfFrames
  rw [truncQ_of_nonneg h2]
  exact Int.floor_nonneg.mpr h2

/-- A number `m * 2 ^ k` with `|m| < 2 ^ p` is a floating-point number of `p`
bits. -/
theorem roundBits_repr (p : Nat) (m k : Int) (hm : |m| < 2 ^ p) :
    roundBits p ((m : ℚ) * pow2 k) = (m : ℚ) * pow2 k := by
  have hk := pow2_pos k
  by_cases h0 : (m : ℚ) * pow2 k = 0
  · unfold roundBits
    rw [if_pos h0, h0]
  · unfold roundBits
    rw [if_neg h0]
    obtain ⟨hlo, _⟩ := binExp_spec _ h0
    generalize binExp ((m : ℚ) * pow2 k) = E at hlo ⊢
    have hmq : |(m : ℚ)| < (2 : ℚ) ^ p := by
      rw [← Int.cast_abs]
      exact_mod_cast hm
    have hlt : (2 : ℚ) ^ E < (2 : ℚ) ^ ((p : Int) + k) := by
      rw [← pow2_eq_zpow E]
      refine lt_of_le_of_lt hlo ?_
      rw [abs_mul, abs_of_pos hk, pow2_eq_zpow k, zpow_add₀ (by norm_num), zpow_natCast]
      exact mul_lt_mul_of_pos_right hmq (by positivity)
    have he : E < (p : Int) + k := (zpow_lt_zpow_iff_right₀ (by norm_num)).1 hlt
    have hj : 0 ≤ k - (E - ((p : Int) - 1)) := by omega
    obtain ⟨j, hj'⟩ := Int.eq_ofNat_of_zero_le hj
    have hs : pow2 k = (2 : ℚ) ^ j * pow2 (E - ((p : Int) - 1)) := by
      rw [pow2_eq_zpow k, pow2_eq_zpow (E - ((p : Int) - 1)), ← zpow_natCast,
        ← zpow_add₀ (by norm_num)]
      congr 1
      omega
    have hspos := pow2_pos (E - ((p : Int) - 1))
    have hq : (m : ℚ) * pow2 k / pow2 (E - ((p : Int) - 1)) = ((m * 2 ^ j : Int) : ℚ) := by
      rw [div_eq_iff (ne_of_gt hspos)]
      push_cast
      rw [hs]
      ring
    rw [hq, roundNE_intCast]
    push_cast
    rw [hs]
    ring

/-- A value that rounding to `p` bits leaves as it is has the form `m * 2 ^ k`
with `|m| < 2 ^ p`. -/
theorem repr_of_roundBits (p : Nat) (q : ℚ) (h : roundBits p q = q) :
    ∃ m k : Int, |m| < 2 ^ p ∧ q = (m : ℚ) * pow2 k := by
  by_cases h0 : q = 0
  · exact ⟨0, 0, by simp, by simp [h0]⟩
  · unfold roundBits at h
    rw [if_neg h0] at h
    obtain ⟨_, hhi⟩ := binExp_spec q h0
    have hspos := pow2_pos (binExp q - ((p : Int) - 1))
    refine ⟨roundNE (q / pow2 (binExp q - ((p : Int) - 1))), binExp q - ((p : Int) - 1), ?_,
      h.symm⟩
    have hn : (roundNE (q / pow2 (binExp q - ((p : Int) - 1))) : ℚ)
        = q / pow2 (binExp q - ((p : Int) - 1)) := by
      rw [eq_div_iff (ne_of_gt hspos)]
      exact h
    have habs : |(roundNE (q / pow2 (binExp q - ((p : Int) - 1))) : ℚ)| < (2 : ℚ) ^ p := by
      rw [hn, abs_div, abs_of_pos hspos, div_lt_iff₀ hspos]
      refine lt_of_lt_of_le hhi (le_of_eq ?_)
      rw [pow2_eq_zpow, pow2_eq_zpow, ← zpow_natCast, ← zpow_add₀ (by norm_num)]
      congr 1
      omega
    rw [← Int.cast_abs] at habs
    exact_mod_cast habs

theorem pow2_add (a b : Int) : pow2 (a + b) = pow2 a * pow2 b := by
  rw [pow2_eq_zpow, pow2_eq_zpow, pow2_eq_zpow, zpow_add₀ (by norm_num)]

/-- The swing product `6.0 * fTickSize * fSwingFactor` is exact in `double`
when tick size and swing factor are `float` values. -/
theorem swing_product_exact (ts sw : ℚ) (hts : toFloat ts = ts) (hsw : toFloat sw = sw) :
    toDouble (toDouble (6 * ts) * sw) = 6 * ts * sw := by
  obtain ⟨m1, k1, hm1, h1⟩ := repr_of_roundBits 24 ts hts
  obtain ⟨m2, k2, hm2, h2⟩ := repr_of_roundBits 24 sw hsw
  have hm1' : |m1| < 16777216 := by norm_num at hm1; exact hm1
  have hm2' : |m2| < 16777216 := by norm_num at hm2; exact hm2
  have e1 : 6 * ts = ((6 * m1 : Int) : ℚ) * pow2 k1 := by
    rw [h1]; push_cast; ring
  have hb1 : |6 * m1| < 2 ^ 53 := by
    rw [abs_mul]
    norm_num
    omega
  have hd1 : toDouble (6 * ts) = 6 * ts := by
    unfold toDouble
    rw [e1]
    exact roundBits_repr 53 _ _ hb1
  have e2 : 6 * ts * sw = ((6 * m1 * m2 : Int) : ℚ) * pow2 (k1 + k2) := by
    rw [h1, h2, pow2_add]; push_cast; ring
  have hb2 : |6 * m1 * m2| < 2 ^ 53 := by
    rw [abs_mul, abs_mul]
    have ha1 := abs_nonneg m1
    have ha2 := abs_nonneg m2
    norm_num
    nlinarith
  rw [hd1]
  unfold toDouble
  rw [e2]
  exact roundBits_repr 53 _ _ hb2

theorem roundNE_neg (x : ℚ) : roundNE (-x) = -roundNE x := by
  have h1 := Int.floor_le x
  have h2 := Int.lt_floor_add_one x
  have h3 := Int.floor_le (-x)
  have h4 := Int.lt_floor_add_one (-x)
  have hcases : ⌊-x⌋ = -⌊x⌋ ∨ ⌊-x⌋ = -⌊x⌋ - 1 := by
    have a : (⌊-x⌋ : ℚ) < -(⌊x⌋ : ℚ) + 1 := by linarith
    have b : -(⌊x⌋ : ℚ) - 2 < (⌊-x⌋ : ℚ) := by linarith
    have a' : ⌊-x⌋ < -⌊x⌋ + 1 := by exact_mod_cast a
    have b' : -⌊x⌋ - 2 < ⌊-x⌋ := by exact_mod_cast b
    omega
  unfold roundNE
  rcases hcases with hc | hc
  · have hx : x = ⌊x⌋ := by
      have : (⌊-x⌋ : ℚ) = -(⌊x⌋ : ℚ) := by exact_mod_cast hc
      linarith
    have e1 : x - (⌊x⌋ : ℚ) = 0 := by linarith
    have e2 : -x - (⌊-x⌋ : ℚ) = 0 := by
      have : (⌊-x⌋ : ℚ) = -(⌊x⌋ : ℚ) := by exact_mod_cast hc
      linarith
    rw [e1, e2]
    norm_num
    exact hc
  · have hcq : (⌊-x⌋ : ℚ) = -(⌊x⌋ : ℚ) - 1 := by exact_mod_cast hc
    have e2 : -x - (⌊-x⌋ : ℚ) = 1 - (x - (⌊x⌋ : ℚ)) := by rw [hcq]; ring
    rw [e2]
    split_ifs <;> first | omega | (exfalso; linarith)

theorem binExp_neg (q : ℚ) : binExp (-q) = binExp q := by
  unfold binExp
  simp only [Rat.neg_num, Rat.neg_den, Int.natAbs_neg, abs_neg]

theorem roundBits_neg (p : Nat) (q : ℚ) : roundBits p (-q) = -roundBits p q := by
  unfold roundBits
  by_cases h0 : q = 0
  · simp [h0]
  · have h0' : -q ≠ 0 := neg_ne_zero.mpr h0
    rw [if_neg h0, if_neg h0', binExp_neg, neg_div, roundNE_neg]
    push_cast
    ring

theorem truncQ_neg (q : ℚ) : truncQ (-q) = -truncQ q := by
  unfold truncQ
  by_cases h : q = 0
  · simp [h]
  · rcases lt_or_gt_of_ne h with hlt | hgt
    · have h1 : 0 ≤ -q := by linarith
      have h2 : ¬ 0 ≤ q := by linarith
      rw [if_pos h1, if_neg h2, Int.floor_neg]
    · have h1 : ¬ 0 ≤ -q := by linarith
      have h2 : 0 ≤ q := by linarith
      rw [if_neg h1, if_pos h2, Int.ceil_neg]

/-- Rounding to `float` does not change the whole part of a fraction `a / D`
with `|a| < 2 ^ 24`. -/
theorem truncQ_toFloat_frac (a D : Int) (ha : |a| < 16777216) (hD : 0 < D) :
    truncQ (toFloat ((a : ℚ) / (D : ℚ))) = truncQ ((a : ℚ) / (D : ℚ)) := by
  have hDq : (0 : ℚ) < D := by exact_mod_cast hD
  have hpos : ∀ b : Int, 0 ≤ b → b < 16777216 →
      truncQ (toFloat ((b : ℚ) / (D : ℚ))) = truncQ ((b : ℚ) / (D : ℚ)) := by
    intro b hb hb2
    have hbq : (0 : ℚ) ≤ (b : ℚ) / D := div_nonneg (by exact_mod_cast hb) (le_of_lt hDq)
    rw [truncQ_toFloat_div b D hb hb2 hD, truncQ_of_nonneg hbq, floor_intCast_div _ _ hD]
  by_cases h0 : 0 ≤ a
  · exact hpos a h0 (by rw [abs_of_nonneg h0] at ha; exact ha)
  · have hn : 0 ≤ -a := by omega
    have hn2 : -a < 16777216 := by
      rw [abs_of_neg (by omega)] at ha; exact ha
    have h := hpos (-a) hn hn2
    have e : ((-a : Int) : ℚ) / (D : ℚ) = -((a : ℚ) / D) := by push_cast; ring
    rw [e] at h
    unfold toFloat at h ⊢
    rw [roundBits_neg, truncQ_neg, truncQ_neg] at h
    exact neg_injective h

/-- The lead/lag product is the exact one when the numerator of the lead/lag
of the note times the factor is below `2 ^ 24` in absolute value. -/
theorem leadLagOffset_exact (fLeadLag : ℚ) (llf : Int)
    (h : |fLeadLag.num * llf| < 16777216) (hl : |llf| < 16777216) :
    leadLagOffset fLeadLag llf = truncQ (fLeadLag * (llf : ℚ)) := by
  have hdpos : (0 : Int) < (fLeadLag.den : Int) := by exact_mod_cast fLeadLag.den_pos
  have hq : fLeadLag * (llf : ℚ)
      = ((fLeadLag.num * llf : Int) : ℚ) / ((fLeadLag.den : Int) : ℚ) := by
    have hdq : (fLeadLag.den : ℚ) ≠ 0 := by exact_mod_cast fLeadLag.den_nz
    conv_lhs => rw [← Rat.num_div_den fLeadLag]
    push_cast
    field_simp
  unfold leadLagOffset
  rw [toFloat_intCast llf hl, hq]
  exact truncQ_toFloat_frac _ _ h hdpos

/-! ## Emptying the song note queue -/

theorem clearSongNoteQueue_eq (q : List Note) (e : Engine) :
    clearSongNoteQueue q e
      = { e with m_songNoteQueue := [], instruments := (clearSongNoteQueue q e).instruments } := by
  induction q generalizing e with
  | nil => rfl
  | cons n rest ih =>
    rw [clearSongNoteQueue]
    conv_lhs => rw [ih]
    rfl

/-! ## Tick size recomputation -/

/-- What `audioEngine_process_checkBPMChanged` does when the tick size changes
between two non-zero values: the new tick size is stored and the frame position
becomes the next tick boundary at or after the old position, converted with the
new tick size and truncated to a whole frame; the tick number is computed in
`float` and the product in `double`. -/
theorem checkBPMChanged_frames (pSong : Song) (e : Engine)
    (hstate : e.m_audioEngineState = STATE_READY ∨ e.m_audioEngineState = STATE_PLAYING)
    (hne : compute_tick_size e.sampleRate pSong.bpm pSong.resolution ≠ e.m_transport.m_fTickSize)
    (hold : e.m_transport.m_fTickSize ≠ 0)
    (hnew : compute_tick_size e.sampleRate pSong.bpm pSong.resolution ≠ 0) :
    (audioEngine_process_checkBPMChanged pSong e).m_transport.m_fTickSize
        = compute_tick_size e.sampleRate pSong.bpm pSong.resolution ∧
      (audioEngine_process_checkBPMChanged pSong e).m_transport.m_nFrames
        = truncQ (toDouble
            ((⌈toFloat (toFloat (oldFrame e : ℚ) / e.m_transport.m_fTickSize)⌉ : ℚ)
              * compute_tick_size e.sampleRate pSong.bpm pSong.resolution)) := by
  have h1 : ¬ (e.m_audioEngineState ≠ STATE_READY ∧ e.m_audioEngineState ≠ STATE_PLAYING) := by
    rcases hstate with h | h <;> simp [h]
  simp [audioEngine_process_checkBPMChanged, h1, hne, hold, hnew, push_event]

/-- C3, counterexample. Playing at frame 250 with tick size 500 (tick 0), a
tempo change to 100 BPM (tick size 600) moves the transport to frame 600,
which is tick 1: the tick position is not preserved. -/
theorem checkBPMChanged_tick_not_preserved :
    (0 : Int) ≤ (enginePlaying 250).m_transport.m_nFrames ∧
    0 < (enginePlaying 250).m_transport.m_fTickSize ∧
    0 < compute_tick_size (enginePlaying 250).sampleRate song100.bpm song100.resolution ∧
    compute_tick_size (enginePlaying 250).sampleRate song100.bpm song100.resolution
      ≠ (enginePlaying 250).m_transport.m_fTickSize ∧
    ⌊((enginePlaying 250).m_transport.m_nFrames : ℚ)
        / (enginePlaying 250).m_transport.m_fTickSize⌋ = 0 ∧
    tickPosition (enginePlaying 250).m_transport = 0 ∧
    (audioEngine_process_checkBPMChanged song100 (enginePlaying 250)).m_transport.m_nFrames
      = 600 ∧
    ⌊((audioEngine_process_checkBPMChanged song100 (enginePlaying 250)).m_transport.m_nFrames : ℚ)
        / (audioEngine_process_checkBPMChanged song100 (enginePlaying 250)).m_transport.m_fTickSize⌋
      = 1 ∧
    tickPosition (audioEngine_process_checkBPMChanged song100 (enginePlaying 250)).m_transport
      = 1 := by
  decide!

/-- C3, amended. When the tick size changes between two positive values while
the frame position is a whole number `k` of old ticks and `k` new ticks are
a whole number `m` of frames, the frame position, `k` and `m` being below
`2 ^ 24` (so that the `float` arithmetic of the function is exact),
`audioEngine_process_checkBPMChanged` stores the new tick size, moves the
transport to frame `m`, and the tick position after the call equals the tick
position before it, `k`. -/
theorem checkBPMChanged_tick_preserved (pSong : Song) (e : Engine) (k m : Int)
    (hstate : e.m_audioEngineState = STATE_READY ∨ e.m_audioEngineState = STATE_PLAYING)
    (hold : 0 < e.m_transport.m_fTickSize)
    (hnew : 0 < compute_tick_size e.sampleRate pSong.bpm pSong.resolution)
    (hne : compute_tick_size e.sampleRate pSong.bpm pSong.resolution ≠ e.m_transport.m_fTickSize)
    (hf : (oldFrame e : ℚ) = k * e.m_transport.m_fTickSize)
    (hm : (k : ℚ) * compute_tick_size e.sampleRate pSong.bpm pSong.resolution = m)
    (hk0 : 0 ≤ k) (hfr : oldFrame e < 16777216) (hk : k < 16777216) (hm2 : m < 16777216) :
    (audioEngine_process_checkBPMChanged pSong e).m_transport.m_fTickSize
        = compute_tick_size e.sampleRate pSong.bpm pSong.resolution ∧
      (audioEngine_process_checkBPMChanged pSong e).m_transport.m_nFrames = m ∧
      ⌊(oldFrame e : ℚ) / e.m_transport.m_fTickSize⌋ = k ∧
      ticksOfFrames (oldFrame e) e.m_transport.m_fTickSize = k ∧
      ⌊((audioEngine_process_checkBPMChanged pSong e).m_transport.m_nFrames : ℚ)
          / (audioEngine_process_checkBPMChanged pSong e).m_transport.m_fTickSize⌋ = k ∧
      tickPosition (audioEngine_process_checkBPMChanged pSong e).m_transport = k := by
  obtain ⟨h1, h2⟩ := checkBPMChanged_frames pSong e hstate hne (ne_of_gt hold) (ne_of_gt hnew)
  have hkq : (0 : ℚ) ≤ k := by exact_mod_cast hk0
  have hf0 : 0 ≤ oldFrame e := by
    have : (0 : ℚ) ≤ (oldFrame e : ℚ) := by rw [hf]; positivity
    exact_mod_cast this
  have hm0 : 0 ≤ m := by
    have : (0 : ℚ) ≤ (m : ℚ) := by rw [← hm]; positivity
    exact_mod_cast this
  have hfl : toFloat (oldFrame e : ℚ) = oldFrame e :=
    toFloat_intCast _ (by rw [abs_of_nonneg hf0]; exact hfr)
  have hkf : toFloat (k : ℚ) = k := toFloat_intCast _ (by rw [abs_of_nonneg hk0]; exact hk)
  have hmf : toFloat (m : ℚ) = m := toFloat_intCast _ (by rw [abs_of_nonneg hm0]; exact hm2)
  have hmd : toDouble (m : ℚ) = m :=
    toDouble_intCast _ (by rw [abs_of_nonneg hm0]; omega)
  have hq : (oldFrame e : ℚ) / e.m_transport.m_fTickSize = k := by
    rw [hf]; field_simp
  rw [hfl, hq, hkf, Int.ceil_intCast, hm, hmd, truncQ_intCast] at h2
  have hq2 : ((m : Int) : ℚ) / compute_tick_size e.sampleRate pSong.bpm pSong.resolution = k := by
    rw [← hm]; field_simp
  refine ⟨h1, h2, by rw [hq, Int.floor_intCast], ?_, ?_, ?_⟩
  · rw [ticksOfFrames, hfl, hq, hkf, truncQ_intCast]
  · rw [h1, h2, hq2, Int.floor_intCast]
  · rw [tickPosition, ticksOfFrames, h1, h2, hmf, hq2, hkf, truncQ_intCast]

/-- Witness of C3, amended: playing at frame 1000 with tick size 500 (tick 2),
the change to tick size 600 moves the transport to frame 1200, still tick 2. -/
theorem checkBPMChanged_tick_preserved_witness :
    (audioEngine_process_checkBPMChanged song100 (enginePlaying 1000)).m_transport.m_fTickSize
        = compute_tick_size (enginePlaying 1000).sampleRate song100.bpm song100.resolution ∧
      (audioEngine_process_checkBPMChanged song100 (enginePlaying 1000)).m_transport.m_nFrames
        = 1200 ∧
      ⌊(oldFrame (enginePlaying 1000) : ℚ) / (enginePlaying 1000).m_transport.m_fTickSize⌋ = 2 ∧
      ticksOfFrames (oldFrame (enginePlaying 1000)) (enginePlaying 1000).m_transport.m_fTickSize
        = 2 ∧
      ⌊((audioEngine_process_checkBPMChanged song100 (enginePlaying 1000)).m_transport.m_nFrames : ℚ)
          / (audioEngine_process_checkBPMChanged song100
              (enginePlaying 1000)).m_transport.m_fTickSize⌋ = 2 ∧
      tickPosition (audioEngine_process_checkBPMChanged song100 (enginePlaying 1000)).m_transport
        = 2 :=
  checkBPMChanged_tick_preserved song100 (enginePlaying 1000) 2 1200 (Or.inr rfl)
    (by decide!) (by decide!) (by decide!) (by decide!) (by decide!)
    (by decide) (by decide!) (by decide) (by decide)

/-- With a tick size that is not a whole number of frames the `float`
arithmetic decides the frame position: at 48000 Hz, playing at frame 6500 with
the tick size of 120 BPM (500 frames, tick 13), the change to 130 BPM (tick
size `461.5384521484375` in `float`) moves the transport to frame 5999, and
frame 5999 is tick 12 at the new tick size. -/
theorem checkBPMChanged_float_tick_size :
    compute_tick_size 48000 130 48 = 15123692 / 32768 ∧
    (audioEngine_process_checkBPMChanged { song0 with bpm := 130 }
      (enginePlaying 6500)).m_transport.m_nFrames = 5999 ∧
    tickPosition (enginePlaying 6500).m_transport = 13 ∧
    tickPosition (audioEngine_process_checkBPMChanged { song0 with bpm := 130 }
      (enginePlaying 6500)).m_transport = 12 := by
  decide!

/-! ## Start, stop and seek -/

/-- C4. Contract of `audioEngine_start( bLockEngine, nTotalFrames )`: the call
returns 0; from state READY it leaves the engine PLAYING with both master peaks
0, the transport at frame `nTotalFrames` (the parameter is an `unsigned`: every
value from 0 to `2^32 - 1` is stored as it is, and an integer outside that
range reaches the function modulo `2^32`), `m_nSongPos = -1`,
`m_nPatternStartTick = -1` and `m_nPatternTickPosition = 0`; from any other
state it leaves the engine as it was. -/
theorem audioEngine_start_contract (bLockEngine : Bool) (nTotalFrames : Int) (e : Engine) :
    (audioEngine_start bLockEngine nTotalFrames e).1 = 0 ∧
    (e.m_audioEngineState = STATE_READY →
      (audioEngine_start bLockEngine nTotalFrames e).2.m_audioEngineState = STATE_PLAYING ∧
      (audioEngine_start bLockEngine nTotalFrames e).2.m_fMasterPeak_L = 0 ∧
      (audioEngine_start bLockEngine nTotalFrames e).2.m_fMasterPeak_R = 0 ∧
      (audioEngine_start bLockEngine nTotalFrames e).2.m_transport.m_nFrames
        = toU32 nTotalFrames ∧
      (0 ≤ nTotalFrames → nTotalFrames < 4294967296 →
        (audioEngine_start bLockEngine nTotalFrames e).2.m_transport.m_nFrames = nTotalFrames) ∧
      (audioEngine_start bLockEngine nTotalFrames e).2.m_nSongPos = -1 ∧
      (audioEngine_start bLockEngine nTotalFrames e).2.m_nPatternStartTick = -1 ∧
      (audioEngine_start bLockEngine nTotalFrames e).2.m_nPatternTickPosition = 0) ∧
    (e.m_audioEngineState ≠ STATE_READY →
      (audioEngine_start bLockEngine nTotalFrames e).2 = e) := by
  refine ⟨?_, ?_, ?_⟩
  · unfold audioEngine_start
    split <;> rfl
  · intro h
    have hfr : (audioEngine_start bLockEngine nTotalFrames e).2.m_transport.m_nFrames
        = toU32 nTotalFrames := by
      simp [audioEngine_start, h, push_event]
    refine ⟨?_, ?_, ?_, hfr, ?_, ?_, ?_, ?_⟩
    · simp [audioEngine_start, h, push_event]
    · simp [audioEngine_start, h, push_event]
    · simp [audioEngine_start, h, push_event]
    · intro h0 h1
      rw [hfr, toU32_of_bounds h0 h1]
    · simp [audioEngine_start, h, push_event]
    · simp [audioEngine_start, h, push_event]
    · simp [audioEngine_start, h, push_event]
  · intro h
    simp [audioEngine_start, h]

/-- Witness of C4: started from READY at frame 4800 the engine plays at frame
4800; the argument `2^32 + 5` is stored as frame 5; started while already
playing the engine is left as it was. -/
theorem audioEngine_start_contract_witness :
    ((audioEngine_start false 4800 engine0).2.m_audioEngineState = STATE_PLAYING ∧
      (audioEngine_start false 4800 engine0).2.m_fMasterPeak_L = 0 ∧
      (audioEngine_start false 4800 engine0).2.m_fMasterPeak_R = 0 ∧
      (audioEngine_start false 4800 engine0).2.m_transport.m_nFrames = toU32 4800 ∧
      ((0 : Int) ≤ 4800 → (4800 : Int) < 4294967296 →
        (audioEngine_start false 4800 engine0).2.m_transport.m_nFrames = 4800) ∧
      (audioEngine_start false 4800 engine0).2.m_nSongPos = -1 ∧
      (audioEngine_start false 4800 engine0).2.m_nPatternStartTick = -1 ∧
      (audioEngine_start false 4800 engine0).2.m_nPatternTickPosition = 0) ∧
    (audioEngine_start false 4800 engine0).2.m_transport.m_nFrames = 4800 ∧
    (audioEngine_start false 4294967301 engine0).2.m_transport.m_nFrames = 5 ∧
    (audioEngine_start false 4800 (enginePlaying 250)).2 = enginePlaying 250 :=
  ⟨(audioEngine_start_contract false 4800 engine0).2.1 rfl,
    (audioEngine_start_contract false 4800 engine0).2.1 rfl |>.2.2.2.2.1 (by decide) (by decide),
    by decide!,
    (audioEngine_start_contract false 4800 (enginePlaying 250)).2.2 (by decide)⟩

/-- C5. Contract of `audioEngine_stop( bLockEngine )`: from state PLAYING it
leaves the engine READY with both master peaks 0, `m_nPatternStartTick = -1`
and both note queues empty; from any other state it leaves the engine, its
state and both queues included, as it was. -/
theorem audioEngine_stop_contract (bLockEngine : Bool) (e : Engine) :
    (e.m_audioEngineState = STATE_PLAYING →
      (audioEngine_stop bLockEngine e).m_audioEngineState = STATE_READY ∧
      (audioEngine_stop bLockEngine e).m_fMasterPeak_L = 0 ∧
      (audioEngine_stop bLockEngine e).m_fMasterPeak_R = 0 ∧
      (audioEngine_stop bLockEngine e).m_nPatternStartTick = -1 ∧
      (audioEngine_stop bLockEngine e).m_songNoteQueue = [] ∧
      (audioEngine_stop bLockEngine e).m_midiNoteQueue = []) ∧
    (e.m_audioEngineState ≠ STATE_PLAYING →
      audioEngine_stop bLockEngine e = e ∧
      (audioEngine_stop bLockEngine e).m_audioEngineState = e.m_audioEngineState ∧
      (audioEngine_stop bLockEngine e).m_songNoteQueue = e.m_songNoteQueue ∧
      (audioEngine_stop bLockEngine e).m_midiNoteQueue = e.m_midiNoteQueue) := by
  refine ⟨?_, ?_⟩
  · intro h
    simp only [audioEngine_stop, h, ne_eq, not_true_eq_false, if_false]
    rw [clearSongNoteQueue_eq]
    simp [push_event]
  · intro h
    simp [audioEngine_stop, h]

/-- Witness of C5: stopping the playing engine empties both queues and leaves
it READY; stopping the engine that is READY changes nothing. -/
theorem audioEngine_stop_contract_witness :
    ((audioEngine_stop false (enginePlaying 250)).m_audioEngineState = STATE_READY ∧
      (audioEngine_stop false (enginePlaying 250)).m_fMasterPeak_L = 0 ∧
      (audioEngine_stop false (enginePlaying 250)).m_fMasterPeak_R = 0 ∧
      (audioEngine_stop false (enginePlaying 250)).m_nPatternStartTick = -1 ∧
      (audioEngine_stop false (enginePlaying 250)).m_songNoteQueue = [] ∧
      (audioEngine_stop false (enginePlaying 250)).m_midiNoteQueue = []) ∧
    (audioEngine_stop false engine0 = engine0 ∧
      (audioEngine_stop false engine0).m_audioEngineState = engine0.m_audioEngineState ∧
      (audioEngine_stop false engine0).m_songNoteQueue = engine0.m_songNoteQueue ∧
      (audioEngine_stop false engine0).m_midiNoteQueue = engine0.m_midiNoteQueue) :=
  ⟨(audioEngine_stop_contract false (enginePlaying 250)).1 rfl,
    (audioEngine_stop_contract false engine0).2 (by decide)⟩

/-- C6, counterexample. With the transport already at frame 100000 (tick size
500) and a note waiting in each queue, `audioEngine_seek( 100000 )` returns at
once: neither queue is emptied. -/
theorem audioEngine_seek_same_frame_keeps_queues :
    0 < (enginePlaying 100000).m_transport.m_fTickSize ∧
    (audioEngine_seek 100000 false (enginePlaying 100000)).m_songNoteQueue = [noteAt 300] ∧
    (audioEngine_seek 100000 false (enginePlaying 100000)).m_midiNoteQueue = [noteAt 0] := by
  refine ⟨by norm_num [enginePlaying, engine0], ?_, ?_⟩ <;>
    simp [audioEngine_seek, enginePlaying, engine0]

/-- C6, amended. For a frame `f ≥ 0` and a positive tick size, the tick number
`ticksOfFrames f tickSize` (the quotient computed in `float` and truncated)
being below `2^31`: `audioEngine_seek( f, forceLoop )` called with the
transport at another frame leaves the transport at frame `f`, `m_nSongPos` and
`m_nPatternStartTick` as `findPatternInTick` gives them for that tick number
with the song's loop flag or `forceLoop`, and both note queues empty; called
with the transport already at frame `f` it changes nothing.  The tick number is
`⌊f / tickSize⌋` when `f` times the denominator of the tick size is below
`2^24`. -/
theorem audioEngine_seek_contract (f : Int) (forceLoop : Bool) (e : Engine)
    (hf : 0 ≤ f) (hts : 0 < e.m_transport.m_fTickSize)
    (hrange : ticksOfFrames f e.m_transport.m_fTickSize < 2147483648) :
    (e.m_transport.m_nFrames ≠ f →
      (audioEngine_seek f forceLoop e).m_transport.m_nFrames = f ∧
      (audioEngine_seek f forceLoop e).m_nSongPos
        = (findPatternInTick e.song (ticksOfFrames f e.m_transport.m_fTickSize)
            (e.song.isLoopEnabled || forceLoop) e.m_nPatternStartTick).ret ∧
      (audioEngine_seek f forceLoop e).m_nPatternStartTick
        = (findPatternInTick e.song (ticksOfFrames f e.m_transport.m_fTickSize)
            (e.song.isLoopEnabled || forceLoop) e.m_nPatternStartTick).patternStartTick ∧
      (audioEngine_seek f forceLoop e).m_songNoteQueue = [] ∧
      (audioEngine_seek f forceLoop e).m_midiNoteQueue = []) ∧
    (f * (e.m_transport.m_fTickSize.den : Int) < 16777216 →
      ticksOfFrames f e.m_transport.m_fTickSize = ⌊(f : ℚ) / e.m_transport.m_fTickSize⌋) ∧
    (e.m_transport.m_nFrames = f → audioEngine_seek f forceLoop e = e) := by
  have htr : toI32 (toU32 (ticksOfFrames f e.m_transport.m_fTickSize))
      = ticksOfFrames f e.m_transport.m_fTickSize :=
    toI32_toU32_of_bounds (ticksOfFrames_nonneg f _ hf hts) hrange
  have hloop : (if forceLoop = true then true else e.song.isLoopEnabled)
      = (e.song.isLoopEnabled || forceLoop) := by
    cases forceLoop <;> simp
  refine ⟨?_, ?_, ?_⟩
  · intro h
    simp only [audioEngine_seek, h, if_false, audioEngine_clearNoteQueue]
    rw [clearSongNoteQueue_eq]
    simp [htr, hloop]
  · intro h
    exact ticksOfFrames_exact f _ hf hts h
  · intro h
    simp [audioEngine_seek, h]

/-- Witness of C6, amended: at tick size 500 a seek from frame 250 to frame
100000 resolves tick 200, which lies in column 1 starting at tick 192, and
empties both queues.  Frame 16847999 is not a `float`: the seek resolves tick
33696, while `⌊16847999 / 500⌋ = 33695`. -/
theorem audioEngine_seek_contract_witness :
    ((audioEngine_seek 100000 false (enginePlaying 250)).m_transport.m_nFrames = 100000 ∧
      (audioEngine_seek 100000 false (enginePlaying 250)).m_nSongPos
        = (findPatternInTick (enginePlaying 250).song
            (ticksOfFrames 100000 (enginePlaying 250).m_transport.m_fTickSize)
            ((enginePlaying 250).song.isLoopEnabled || false)
            (enginePlaying 250).m_nPatternStartTick).ret ∧
      (audioEngine_seek 100000 false (enginePlaying 250)).m_nPatternStartTick
        = (findPatternInTick (enginePlaying 250).song
            (ticksOfFrames 100000 (enginePlaying 250).m_transport.m_fTickSize)
            ((enginePlaying 250).song.isLoopEnabled || false)
            (enginePlaying 250).m_nPatternStartTick).patternStartTick ∧
      (audioEngine_seek 100000 false (enginePlaying 250)).m_songNoteQueue = [] ∧
      (audioEngine_seek 100000 false (enginePlaying 250)).m_midiNoteQueue = []) ∧
    ticksOfFrames 100000 (enginePlaying 250).m_transport.m_fTickSize
      = ⌊((100000 : Int) : ℚ) / (enginePlaying 250).m_transport.m_fTickSize⌋ ∧
    compute_tick_size 48000 120 48 = 500 ∧
    ticksOfFrames 100000 (enginePlaying 250).m_transport.m_fTickSize = 200 ∧
    ⌊((100000 : Int) : ℚ) / (enginePlaying 250).m_transport.m_fTickSize⌋ = 200 ∧
    findPatternInTick (enginePlaying 250).song 200 false 0 = ⟨1, 192, 0⟩ ∧
    (audioEngine_seek 100000 false (enginePlaying 250)).m_nSongPos = 1 ∧
    (audioEngine_seek 100000 false (enginePlaying 250)).m_nPatternStartTick = 192 ∧
    ticksOfFrames 16847999 500 = 33696 ∧
    ⌊((16847999 : Int) : ℚ) / 500⌋ = 33695 :=
  ⟨(audioEngine_seek_contract 100000 false (enginePlaying 250) (by decide) (by decide!)
      (by decide!)).1 (by decide),
    (audioEngine_seek_contract 100000 false (enginePlaying 250) (by decide) (by decide!)
      (by decide!)).2.1 (by decide!),
    by decide!, by decide!, by decide!, by decide, by decide!, by decide!, by decide!,
    by decide!⟩

/-! ## Fields the scheduler and the renderer feed leave alone -/

theorem sameControl_refl (e : Engine) : e.sameControl e := ⟨rfl, rfl, rfl, rfl, rfl, rfl, rfl, fun _ => rfl⟩

theorem sameControl_trans {e1 e2 e3 : Engine} (h12 : e1.sameControl e2)
    (h23 : e2.sameControl e3) : e1.sameControl e3 := by
  obtain ⟨a1, a2, a3, a4, a5, a6, a7, a8⟩ := h12
  obtain ⟨b1, b2, b3, b4, b5, b6, b7, b8⟩ := h23
  exact ⟨b1.trans a1, b2.trans a2, b3.trans a3, b4.trans a4, b5.trans a5, b6.trans a6,
    b7.trans a7, fun p => (b8 p).trans (a8 p)⟩

theorem sameControl_foldl {α : Type} (f : Engine → α → Engine)
    (hf : ∀ (e : Engine) (x : α), e.sameControl (f e x)) (l : List α) (e : Engine) :
    e.sameControl (l.foldl f e) := by
  induction l generalizing e with
  | nil => exact sameControl_refl e
  | cons x t ih => exact sameControl_trans (hf e x) (ih (f e x))

theorem midiMergeLoop_sameControl (tick : Int) (q : List Note) (e : Engine) :
    e.sameControl (midiMergeLoop tick q e) := by
  induction q generalizing e with
  | nil => exact ⟨rfl, rfl, rfl, rfl, rfl, rfl, rfl, fun _ => rfl⟩
  | cons n rest ih =>
    rw [midiMergeLoop]
    split
    · exact ⟨rfl, rfl, rfl, rfl, rfl, rfl, rfl, fun _ => rfl⟩
    · exact sameControl_trans ⟨rfl, rfl, rfl, rfl, rfl, rfl, rfl, fun _ => rfl⟩ (ih _)

theorem songModeTick_sameControl (tick : Int) (e : Engine) (b : Bool) :
    e.sameControl (songModeTick tick e b).engine := by
  unfold songModeTick Engine.sameControl
  simp only [driverStop]
  split_ifs <;> simp [TickOutcome.engine]

theorem patternModeTick_sameControl (tick : Int) (e : Engine) (b : Bool) :
    e.sameControl (patternModeTick tick e b).1 := by
  unfold patternModeTick Engine.sameControl
  simp only []
  split_ifs <;> simp

theorem metronomeTick_sameControl (tick : Int) (e : Engine) :
    e.sameControl (metronomeTick tick e) := by
  unfold metronomeTick Engine.sameControl
  simp only [push_event, Engine.enqueue, Engine.pushSongNote]
  split_ifs <;> simp

theorem scheduleNote_sameControl (tick : Int) (ts : ℚ) (llf : Int) (e : Engine) (n : Note) :
    e.sameControl (scheduleNote tick ts llf e n) := by
  unfold scheduleNote Engine.sameControl
  simp only [getGaussian, Engine.enqueue, Engine.pushSongNote]
  split_ifs <;> simp

theorem getD_modify_clearJustRecorded_length (pos : Int) (k : Nat) (l : List Pattern)
    (p : Nat) :
    ((List.modify (clearJustRecorded pos) k l).getD p ⟨0, [], []⟩).length
      = (l.getD p ⟨0, [], []⟩).length := by
  induction l generalizing k p with
  | nil => cases k <;> rfl
  | cons x t ih =>
    cases k with
    | zero => cases p <;> rfl
    | succ k =>
      cases p with
      | zero => rfl
      | succ p => simpa [List.modify] using ih k p

theorem schedulePattern_sameControl (tick : Int) (ts : ℚ) (llf : Int) (e : Engine)
    (p : PatPtr) : e.sameControl (schedulePattern tick ts llf e p) := by
  unfold schedulePattern
  refine sameControl_trans ?_ (sameControl_foldl _ (scheduleNote_sameControl tick ts llf) _ _)
  exact ⟨rfl, rfl, rfl, rfl, rfl, rfl, rfl,
    fun q => getD_modify_clearJustRecorded_length _ p e.song.patternList q⟩

theorem scheduleNotes_sameControl (tick : Int) (ts : ℚ) (llf : Int) (e : Engine) :
    e.sameControl (scheduleNotes tick ts llf e) := by
  unfold scheduleNotes
  split
  · exact sameControl_foldl _ (schedulePattern_sameControl tick ts llf) _ _
  · exact sameControl_refl _

theorem updateNoteQueue_tick_sameControl (tick : Int) (ts : ℚ) (llf : Int) (e : Engine)
    (b : Bool) : e.sameControl (updateNoteQueue_tick tick ts llf e b).engine := by
  have hm : e.sameControl (midiMerge tick e) := midiMergeLoop_sameControl tick _ e
  unfold updateNoteQueue_tick
  by_cases hst : (midiMerge tick e).m_audioEngineState ≠ STATE_PLAYING
  · rw [if_pos hst]
    exact hm
  · rw [if_neg hst]
    by_cases hmode : (midiMerge tick e).song.mode = SongMode.SONG_MODE
    · rw [if_pos hmode]
      have hs := songModeTick_sameControl tick (midiMerge tick e) b
      cases hso : songModeTick tick (midiMerge tick e) b with
      | done r e2 =>
        rw [hso] at hs
        exact sameControl_trans hm hs
      | next e2 b2 =>
        rw [hso] at hs
        exact sameControl_trans hm (sameControl_trans hs
          (sameControl_trans (metronomeTick_sameControl tick e2)
            (scheduleNotes_sameControl tick ts llf _)))
    · rw [if_neg hmode]
      exact sameControl_trans hm
        (sameControl_trans (patternModeTick_sameControl tick (midiMerge tick e) b)
          (sameControl_trans (metronomeTick_sameControl tick _)
            (scheduleNotes_sameControl tick ts llf _)))

theorem updateNoteQueue_loop_sameControl (ts : ℚ) (llf : Int) (ticks : List Int) (e : Engine)
    (b : Bool) : e.sameControl (updateNoteQueue_loop ts llf ticks e b).2 := by
  induction ticks generalizing e b with
  | nil => exact sameControl_refl e
  | cons tick rest ih =>
    have ht := updateNoteQueue_tick_sameControl tick ts llf e b
    rw [updateNoteQueue_loop]
    cases hto : updateNoteQueue_tick tick ts llf e b with
    | done r e1 =>
      rw [hto] at ht
      exact ht
    | next e1 b1 =>
      rw [hto] at ht
      exact sameControl_trans ht (ih e1 b1)

theorem audioEngine_updateNoteQueue_sameControl (nFrames : Nat) (e : Engine) :
    e.sameControl (audioEngine_updateNoteQueue nFrames e).2 :=
  updateNoteQueue_loop_sameControl _ _ _ e false

theorem playNote_sameControl (n : Note) (rest : List Note) (e : Engine) :
    e.sameControl (playNote n rest e) := by
  unfold playNote Engine.sameControl
  simp only [push_event, Engine.dequeue, getGaussian]
  split_ifs <;> simp

theorem playNotesLoop_sameControl (nframes : Nat) (fp len : Int) (q : List Note) (e e' : Engine)
    (h : playNotesLoop nframes fp len q e = some e') : e.sameControl e' := by
  induction q generalizing e with
  | nil =>
    simp only [playNotesLoop, Option.some.injEq] at h
    subst h
    exact ⟨rfl, rfl, rfl, rfl, rfl, rfl, rfl, fun _ => rfl⟩
  | cons n rest ih =>
    rw [playNotesLoop] at h
    split_ifs at h
    · refine sameControl_trans ?_ (ih _ h)
      exact ⟨rfl, rfl, rfl, rfl, rfl, rfl, rfl, fun _ => rfl⟩
    · refine sameControl_trans (sameControl_trans ?_ (playNote_sameControl _ _ _)) (ih _ h)
      exact ⟨rfl, rfl, rfl, rfl, rfl, rfl, rfl, fun _ => rfl⟩
    · exact sameControl_trans (playNote_sameControl _ _ _) (ih _ h)
    · simp only [Option.some.injEq] at h
      subst h
      exact ⟨rfl, rfl, rfl, rfl, rfl, rfl, rfl, fun _ => rfl⟩

theorem audioEngine_process_playNotes_sameControl (nframes : Nat) (e e' : Engine)
    (h : audioEngine_process_playNotes nframes e = some e') : e.sameControl e' :=
  playNotesLoop_sameControl _ _ _ _ e e' h

/-! ## The audio callback -/

theorem longest_pattern_length_congr (song song' : Song)
    (h : ∀ p : PatPtr, (song'.pattern p).length = (song.pattern p).length) (l : PatternList) :
    longest_pattern_length song' l = longest_pattern_length song l := by
  induction l with
  | nil => rfl
  | cons p t ih =>
    simp only [longest_pattern_length, List.foldr_cons] at ih ⊢
    rw [ih, h p]

theorem columnSize_congr (song song' : Song)
    (h : ∀ p : PatPtr, (song'.pattern p).length = (song.pattern p).length) (c : PatternList) :
    columnSize song' c = columnSize song c := by
  unfold columnSize
  rw [longest_pattern_length_congr song song' h]

theorem songSize_congr (song song' : Song)
    (hcols : song'.patternGroupVector = song.patternGroupVector)
    (h : ∀ p : PatPtr, (song'.pattern p).length = (song.pattern p).length) :
    songSize song' = songSize song := by
  unfold songSize columnSizes
  rw [hcols]
  congr 1
  exact List.map_congr_left (fun c _ => columnSize_congr song song' h c)

theorem sameControl_songSize {e e' : Engine} (h : e.sameControl e') :
    songSize e'.song = songSize e.song :=
  songSize_congr e.song e'.song h.2.2.2.2.2.2.1 h.2.2.2.2.2.2.2

theorem playNotesLoop_isSome (nframes : Nat) (fp len : Int) (q : List Note) (e : Engine)
    (h : ¬ (e.song.mode = SongMode.SONG_MODE ∧ len = 0)) :
    ∃ e', playNotesLoop nframes fp len q e = some e' := by
  induction q generalizing e with
  | nil => exact ⟨_, rfl⟩
  | cons n rest ih =>
    rw [playNotesLoop]
    have hmode : ∀ e2 : Engine, e.sameControl e2 →
        ¬ (e2.song.mode = SongMode.SONG_MODE ∧ len = 0) := by
      intro e2 h2
      rw [h2.2.2.2.1]
      exact h
    split_ifs
    · exact ih _ (hmode _ ⟨rfl, rfl, rfl, rfl, rfl, rfl, rfl, fun _ => rfl⟩)
    · refine ih _ (hmode _ (sameControl_trans ?_ (playNote_sameControl _ _ _)))
      exact ⟨rfl, rfl, rfl, rfl, rfl, rfl, rfl, fun _ => rfl⟩
    · exact ih _ (hmode _ (playNote_sameControl _ _ _))
    · exact ⟨_, rfl⟩

theorem updateMasterPeaks_control (pBuffer : List (ℚ × ℚ)) (e : Engine) :
    (updateMasterPeaks pBuffer e).m_transport = e.m_transport ∧
      (updateMasterPeaks pBuffer e).m_audioEngineState = e.m_audioEngineState := by
  unfold updateMasterPeaks
  induction pBuffer generalizing e with
  | nil => exact ⟨rfl, rfl⟩
  | cons v t ih =>
    rw [List.foldl_cons]
    obtain ⟨h1, h2⟩ := ih _
    exact ⟨h1, h2⟩

theorem setBPM_frames (fBPM : ℚ) (e : Engine) :
    (setBPM fBPM e).m_transport.m_nFrames = e.m_transport.m_nFrames ∧
      (setBPM fBPM e).song.mode = e.song.mode ∧
      songSize (setBPM fBPM e).song = songSize e.song := by
  unfold setBPM
  dsimp only
  split
  · exact ⟨rfl, rfl, rfl⟩
  · exact ⟨rfl, rfl, rfl⟩

theorem audioEngine_stop_frames (b : Bool) (e : Engine) :
    (audioEngine_stop b e).m_transport = e.m_transport ∧
      (audioEngine_stop b e).song = e.song := by
  unfold audioEngine_stop
  split
  · exact ⟨rfl, rfl⟩
  · dsimp only
    rw [clearSongNoteQueue_eq]
    exact ⟨rfl, rfl⟩

/-- Synchronising the transport leaves the frame position where the driver put
it, and the mode and the length of the song as they were. -/
theorem audioEngine_process_transport_frames (nframes : Nat)
    (upd : TransportInfo → TransportInfo) (e : Engine)
    (hreloc : (upd e.m_transport).m_nFrames = e.m_transport.m_nFrames)
    (hstart : e.m_audioEngineState = STATE_READY →
      (upd e.m_transport).m_status = TransportStatus.ROLLING →
      0 ≤ e.m_transport.m_nFrames ∧ e.m_transport.m_nFrames < 4294967296) :
    (audioEngine_process_transport nframes upd e).m_transport.m_nFrames
        = e.m_transport.m_nFrames ∧
      (audioEngine_process_transport nframes upd e).song.mode = e.song.mode ∧
      songSize (audioEngine_process_transport nframes upd e).song = songSize e.song := by
  unfold audioEngine_process_transport
  split
  · exact ⟨rfl, rfl, rfl⟩
  · dsimp only
    split
    · -- rolling
      rename_i hroll
      have hu : e.m_audioEngineState = STATE_READY →
          toU32 (upd e.m_transport).m_nFrames = e.m_transport.m_nFrames := by
        intro hr
        obtain ⟨h0, h1⟩ := hstart hr hroll
        rw [hreloc, toU32_of_bounds h0 h1]
      split_ifs with hr
      · simp [audioEngine_start, push_event, hr, hu hr]
      · obtain ⟨h1, h2, h3⟩ := setBPM_frames
          (audioEngine_start false (upd e.m_transport).m_nFrames
            { e with m_transport := upd e.m_transport }).2.m_transport.m_fBPM
          (audioEngine_start false (upd e.m_transport).m_nFrames
            { e with m_transport := upd e.m_transport }).2
        refine ⟨?_, ?_, ?_⟩
        · show (setBPM _ _).m_transport.m_nFrames = _
          rw [h1]; simp [audioEngine_start, push_event, hr, hu hr]
        · show (setBPM _ _).song.mode = _
          rw [h2]; simp [audioEngine_start, push_event, hr]
        · show songSize (setBPM _ _).song = _
          rw [h3]; simp [audioEngine_start, push_event, hr]
      · simp [audioEngine_start, push_event, hr, hu hr]
      · exact ⟨hreloc, rfl, rfl⟩
      · obtain ⟨h1, h2, h3⟩ := setBPM_frames (upd e.m_transport).m_fBPM
          { e with m_transport := upd e.m_transport }
        exact ⟨h1.trans hreloc, h2, h3⟩
      · exact ⟨hreloc, rfl, rfl⟩
    · -- stopped
      split_ifs
      · obtain ⟨h1, h2⟩ := audioEngine_stop_frames false { e with m_transport := upd e.m_transport }
        refine ⟨?_, ?_, ?_⟩
        · show (audioEngine_stop _ _).m_transport.m_nFrames = _
          rw [h1]; exact hreloc
        · show (audioEngine_stop _ _).song.mode = _
          rw [h2]
        · show songSize (audioEngine_stop _ _).song = _
          rw [h2]
      · exact ⟨hreloc, rfl, rfl⟩
    · exact ⟨hreloc, rfl, rfl⟩

/-- A tick size recomputation that leaves the tick size as it was leaves the
whole engine as it was. -/
theorem checkBPMChanged_eq_of_tickSize (pSong : Song) (e : Engine)
    (h : (audioEngine_process_checkBPMChanged pSong e).m_transport.m_fTickSize
      = e.m_transport.m_fTickSize) :
    audioEngine_process_checkBPMChanged pSong e = e := by
  unfold audioEngine_process_checkBPMChanged at h ⊢
  by_cases h1 : e.m_audioEngineState ≠ STATE_READY ∧ e.m_audioEngineState ≠ STATE_PLAYING
  · rw [if_pos h1]
  · rw [if_neg h1] at h ⊢
    dsimp only at h ⊢
    by_cases h2 : compute_tick_size e.sampleRate pSong.bpm pSong.resolution
        = e.m_transport.m_fTickSize
    · rw [if_pos h2]
    · rw [if_neg h2] at h
      exfalso
      split_ifs at h
      · exact h2 h
      · exact h2 h

theorem processFinish_frames (nframes : Nat) (pBuffer : List (ℚ × ℚ)) (nRes : Int)
    (e4 : Engine) :
    (processFinish nframes pBuffer nRes e4).m_audioEngineState = e4.m_audioEngineState ∧
      (processFinish nframes pBuffer nRes e4).m_transport.m_nFrames
        = if e4.m_audioEngineState = STATE_PLAYING then e4.m_transport.m_nFrames + nframes
          else e4.m_transport.m_nFrames := by
  obtain ⟨h1, h2⟩ := updateMasterPeaks_control pBuffer e4
  unfold processFinish
  simp only [push_event]
  split_ifs <;> simp_all

/-- C7, counterexample. The engine is READY and the driver reports the
transport rolling at frame `2^32 + 5`.  The call `audioEngine_process( 1024 )`
obtains the lock, the driver does not move the frame position, the tick size
stays 500 and the scheduler returns 0; the call starts the engine through
`audioEngine_start`, whose `unsigned` parameter receives frame 5, and ends
PLAYING at frame 1029, not at `2^32 + 5 + 1024 = 4294968325`. -/
theorem audioEngine_process_frames_start_narrows :
    (engineReadyRolling 4294967301).m_audioEngineState = STATE_READY ∧
    (id (engineReadyRolling 4294967301).m_transport).m_nFrames
      = (engineReadyRolling 4294967301).m_transport.m_nFrames ∧
    (engineReadyRolling 4294967301).m_transport.m_fTickSize = 500 ∧
    (engineAfterTransport 1024 id (engineReadyRolling 4294967301)).m_transport.m_fTickSize = 500 ∧
    (engineAtScheduler 1024 id (engineReadyRolling 4294967301)).m_transport.m_fTickSize = 500 ∧
    (audioEngine_updateNoteQueue 1024
      (engineAtScheduler 1024 id (engineReadyRolling 4294967301))).1 ≠ -1 ∧
    (audioEngine_start false (engineReadyRolling 4294967301).m_transport.m_nFrames
      (engineReadyRolling 4294967301)).2.m_transport.m_nFrames = 5 ∧
    (audioEngine_process 1024 true id [] (engineReadyRolling 4294967301)).map
        (fun p => (p.1, p.2.m_audioEngineState, p.2.m_transport.m_nFrames))
      = some (0, STATE_PLAYING, 1029) ∧
    (engineReadyRolling 4294967301).m_transport.m_nFrames + (1024 : Nat) = 4294968325 := by
  decide!

/-- C7, amended. Transport advance per buffer.  Take a call
`audioEngine_process( nframes )` that obtains the engine lock, in which the
driver does not move the frame position, the tick-size recomputation leaves the
tick size as it is and the scheduler does not return -1, and in which, if the
call starts the engine (state READY, driver rolling), the frame position lies
from 0 to `2^32 - 1`.  When the call completes, the transport frame position is
its value before plus `nframes` if the engine is PLAYING at the end, and its
value before if it is not.  The call does complete unless the song is in song
mode with total length 0. -/
theorem audioEngine_process_frames (nframes : Nat) (upd : TransportInfo → TransportInfo)
    (pBuffer : List (ℚ × ℚ)) (e : Engine)
    (hreloc : (upd e.m_transport).m_nFrames = e.m_transport.m_nFrames)
    (hstart : e.m_audioEngineState = STATE_READY →
      (upd e.m_transport).m_status = TransportStatus.ROLLING →
      0 ≤ e.m_transport.m_nFrames ∧ e.m_transport.m_nFrames < 4294967296)
    (hts : (engineAtScheduler nframes upd e).m_transport.m_fTickSize
      = (engineAfterTransport nframes upd e).m_transport.m_fTickSize)
    (hend : (audioEngine_updateNoteQueue nframes (engineAtScheduler nframes upd e)).1 ≠ -1) :
    (∀ (r : Int) (e' : Engine), audioEngine_process nframes true upd pBuffer e = some (r, e') →
      (e'.m_audioEngineState = STATE_PLAYING →
        e'.m_transport.m_nFrames = e.m_transport.m_nFrames + nframes) ∧
      (e'.m_audioEngineState ≠ STATE_PLAYING →
        e'.m_transport.m_nFrames = e.m_transport.m_nFrames)) ∧
    ((e.song.mode = SongMode.SONG_MODE → songSize e.song ≠ 0) →
      ∃ (r : Int) (e' : Engine), audioEngine_process nframes true upd pBuffer e = some (r, e')) := by
  have heq : audioEngine_process_checkBPMChanged (audioEngine_process_transport nframes upd e).song
      (audioEngine_process_transport nframes upd e) = audioEngine_process_transport nframes upd e :=
    checkBPMChanged_eq_of_tickSize _ _ hts
  simp only [engineAtScheduler, engineAfterTransport, heq] at hend
  obtain ⟨ht1, ht2, ht3⟩ := audioEngine_process_transport_frames nframes upd e hreloc hstart
  have hsc := audioEngine_updateNoteQueue_sameControl nframes
    (audioEngine_process_transport nframes upd e)
  have hproc : audioEngine_process nframes true upd pBuffer e
      = if e.m_audioEngineState < STATE_READY then some ((0 : Int), e)
        else
          match audioEngine_process_playNotes nframes
              (audioEngine_updateNoteQueue nframes
                (audioEngine_process_transport nframes upd e)).2 with
          | none => none
          | some e4 =>
            some ((0 : Int), processFinish nframes pBuffer
              (audioEngine_updateNoteQueue nframes
                (audioEngine_process_transport nframes upd e)).1 e4) := by
    unfold audioEngine_process
    simp only [Bool.true_eq_false, if_false, heq, hend]
  rw [hproc]
  constructor
  · intro r e' hcall
    by_cases h1 : e.m_audioEngineState < STATE_READY
    · rw [if_pos h1] at hcall
      simp only [Option.some.injEq, Prod.mk.injEq] at hcall
      obtain ⟨_, rfl⟩ := hcall
      refine ⟨fun h => ?_, fun _ => rfl⟩
      rw [h] at h1
      exact absurd h1 (by decide)
    · rw [if_neg h1] at hcall
      cases hp : audioEngine_process_playNotes nframes
          (audioEngine_updateNoteQueue nframes
            (audioEngine_process_transport nframes upd e)).2 with
      | none => rw [hp] at hcall; exact absurd hcall (by simp)
      | some e4 =>
        rw [hp] at hcall
        simp only [Option.some.injEq, Prod.mk.injEq] at hcall
        obtain ⟨_, rfl⟩ := hcall
        have hpn := audioEngine_process_playNotes_sameControl nframes _ e4 hp
        have h4 := sameControl_trans hsc hpn
        obtain ⟨hf1, hf2⟩ := processFinish_frames nframes pBuffer
          (audioEngine_updateNoteQueue nframes
            (audioEngine_process_transport nframes upd e)).1 e4
        rw [hf1, hf2, h4.1, ht1]
        constructor
        · intro h; rw [if_pos h]
        · intro h; rw [if_neg h]
  · intro hsong
    by_cases h1 : e.m_audioEngineState < STATE_READY
    · rw [if_pos h1]; exact ⟨_, _, rfl⟩
    · rw [if_neg h1]
      have hno : ¬ ((audioEngine_updateNoteQueue nframes
            (audioEngine_process_transport nframes upd e)).2.song.mode = SongMode.SONG_MODE ∧
          (if (audioEngine_updateNoteQueue nframes
              (audioEngine_process_transport nframes upd e)).2.song.mode = SongMode.SONG_MODE then
            (audioEngine_updateNoteQueue nframes
              (audioEngine_process_transport nframes upd e)).2.song.lengthInTicks
            else 0) = 0) := by
        rintro ⟨hm, hz⟩
        rw [if_pos hm] at hz
        rw [hsc.2.2.2.1, ht2] at hm
        unfold Song.lengthInTicks at hz
        rw [sameControl_songSize hsc, ht3] at hz
        exact hsong hm hz
      obtain ⟨e4, he4⟩ := playNotesLoop_isSome nframes _ _ _ _ hno
      unfold audioEngine_process_playNotes
      rw [he4]
      exact ⟨_, _, rfl⟩

/-- Witness of C7, amended: the ready engine whose driver reports the transport
rolling at frame 4800 is started by the call, processes a buffer of 1024
frames and ends at frame 5824, playing; the engine playing `song0` at frame 0
ends at frame 1024. -/
theorem audioEngine_process_frames_witness :
    ((∀ (r : Int) (e' : Engine),
        audioEngine_process 1024 true id [] (engineReadyRolling 4800) = some (r, e') →
        (e'.m_audioEngineState = STATE_PLAYING →
          e'.m_transport.m_nFrames
            = (engineReadyRolling 4800).m_transport.m_nFrames + (1024 : Nat)) ∧
        (e'.m_audioEngineState ≠ STATE_PLAYING →
          e'.m_transport.m_nFrames = (engineReadyRolling 4800).m_transport.m_nFrames)) ∧
      (((engineReadyRolling 4800).song.mode = SongMode.SONG_MODE →
          songSize (engineReadyRolling 4800).song ≠ 0) →
        ∃ (r : Int) (e' : Engine),
          audioEngine_process 1024 true id [] (engineReadyRolling 4800) = some (r, e'))) ∧
    (audioEngine_process 1024 true id [] (engineReadyRolling 4800)).map
        (fun p => (p.1, p.2.m_audioEngineState, p.2.m_transport.m_nFrames))
      = some (0, STATE_PLAYING, 5824) ∧
    (audioEngine_process 1024 true id [] (enginePlaying 0)).map
        (fun p => (p.1, p.2.m_audioEngineState, p.2.m_transport.m_nFrames))
      = some (0, STATE_PLAYING, 1024) :=
  ⟨audioEngine_process_frames 1024 id [] (engineReadyRolling 4800) rfl
      (fun _ _ => by decide) (by decide!) (by decide!),
    by decide!, by decide!⟩

/-! ## The tick window of the scheduler -/

theorem mem_tickRange (a b t : Int) : t ∈ tickRange a b ↔ a ≤ t ∧ t < b := by
  unfold tickRange
  simp only [List.mem_map, List.mem_range]
  constructor
  · rintro ⟨i, hi, rfl⟩
    omega
  · rintro ⟨h1, h2⟩
    exact ⟨(t - a).toNat, by omega, by omega⟩

theorem songModeTick_done (tick : Int) (e : Engine) (b : Bool) (r : Int) (e' : Engine)
    (h : songModeTick tick e b = TickOutcome.done r e') : r = -1 := by
  unfold songModeTick at h
  split_ifs at h
  · injection h with h1 _; exact h1.symm
  · dsimp only at h
    split_ifs at h
    all_goals
      injection h with h1 _
      exact h1.symm

theorem updateNoteQueue_tick_done (tick : Int) (ts : ℚ) (llf : Int) (e : Engine) (b : Bool)
    (r : Int) (e' : Engine) (h : updateNoteQueue_tick tick ts llf e b = TickOutcome.done r e') :
    r = -1 := by
  unfold updateNoteQueue_tick at h
  by_cases hst : (midiMerge tick e).m_audioEngineState ≠ STATE_PLAYING
  · rw [if_pos hst] at h
    exact absurd h (by simp)
  · rw [if_neg hst] at h
    by_cases hmode : (midiMerge tick e).song.mode = SongMode.SONG_MODE
    · rw [if_pos hmode] at h
      cases hso : songModeTick tick (midiMerge tick e) b with
      | done r2 e2 =>
        rw [hso] at h
        injection h with h1 _
        rw [← h1]
        exact songModeTick_done _ _ _ _ _ hso
      | next e2 b2 =>
        rw [hso] at h
        exact absurd h (by simp)
    · rw [if_neg hmode] at h
      exact absurd h (by simp)

/-- The ticks visited are an initial part of the tick window, and the whole
window when the scheduler does not return -1. -/
theorem visitedTicks_prefix (ts : ℚ) (llf : Int) (ticks : List Int) (e : Engine) (b : Bool) :
    visitedTicks ts llf ticks e b <+: ticks ∧
      ((updateNoteQueue_loop ts llf ticks e b).1 ≠ -1 → visitedTicks ts llf ticks e b = ticks) := by
  induction ticks generalizing e b with
  | nil => exact ⟨List.prefix_refl _, fun _ => rfl⟩
  | cons tick rest ih =>
    rw [visitedTicks, updateNoteQueue_loop]
    cases hto : updateNoteQueue_tick tick ts llf e b with
    | done r e1 =>
      have hr := updateNoteQueue_tick_done _ _ _ _ _ _ _ hto
      refine ⟨?_, fun h => absurd hr h⟩
      exact ⟨rest, rfl⟩
    | next e1 b1 =>
      obtain ⟨h1, h2⟩ := ih e1 b1
      refine ⟨?_, fun h => ?_⟩
      · obtain ⟨t, ht⟩ := h1
        exact ⟨t, by simp only [List.cons_append, ht]⟩
      · simp only [h2 h]

theorem calculateLookahead_eq (ts : ℚ) (hts : 0 < ts) :
    calculateLookahead ts = truncQ (toFloat (ts * 5)) + 2000 + 1 ∧ 0 ≤ calculateLookahead ts := by
  have hl : calculateLookahead ts = truncQ (toFloat (ts * 5)) + 2000 + 1 := by
    unfold calculateLookahead calculateLeadLagFactor m_nMaxTimeHumanize
    rfl
  refine ⟨hl, ?_⟩
  have := calculateLeadLagFactor_nonneg ts (le_of_lt hts)
  unfold calculateLookahead m_nMaxTimeHumanize
  omega

theorem framepos_nonneg (e : Engine) : 0 ≤ framepos e := by
  unfold framepos
  split <;> exact toU32_nonneg _

/-- C8, counterexample. Playing an empty song in song mode from frame 250 at
tick size 500, the window of `audioEngine_updateNoteQueue( 1024 )` is the ticks
9 and 10; the scheduler returns -1 on tick 9 and never visits tick 10. -/
theorem updateNoteQueue_window_not_all_visited :
    tickNumber_start (enginePlayingSong (songOfLengths [] false) 250) = 9 ∧
    tickNumber_end 1024 (enginePlayingSong (songOfLengths [] false) 250) = 11 ∧
    (audioEngine_updateNoteQueue 1024 (enginePlayingSong (songOfLengths [] false) 250)).1 = -1 ∧
    updateNoteQueue_visited 1024 (enginePlayingSong (songOfLengths [] false) 250) = [9] ∧
    ¬ (10 ∈ updateNoteQueue_visited 1024 (enginePlayingSong (songOfLengths [] false) 250)) := by
  decide!

/-- C8, amended. With a positive tick size: the lookahead is
`trunc(5 * tickSize) + 2000 + 1`, the product being a `float` product, which is
`⌊5 * tickSize⌋ + 2000 + 1` when five times the numerator of the tick size is
below `2^24`.  The frame sums of the tick window are `unsigned int` and the
divisions `float` divisions; when `framepos + N + lookahead` times the
denominator of the tick size is below `2^24` the window of
`audioEngine_updateNoteQueue( N )` ends before
`⌊(framepos + N + lookahead) / tickSize⌋` and starts at
`⌊(framepos + lookahead) / tickSize⌋`, or at `⌊framepos / tickSize⌋` when
`framepos = 0` or the engine is PLAYING in song mode with `m_nSongPos = -1`.
The ticks visited are an initial part of the window, and they are exactly the
ticks `t` with `start ≤ t < end` when the call does not return -1. -/
theorem updateNoteQueue_window (nFrames : Nat) (e : Engine)
    (hts : 0 < e.m_transport.m_fTickSize) :
    calculateLookahead e.m_transport.m_fTickSize
        = truncQ (toFloat (5 * e.m_transport.m_fTickSize)) + 2000 + 1 ∧
    (5 * e.m_transport.m_fTickSize.num < 16777216 →
      calculateLookahead e.m_transport.m_fTickSize
        = truncQ (5 * e.m_transport.m_fTickSize) + 2000 + 1) ∧
    ((framepos e + nFrames + calculateLookahead e.m_transport.m_fTickSize)
        * (e.m_transport.m_fTickSize.den : Int) < 16777216 →
      tickNumber_end nFrames e
          = ⌊((framepos e + nFrames + calculateLookahead e.m_transport.m_fTickSize : Int) : ℚ)
              / e.m_transport.m_fTickSize⌋ ∧
        tickNumber_start e
          = (if framepos e = 0
                ∨ (e.m_audioEngineState = STATE_PLAYING ∧ e.song.mode = SongMode.SONG_MODE
                    ∧ e.m_nSongPos = -1) then
              ⌊(framepos e : ℚ) / e.m_transport.m_fTickSize⌋
            else
              ⌊((framepos e + calculateLookahead e.m_transport.m_fTickSize : Int) : ℚ)
                / e.m_transport.m_fTickSize⌋)) ∧
    updateNoteQueue_visited nFrames e <+: tickRange (tickNumber_start e) (tickNumber_end nFrames e) ∧
    ((audioEngine_updateNoteQueue nFrames e).1 ≠ -1 →
      ∀ t : Int, t ∈ updateNoteQueue_visited nFrames e
        ↔ tickNumber_start e ≤ t ∧ t < tickNumber_end nFrames e) := by
  obtain ⟨hl, hl0⟩ := calculateLookahead_eq _ hts
  have hfp := framepos_nonneg e
  have h5 : (0 : ℚ) ≤ 5 * e.m_transport.m_fTickSize := by positivity
  have hden : (1 : Int) ≤ (e.m_transport.m_fTickSize.den : Int) := by
    exact_mod_cast e.m_transport.m_fTickSize.den_pos
  obtain ⟨hp1, hp2⟩ := visitedTicks_prefix e.m_transport.m_fTickSize
    (calculateLeadLagFactor e.m_transport.m_fTickSize)
    (tickRange (tickNumber_start e) (tickNumber_end nFrames e)) e false
  refine ⟨?_, ?_, ?_, hp1, ?_⟩
  · rw [hl, mul_comm]
  · intro h
    unfold calculateLookahead m_nMaxTimeHumanize
    rw [calculateLeadLagFactor_exact _ hts h, truncQ_of_nonneg h5]
  · intro hex
    have hn : (0 : Int) ≤ (nFrames : Int) := Int.ofNat_nonneg _
    have hsum : framepos e + nFrames + calculateLookahead e.m_transport.m_fTickSize
        < 16777216 := by nlinarith
    have hex1 : (framepos e + calculateLookahead e.m_transport.m_fTickSize)
        * (e.m_transport.m_fTickSize.den : Int) < 16777216 := by nlinarith
    have hex0 : framepos e * (e.m_transport.m_fTickSize.den : Int) < 16777216 := by nlinarith
    constructor
    · unfold tickNumber_end
      rw [toU32_of_bounds (by omega) (by omega)]
      exact ticksOfFrames_exact _ _ (by omega) hts hex
    · unfold tickNumber_start
      split
      · exact ticksOfFrames_exact _ _ hfp hts hex0
      · rw [toU32_of_bounds (by omega) (by omega)]
        exact ticksOfFrames_exact _ _ (by omega) hts hex1
  · intro hret t
    have : updateNoteQueue_visited nFrames e
        = tickRange (tickNumber_start e) (tickNumber_end nFrames e) := hp2 hret
    rw [this, mem_tickRange]

/-- Witness of C8, amended: playing `song0` from frame 250 at tick size 500 the
lookahead is 4501 and the ticks visited in a buffer of 1024 frames are 9 and
10.  Where the arithmetic is not exact the `float` values decide: at 44100 Hz
and 312.5 BPM the lead/lag factor is 882 although five tick sizes are below
882, and playing from frame 16772998 at tick size 500 the window starts at
tick 33555 although `(16772998 + 4501) / 500` is below 33555. -/
theorem updateNoteQueue_window_witness :
    calculateLookahead (enginePlaying 250).m_transport.m_fTickSize
        = truncQ (toFloat (5 * (enginePlaying 250).m_transport.m_fTickSize)) + 2000 + 1 ∧
    calculateLookahead (enginePlaying 250).m_transport.m_fTickSize
        = truncQ (5 * (enginePlaying 250).m_transport.m_fTickSize) + 2000 + 1 ∧
    (tickNumber_end 1024 (enginePlaying 250)
        = ⌊((framepos (enginePlaying 250) + (1024 : Nat)
              + calculateLookahead (enginePlaying 250).m_transport.m_fTickSize : Int) : ℚ)
            / (enginePlaying 250).m_transport.m_fTickSize⌋ ∧
      tickNumber_start (enginePlaying 250)
        = (if framepos (enginePlaying 250) = 0
              ∨ ((enginePlaying 250).m_audioEngineState = STATE_PLAYING
                  ∧ (enginePlaying 250).song.mode = SongMode.SONG_MODE
                  ∧ (enginePlaying 250).m_nSongPos = -1) then
            ⌊(framepos (enginePlaying 250) : ℚ) / (enginePlaying 250).m_transport.m_fTickSize⌋
          else
            ⌊((framepos (enginePlaying 250)
                + calculateLookahead (enginePlaying 250).m_transport.m_fTickSize : Int) : ℚ)
              / (enginePlaying 250).m_transport.m_fTickSize⌋)) ∧
    updateNoteQueue_visited 1024 (enginePlaying 250)
      <+: tickRange (tickNumber_start (enginePlaying 250))
            (tickNumber_end 1024 (enginePlaying 250)) ∧
    (∀ t : Int, t ∈ updateNoteQueue_visited 1024 (enginePlaying 250)
      ↔ tickNumber_start (enginePlaying 250) ≤ t ∧ t < tickNumber_end 1024 (enginePlaying 250)) ∧
    calculateLookahead 500 = 4501 ∧
    tickNumber_start (enginePlaying 250) = 9 ∧
    tickNumber_end 1024 (enginePlaying 250) = 11 ∧
    updateNoteQueue_visited 1024 (enginePlaying 250) = [9, 10] ∧
    calculateLeadLagFactor (compute_tick_size 44100 (625 / 2) 48) = 882 ∧
    5 * compute_tick_size 44100 (625 / 2) 48 < 882 ∧
    tickNumber_start (enginePlaying 16772998) = 33555 ∧
    ((16772998 + calculateLookahead 500 : Int) : ℚ) / 500 < 33555 :=
  ⟨(updateNoteQueue_window 1024 (enginePlaying 250) (by decide!)).1,
    (updateNoteQueue_window 1024 (enginePlaying 250) (by decide!)).2.1 (by decide!),
    (updateNoteQueue_window 1024 (enginePlaying 250) (by decide!)).2.2.1 (by decide!),
    (updateNoteQueue_window 1024 (enginePlaying 250) (by decide!)).2.2.2.1,
    (updateNoteQueue_window 1024 (enginePlaying 250) (by decide!)).2.2.2.2 (by decide!),
    by decide!, by decide!, by decide!, by decide!, by decide!, by decide!, by decide!,
    by decide!⟩

/-- An empty tick window: when the end bound is not above the start bound the
body of the tick loop does not run; `audioEngine_updateNoteQueue` visits no
tick, leaves the engine as it is and returns 0. -/
theorem updateNoteQueue_emptyWindow (nFrames : Nat) (e : Engine)
    (h : tickNumber_end nFrames e ≤ tickNumber_start e) :
    audioEngine_updateNoteQueue nFrames e = (0, e) ∧ updateNoteQueue_visited nFrames e = [] := by
  have hr : tickRange (tickNumber_start e) (tickNumber_end nFrames e) = [] := by
    unfold tickRange
    rw [Int.toNat_eq_zero.mpr (by omega)]
    rfl
  unfold audioEngine_updateNoteQueue updateNoteQueue_visited
  rw [hr]
  exact ⟨rfl, rfl⟩

/-! ## The MIDI merge -/

/-- C9, failing input. With the engine READY, the realtime frame counter at
3000 and tick size 500, `audioEngine_noteOn` is called with a note for tick 20
and then with a note for tick 12.  `audioEngine_updateNoteQueue( 1024 )` visits
the ticks 15 and 16; the merge stops at the note for tick 20 at the front of
the queue, so the note for tick 12 stays in the MIDI queue and never reaches
the song queue. -/
theorem midiMerge_leaves_due_note :
    engineMidi.m_midiNoteQueue = [noteAt 20, noteAt 12] ∧
    updateNoteQueue_visited 1024 engineMidi = [15, 16] ∧
    (midiMerge 15 engineMidi).m_midiNoteQueue = [noteAt 20, noteAt 12] ∧
    (audioEngine_updateNoteQueue 1024 engineMidi).2.m_midiNoteQueue = [noteAt 20, noteAt 12] ∧
    (audioEngine_updateNoteQueue 1024 engineMidi).2.m_songNoteQueue = [] ∧
    (noteAt 12).position ≤ 15 := by
  decide!

theorem mem_queuePush (ts : ℚ) (n x : Note) (q : List Note) :
    x ∈ queuePush ts n q ↔ x = n ∨ x ∈ q := by
  induction q with
  | nil => simp [queuePush]
  | cons m rest ih =>
    rw [queuePush]
    split
    · simp
    · simp only [List.mem_cons, ih]
      tauto

theorem midiMergeLoop_eq (tick : Int) (q : List Note) (e : Engine) :
    midiMergeLoop tick q e
      = { e with
          m_midiNoteQueue := (midiMergeLoop tick q e).m_midiNoteQueue
          m_songNoteQueue := (midiMergeLoop tick q e).m_songNoteQueue
          instruments := (midiMergeLoop tick q e).instruments } := by
  induction q generalizing e with
  | nil => rfl
  | cons n rest ih =>
    rw [midiMergeLoop]
    split
    · rfl
    · conv_lhs => rw [ih]
      rfl

/-- What the MIDI merge of one tick does: it moves an initial part of the MIDI
queue, made of notes at or before the tick, to the song queue, keeps the notes
already there, and stops at the first note after the tick. -/
theorem midiMergeLoop_spec (tick : Int) (q : List Note) (e : Engine) :
    ∃ moved : List Note,
      q = moved ++ (midiMergeLoop tick q e).m_midiNoteQueue ∧
      (∀ n ∈ moved, n.position ≤ tick) ∧
      (∀ n ∈ moved, n ∈ (midiMergeLoop tick q e).m_songNoteQueue) ∧
      (∀ n ∈ e.m_songNoteQueue, n ∈ (midiMergeLoop tick q e).m_songNoteQueue) ∧
      (∀ n ∈ (midiMergeLoop tick q e).m_midiNoteQueue.head?, n.position > tick) := by
  induction q generalizing e with
  | nil => exact ⟨[], rfl, by simp, by simp, fun n hn => hn, by simp [midiMergeLoop]⟩
  | cons x rest ih =>
    rw [midiMergeLoop]
    split
    · rename_i hx
      exact ⟨[], rfl, by simp, by simp, fun n hn => hn, by simpa using hx⟩
    · rename_i hx
      obtain ⟨moved, h1, h2, h3, h4, h5⟩ :=
        ih (({ e with m_midiNoteQueue := rest }.enqueue x.instrument).pushSongNote x)
      have hx' : x.position ≤ tick := by omega
      refine ⟨x :: moved, ?_, ?_, ?_, ?_, h5⟩
      · rw [List.cons_append, ← h1]
      · intro n hn
        rcases List.mem_cons.mp hn with rfl | hn
        · exact hx'
        · exact h2 n hn
      · intro n hn
        rcases List.mem_cons.mp hn with rfl | hn
        · exact h4 n ((mem_queuePush _ _ _ _).mpr (Or.inl rfl))
        · exact h3 n hn
      · intro n hn
        exact h4 n ((mem_queuePush _ _ _ _).mpr (Or.inr hn))

/-- When the MIDI queue is in order of position, the merge of one tick leaves
no note at or before the tick in it. -/
theorem midiMerge_complete_of_sorted (tick : Int) (e : Engine)
    (hs : e.m_midiNoteQueue.Pairwise (fun a b => a.position ≤ b.position)) :
    ∀ n ∈ (midiMerge tick e).m_midiNoteQueue, n.position > tick := by
  obtain ⟨moved, h1, _, _, _, h5⟩ := midiMergeLoop_spec tick e.m_midiNoteQueue e
  unfold midiMerge
  rw [h1] at hs
  have hs2 := (List.pairwise_append.mp hs).2.1
  intro n hn
  cases hq : (midiMergeLoop tick e.m_midiNoteQueue e).m_midiNoteQueue with
  | nil => rw [hq] at hn; exact absurd hn (by simp)
  | cons y t =>
    rw [hq] at hn hs2 h5
    have hy : y.position > tick := h5 y (by simp)
    rcases List.mem_cons.mp hn with rfl | hn
    · exact hy
    · have := (List.pairwise_cons.mp hs2).1 n hn
      omega

/-! ## The merge of the next patterns in pattern mode -/

theorem toggle_eq (pl : PatternList) (p : PatPtr) :
    (if (PatternList.del pl p).1 = none then PatternList.add (PatternList.del pl p).2 p
      else (PatternList.del pl p).2)
      = if p ∈ pl then pl.erase p else pl ++ [p] := by
  unfold PatternList.del PatternList.add
  by_cases h : p ∈ pl <;> simp [h]

/-- The merge loop toggles: a pattern is in the outcome when it is in exactly
one of the next patterns and the playing patterns. -/
theorem mergeNextPatterns_spec (next : PatternList) (hn : next.Nodup) :
    ∀ playing : PatternList, playing.Nodup →
      (mergeNextPatterns next playing).Nodup ∧
      ∀ P : PatPtr, P ∈ mergeNextPatterns next playing
        ↔ (P ∈ next ∧ P ∉ playing) ∨ (P ∉ next ∧ P ∈ playing) := by
  induction next with
  | nil =>
    intro playing hp
    exact ⟨hp, fun P => by simp [mergeNextPatterns]⟩
  | cons p rest ih =>
    intro playing hp
    obtain ⟨hpr, hrest⟩ := List.nodup_cons.mp hn
    have hstep : mergeNextPatterns (p :: rest) playing
        = mergeNextPatterns rest (if p ∈ playing then playing.erase p else playing ++ [p]) := by
      unfold mergeNextPatterns
      rw [List.foldl_cons, toggle_eq]
    rw [hstep]
    by_cases hmem : p ∈ playing
    · rw [if_pos hmem]
      obtain ⟨h1, h2⟩ := ih hrest (playing.erase p) (hp.erase p)
      refine ⟨h1, fun P => ?_⟩
      rw [h2 P, hp.mem_erase_iff, List.mem_cons]
      by_cases hP : P = p
      · subst hP; simp [hpr, hmem]
      · simp [hP]
    · rw [if_neg hmem]
      have hnd : (playing ++ [p]).Nodup := by
        rw [List.nodup_append]
        refine ⟨hp, List.nodup_singleton p, ?_⟩
        intro a ha hb
        rw [List.mem_singleton] at hb
        exact hmem (hb ▸ ha)
      obtain ⟨h1, h2⟩ := ih hrest (playing ++ [p]) hnd
      refine ⟨h1, fun P => ?_⟩
      rw [h2 P, List.mem_append, List.mem_singleton, List.mem_cons]
      by_cases hP : P = p
      · subst hP; simp [hpr, hmem]
      · simp [hP]

theorem samePatterns_refl (e : Engine) : e.samePatterns e := ⟨rfl, rfl⟩

theorem samePatterns_trans {e1 e2 e3 : Engine} (h12 : e1.samePatterns e2)
    (h23 : e2.samePatterns e3) : e1.samePatterns e3 :=
  ⟨h23.1.trans h12.1, h23.2.trans h12.2⟩

theorem samePatterns_foldl {α : Type} (f : Engine → α → Engine)
    (hf : ∀ (e : Engine) (x : α), e.samePatterns (f e x)) (l : List α) (e : Engine) :
    e.samePatterns (l.foldl f e) := by
  induction l generalizing e with
  | nil => exact samePatterns_refl e
  | cons x t ih => exact samePatterns_trans (hf e x) (ih (f e x))

theorem metronomeTick_samePatterns (tick : Int) (e : Engine) :
    e.samePatterns (metronomeTick tick e) := by
  unfold metronomeTick Engine.samePatterns
  simp only [push_event, Engine.enqueue, Engine.pushSongNote]
  split_ifs <;> simp

theorem scheduleNote_samePatterns (tick : Int) (ts : ℚ) (llf : Int) (e : Engine) (n : Note) :
    e.samePatterns (scheduleNote tick ts llf e n) := by
  unfold scheduleNote Engine.samePatterns
  simp only [getGaussian, Engine.enqueue, Engine.pushSongNote]
  split_ifs <;> simp

theorem schedulePattern_samePatterns (tick : Int) (ts : ℚ) (llf : Int) (e : Engine)
    (p : PatPtr) : e.samePatterns (schedulePattern tick ts llf e p) := by
  unfold schedulePattern
  refine samePatterns_trans ?_ (samePatterns_foldl _ (scheduleNote_samePatterns tick ts llf) _ _)
  exact ⟨rfl, rfl⟩

theorem scheduleNotes_samePatterns (tick : Int) (ts : ℚ) (llf : Int) (e : Engine) :
    e.samePatterns (scheduleNotes tick ts llf e) := by
  unfold scheduleNotes
  split
  · exact samePatterns_foldl _ (schedulePattern_samePatterns tick ts llf) _ _
  · exact samePatterns_refl _

/-- The pattern-mode part of a tick at a pattern boundary with next patterns
pending: the next patterns are merged into the playing patterns the step works
on, the next patterns are emptied and the pattern change is flagged. -/
theorem patternModeTick_boundary (tick : Int) (e : Engine) (b : Bool)
    (hb : tick = e.m_nPatternStartTick + patternModeSize e ∨ e.m_nPatternStartTick = -1)
    (hne : e.m_pNextPatterns ≠ []) :
    (patternModeTick tick e b).1.m_pPlayingPatterns
        = mergeNextPatterns e.m_pNextPatterns (patternModePlaying e) ∧
      (patternModeTick tick e b).1.m_pNextPatterns = [] ∧
      (patternModeTick tick e b).2 = true := by
  have hlen : e.m_pNextPatterns.length > 0 := List.length_pos.mpr hne
  unfold patternModeTick
  simp only [hb, hlen, if_true]
  split_ifs <;> simp

theorem patternModeTick_flag (tick : Int) (e : Engine) :
    (patternModeTick tick e true).2 = true := by
  unfold patternModeTick
  simp only []
  split_ifs <;> simp

/-- In pattern mode a pass of the tick loop never returns, and it keeps a
pattern change that is already flagged. -/
theorem updateNoteQueue_tick_pattern (tick : Int) (ts : ℚ) (llf : Int) (e : Engine) (b : Bool)
    (hmode : e.song.mode = SongMode.PATTERN_MODE) :
    ∃ e1 b1, updateNoteQueue_tick tick ts llf e b = TickOutcome.next e1 b1
      ∧ (b = true → b1 = true) := by
  have hm : (midiMerge tick e).song.mode ≠ SongMode.SONG_MODE := by
    rw [midiMerge, (midiMergeLoop_sameControl tick _ e).2.2.2.1, hmode]
    decide
  unfold updateNoteQueue_tick
  by_cases hst : (midiMerge tick e).m_audioEngineState ≠ STATE_PLAYING
  · rw [if_pos hst]
    exact ⟨_, _, rfl, id⟩
  · rw [if_neg hst, if_neg hm]
    refine ⟨_, _, rfl, ?_⟩
    rintro rfl
    exact patternModeTick_flag tick _

theorem updateNoteQueue_loop_pattern (ts : ℚ) (llf : Int) (ticks : List Int) (e : Engine)
    (hmode : e.song.mode = SongMode.PATTERN_MODE) :
    (updateNoteQueue_loop ts llf ticks e true).1 = 2 := by
  induction ticks generalizing e with
  | nil => rfl
  | cons tick rest ih =>
    obtain ⟨e1, b1, h1, h2⟩ := updateNoteQueue_tick_pattern tick ts llf e true hmode
    have hsc := updateNoteQueue_tick_sameControl tick ts llf e true
    rw [updateNoteQueue_loop, h1]
    rw [h1] at hsc
    rw [h2 rfl]
    exact ih e1 (hsc.2.2.2.1.trans hmode)

/-- C10, counterexample. With "play selected pattern" on and pattern 0
selected, pattern 1 is playing and is queued as next pattern, and no pattern
start tick is known.  Tick 0 first replaces the playing patterns by the
selected pattern and then merges: pattern 1, playing before the tick, is still
playing after it, and pattern 0, which is not a next pattern and was not
playing, is playing now. -/
theorem updateNoteQueue_toggle_after_forcing :
    enginePatternSelected.m_audioEngineState = STATE_PLAYING ∧
    enginePatternSelected.song.mode = SongMode.PATTERN_MODE ∧
    enginePatternSelected.m_nPatternStartTick = -1 ∧
    enginePatternSelected.m_pNextPatterns = [1] ∧
    enginePatternSelected.m_pPlayingPatterns = [1] ∧
    (updateNoteQueue_tick 0 500 2500 enginePatternSelected false).engine.m_pPlayingPatterns
      = [0, 1] := by
  decide!

/-- C10, amended. Pattern-mode merge has toggle semantics relative to the
playing patterns the merge starts from.  Take a tick processed by
`audioEngine_updateNoteQueue` while PLAYING in pattern mode, at a pattern
boundary (`tick = m_nPatternStartTick + nPatternSize`, or
`m_nPatternStartTick = -1`), with a non-empty list of distinct next patterns.
Let the playing patterns the merge starts from (`patternModePlaying`) be the
current playing patterns when "play selected pattern" is off, and the selected
pattern with its virtual patterns when it is on, and let them be free of
duplicates.  After the tick every next pattern is playing if and only if it
was not among them, every other pattern is playing if and only if it was among
them, the next patterns are empty, and the call returns 2 whatever ticks
remain. -/
theorem updateNoteQueue_toggle (tick : Int) (ts : ℚ) (llf : Int) (rest : List Int)
    (e : Engine) (b : Bool)
    (hplay : e.m_audioEngineState = STATE_PLAYING)
    (hmode : e.song.mode = SongMode.PATTERN_MODE)
    (hb : tick = e.m_nPatternStartTick + patternModeSize e ∨ e.m_nPatternStartTick = -1)
    (hne : e.m_pNextPatterns ≠ [])
    (hnd : e.m_pNextPatterns.Nodup)
    (hpd : (patternModePlaying e).Nodup) :
    (∀ P ∈ e.m_pNextPatterns,
      (P ∈ (updateNoteQueue_tick tick ts llf e b).engine.m_pPlayingPatterns
        ↔ P ∉ patternModePlaying e)) ∧
    (∀ P : PatPtr, P ∉ e.m_pNextPatterns →
      (P ∈ (updateNoteQueue_tick tick ts llf e b).engine.m_pPlayingPatterns
        ↔ P ∈ patternModePlaying e)) ∧
    (updateNoteQueue_tick tick ts llf e b).engine.m_pNextPatterns = [] ∧
    (updateNoteQueue_loop ts llf (tick :: rest) e b).1 = 2 ∧
    (e.patternModePlaysSelected = false → patternModePlaying e = e.m_pPlayingPatterns) := by
  have hmm := midiMergeLoop_eq tick e.m_midiNoteQueue e
  have hsc := midiMergeLoop_sameControl tick e.m_midiNoteQueue e
  have hst : ¬ (midiMerge tick e).m_audioEngineState ≠ STATE_PLAYING := by
    rw [midiMerge, hsc.2.2.1, hplay]; simp
  have hm : (midiMerge tick e).song.mode ≠ SongMode.SONG_MODE := by
    rw [midiMerge, hsc.2.2.2.1, hmode]; decide
  have hpl : patternModePlaying (midiMerge tick e) = patternModePlaying e := by
    rw [midiMerge, hmm]; rfl
  have hsz : patternModeSize (midiMerge tick e) = patternModeSize e := by
    unfold patternModeSize
    rw [hpl]
    rw [midiMerge, hmm]
  have hnx : (midiMerge tick e).m_pNextPatterns = e.m_pNextPatterns := by
    rw [midiMerge, hmm]
  have hstart : (midiMerge tick e).m_nPatternStartTick = e.m_nPatternStartTick := by
    rw [midiMerge, hmm]
  obtain ⟨hp1, hp2, hp3⟩ := patternModeTick_boundary tick (midiMerge tick e) b
    (by rw [hstart, hsz]; exact hb) (by rw [hnx]; exact hne)
  rw [hnx, hpl] at hp1
  have htick : updateNoteQueue_tick tick ts llf e b
      = TickOutcome.next
          (scheduleNotes tick ts llf
            (metronomeTick tick (patternModeTick tick (midiMerge tick e) b).1)) true := by
    unfold updateNoteQueue_tick
    rw [if_neg hst, if_neg hm, hp3]
  have hsp := samePatterns_trans
    (metronomeTick_samePatterns tick (patternModeTick tick (midiMerge tick e) b).1)
    (scheduleNotes_samePatterns tick ts llf _)
  obtain ⟨_, hspec⟩ := mergeNextPatterns_spec e.m_pNextPatterns hnd (patternModePlaying e) hpd
  have hplaying : (updateNoteQueue_tick tick ts llf e b).engine.m_pPlayingPatterns
      = mergeNextPatterns e.m_pNextPatterns (patternModePlaying e) := by
    rw [htick]
    exact hsp.1.trans hp1
  refine ⟨?_, ?_, ?_, ?_, ?_⟩
  · intro P hP
    rw [hplaying, hspec P]
    simp [hP]
  · intro P hP
    rw [hplaying, hspec P]
    simp [hP]
  · rw [htick]
    exact hsp.2.trans hp2
  · rw [updateNoteQueue_loop, htick]
    apply updateNoteQueue_loop_pattern
    have := updateNoteQueue_tick_sameControl tick ts llf e b
    rw [htick] at this
    exact this.2.2.2.1.trans hmode
  · intro h
    unfold patternModePlaying
    simp [h]

/-- Witness of C10, amended: pattern 0 is playing and is queued as next
pattern; after tick 0 it is removed from the playing patterns, not duplicated,
the next patterns are empty and the call returns 2. -/
theorem updateNoteQueue_toggle_witness :
    ((∀ P ∈ (enginePatternMode [0]).m_pNextPatterns,
        (P ∈ (updateNoteQueue_tick 0 500 2500 (enginePatternMode [0])
                false).engine.m_pPlayingPatterns
          ↔ P ∉ patternModePlaying (enginePatternMode [0]))) ∧
      (∀ P : PatPtr, P ∉ (enginePatternMode [0]).m_pNextPatterns →
        (P ∈ (updateNoteQueue_tick 0 500 2500 (enginePatternMode [0])
                false).engine.m_pPlayingPatterns
          ↔ P ∈ patternModePlaying (enginePatternMode [0]))) ∧
      (updateNoteQueue_tick 0 500 2500 (enginePatternMode [0]) false).engine.m_pNextPatterns
        = [] ∧
      (updateNoteQueue_loop 500 2500 (0 :: [1, 2]) (enginePatternMode [0]) false).1 = 2 ∧
      ((enginePatternMode [0]).patternModePlaysSelected = false →
        patternModePlaying (enginePatternMode [0]) = (enginePatternMode [0]).m_pPlayingPatterns)) ∧
    (enginePatternMode [0]).m_pPlayingPatterns = [0] ∧
    (updateNoteQueue_tick 0 500 2500 (enginePatternMode [0]) false).engine.m_pPlayingPatterns
      = [] ∧
    (audioEngine_updateNoteQueue 1024 (enginePatternMode [0])).1 = 2 ∧
    (audioEngine_updateNoteQueue 1024 (enginePatternMode [0])).2.m_pPlayingPatterns = [] :=
  ⟨updateNoteQueue_toggle 0 500 2500 [1, 2] (enginePatternMode [0]) false rfl rfl
      (Or.inr rfl) (by decide) (by decide) (by decide),
    rfl, by decide!, by decide!, by decide!⟩

/-! ## Not-found result of the lookup and end of song -/

theorem songSize_nonneg (song : Song) : 0 ≤ songSize song :=
  sum_map_columnSize_nonneg song song.patternGroupVector

/-- The first scan of the lookup on a tick at or beyond the end of the song. -/
theorem scanColumns_song_notFound (song : Song) (T : Int) (h : songSize song ≤ T) :
    scanColumns song T song.patternGroupVector 0 0 = Sum.inr (songSize song) := by
  have := scanColumns_notFound song T song.patternGroupVector 0 0
    (Or.inr (by simpa [songSize, columnSizes] using h))
  simpa [songSize, columnSizes] using this

/-- C13. Not-found result of the lookup: for a tick `T ≥ 0`,
`findPatternInTick` returns -1 if and only if the song has total length 0, or
`T` is at or beyond the total length and the loop flag is off; and with the
loop flag on and a positive total length `L` the second scan, on `T % L`,
finds a column. -/
theorem findPatternInTick_notFound_iff (song : Song) (T : Int) (loop : Bool) (s0 : Int)
    (h0 : 0 ≤ T) :
    ((findPatternInTick song T loop s0).ret = -1
      ↔ (songSize song = 0 ∨ (songSize song ≤ T ∧ loop = false))) ∧
    (loop = true → 0 < songSize song →
      ∃ k : Nat, k < song.patternGroupVector.length ∧
        scanColumns song (T % songSize song) song.patternGroupVector 0 0
          = Sum.inl ((k : Int), columnStart song k)) := by
  have hnn := songSize_nonneg song
  constructor
  · constructor
    · intro hret
      by_contra hcon
      rw [not_or, not_and] at hcon
      obtain ⟨hL, hTL⟩ := hcon
      have hLpos : 0 < songSize song := lt_of_le_of_ne hnn (Ne.symm hL)
      by_cases hT : T < songSize song
      · obtain ⟨i, _, hs, _⟩ := scanColumns_song_found song T h0 hT
        simp only [findPatternInTick, hs] at hret
        omega
      · have hl : loop = true := by
          cases loop
          · exact absurd rfl (hTL (by omega))
          · rfl
        subst hl
        obtain ⟨k, _, hk, _⟩ := findPatternInTick_loop song T s0 h0 hLpos
        rw [hk] at hret
        omega
    · rintro (hL | ⟨hTL, hl⟩)
      · have h1 := scanColumns_song_notFound song T (by omega)
        have h2 := scanColumns_song_notFound song 0 (by omega)
        unfold findPatternInTick
        rw [h1]
        cases loop
        · simp
        · simp [hL, h2]
      · have h1 := scanColumns_song_notFound song T hTL
        subst hl
        unfold findPatternInTick
        rw [h1]
        simp
  · intro _ hL
    obtain ⟨k, hk, hs, _, _⟩ := scanColumns_song_found song (T % songSize song)
      (Int.emod_nonneg _ (ne_of_gt hL)) (Int.emod_lt_of_pos _ hL)
    exact ⟨k, hk, hs⟩

/-- Witness of C13: on the song of 192 + 96 ticks, tick 300 is not found with
the loop flag off and is found in column 0 with it on. -/
theorem findPatternInTick_notFound_iff_witness :
    (((findPatternInTick song0 300 false 7).ret = -1
        ↔ (songSize song0 = 0 ∨ (songSize song0 ≤ 300 ∧ false = false))) ∧
      (false = true → 0 < songSize song0 →
        ∃ k : Nat, k < song0.patternGroupVector.length ∧
          scanColumns song0 (300 % songSize song0) song0.patternGroupVector 0 0
            = Sum.inl ((k : Int), columnStart song0 k))) ∧
    findPatternInTick song0 300 false 7 = ⟨-1, 7, 0⟩ ∧
    findPatternInTick song0 300 true 7 = ⟨0, 0, 288⟩ ∧
    findPatternInTick (songOfLengths [0, 0] true) 5 true 7 = ⟨-1, 7, 0⟩ :=
  ⟨findPatternInTick_notFound_iff song0 300 false 7 (by decide), by decide, by decide, by decide⟩

/-! ## Position within the pattern in song mode -/

theorem samePosition_refl (e : Engine) : e.samePosition e := ⟨rfl, rfl, rfl, rfl⟩

theorem samePosition_trans {e1 e2 e3 : Engine} (h12 : e1.samePosition e2)
    (h23 : e2.samePosition e3) : e1.samePosition e3 :=
  ⟨h23.1.trans h12.1, h23.2.1.trans h12.2.1, h23.2.2.1.trans h12.2.2.1,
    h23.2.2.2.trans h12.2.2.2⟩

theorem samePosition_foldl {α : Type} (f : Engine → α → Engine)
    (hf : ∀ (e : Engine) (x : α), e.samePosition (f e x)) (l : List α) (e : Engine) :
    e.samePosition (l.foldl f e) := by
  induction l generalizing e with
  | nil => exact samePosition_refl e
  | cons x t ih => exact samePosition_trans (hf e x) (ih (f e x))

theorem metronomeTick_samePosition (tick : Int) (e : Engine) :
    e.samePosition (metronomeTick tick e) := by
  unfold metronomeTick Engine.samePosition
  simp only [push_event, Engine.enqueue, Engine.pushSongNote]
  split_ifs <;> simp

theorem scheduleNote_samePosition (tick : Int) (ts : ℚ) (llf : Int) (e : Engine) (n : Note) :
    e.samePosition (scheduleNote tick ts llf e n) := by
  unfold scheduleNote Engine.samePosition
  simp only [getGaussian, Engine.enqueue, Engine.pushSongNote]
  split_ifs <;> simp

theorem schedulePattern_samePosition (tick : Int) (ts : ℚ) (llf : Int) (e : Engine)
    (p : PatPtr) : e.samePosition (schedulePattern tick ts llf e p) := by
  unfold schedulePattern
  refine samePosition_trans ?_ (samePosition_foldl _ (scheduleNote_samePosition tick ts llf) _ _)
  exact ⟨rfl, rfl, rfl, rfl⟩

theorem scheduleNotes_samePosition (tick : Int) (ts : ℚ) (llf : Int) (e : Engine) :
    e.samePosition (scheduleNotes tick ts llf e) := by
  unfold scheduleNotes
  split
  · exact samePosition_foldl _ (schedulePattern_samePosition tick ts llf) _ _
  · exact samePosition_refl _

theorem columnStart_succ (song : Song) (i : Nat) (hi : i < song.patternGroupVector.length) :
    columnStart song (i + 1) = columnStart song i + (columnSizes song).getD i 0 := by
  have hlen : i < (columnSizes song).length := by simpa [columnSizes] using hi
  unfold columnStart
  rw [List.sum_take_succ _ i hlen, List.getD_eq_getElem _ _ hlen]

/-- The outcome of the lookup of a tick `T ≥ 0` that is found in a song of
positive length `L`: the record returned, with `m_nSongSizeInTicks` equal to
`L` when the lookup wrapped and to 0 when it did not, and the place of the
tick, reduced modulo `L` when wrapped, in the column found. -/
theorem findPatternInTick_found (song : Song) (T : Int) (loop : Bool) (s0 : Int)
    (h0 : 0 ≤ T) (hL : 0 < songSize song)
    (hfound : (findPatternInTick song T loop s0).ret ≠ -1) :
    ∃ i : Nat, i < song.patternGroupVector.length ∧
      findPatternInTick song T loop s0
        = ⟨i, columnStart song i, if loop = true ∧ songSize song ≤ T then songSize song else 0⟩ ∧
      columnStart song i ≤ (if loop = true ∧ songSize song ≤ T then T % songSize song else T) ∧
      (if loop = true ∧ songSize song ≤ T then T % songSize song else T)
        < columnStart song (i + 1) := by
  by_cases hT : T < songSize song
  · obtain ⟨k, hk, hs, hlo, hhi⟩ := scanColumns_song_found song T h0 hT
    have hc : ¬ (loop = true ∧ songSize song ≤ T) := fun h => by omega
    refine ⟨k, hk, ?_, ?_, ?_⟩
    · simp [findPatternInTick, hs, hc]
    · rw [if_neg hc]; exact hlo
    · rw [if_neg hc]; exact hhi
  · have h1 := scanColumns_song_notFound song T (by omega)
    have hl : loop = true := by
      cases loop
      · exfalso
        apply hfound
        unfold findPatternInTick
        rw [h1]
        simp
      · rfl
    subst hl
    have hc : (true = true ∧ songSize song ≤ T) := ⟨rfl, by omega⟩
    obtain ⟨k, hk, hs, hlo, hhi⟩ := scanColumns_song_found song (T % songSize song)
      (Int.emod_nonneg _ (ne_of_gt hL)) (Int.emod_lt_of_pos _ hL)
    have hne : songSize song ≠ 0 := ne_of_gt hL
    have htm : Int.tmod T (songSize song) = T % songSize song :=
      Int.tmod_eq_emod h0 (le_of_lt hL)
    refine ⟨k, hk, ?_, ?_, ?_⟩
    · simp [findPatternInTick, h1, hne, htm, hs, hc]
    · rw [if_pos hc]; exact hlo
    · rw [if_pos hc]; exact hhi

/-- The song-mode part of a tick on a tick `T ≥ 0` that the lookup finds: the
loop goes on, and the position within the pattern is `(T - s) % L` when the
lookup wrapped and `T - s` when it did not, `s` being the start tick of the
column found; it lies inside that column. -/
theorem songModeTick_found (tick : Int) (e : Engine) (b : Bool)
    (h0 : 0 ≤ tick) (hL : 0 < songSize e.song) (hmax : songSize e.song < 4294967296)
    (hfound : (findPatternInTick e.song tick e.song.isLoopEnabled e.m_nPatternStartTick).ret ≠ -1) :
    ∃ i : Nat, i < e.song.patternGroupVector.length ∧
      (findPatternInTick e.song tick e.song.isLoopEnabled e.m_nPatternStartTick).ret = i ∧
      (findPatternInTick e.song tick e.song.isLoopEnabled e.m_nPatternStartTick).patternStartTick
        = columnStart e.song i ∧
      ∃ (e' : Engine) (b' : Bool), songModeTick tick e b = TickOutcome.next e' b' ∧
        e'.m_nPatternTickPosition
          = (if e.song.isLoopEnabled = true ∧ songSize e.song ≤ tick then
              (tick - columnStart e.song i) % songSize e.song
            else tick - columnStart e.song i) ∧
        0 ≤ e'.m_nPatternTickPosition ∧
        e'.m_nPatternTickPosition < (columnSizes e.song).getD i 0 := by
  obtain ⟨i, hi, hfind, hlo, hhi⟩ :=
    findPatternInTick_found e.song tick e.song.isLoopEnabled e.m_nPatternStartTick h0 hL hfound
  have hcols : ¬ e.song.patternGroupVector.length = 0 := by omega
  have hpos : ¬ ((i : Int) = -1) := by omega
  have hsucc := columnStart_succ e.song i hi
  have hle : columnStart e.song (i + 1) ≤ songSize e.song := by
    rw [← columnStart_length]
    exact columnStart_mono e.song (by omega)
  have hcs0 : 0 ≤ columnStart e.song i := by
    have := columnStart_mono e.song (Nat.zero_le i)
    simpa [columnStart] using this
  refine ⟨i, hi, by rw [hfind], by rw [hfind], ?_⟩
  unfold songModeTick
  rw [if_neg hcols]
  simp only [hfind, hpos, false_and, if_false]
  refine ⟨_, _, rfl, ?_⟩
  by_cases hw : e.song.isLoopEnabled = true ∧ songSize e.song ≤ tick
  · simp only [hw, and_self, if_true] at hlo hhi ⊢
    have hne : songSize e.song ≠ 0 := ne_of_gt hL
    have hsplit : tick - columnStart e.song i
        = (tick % songSize e.song - columnStart e.song i)
          + songSize e.song * (tick / songSize e.song) := by
      have := Int.emod_add_ediv tick (songSize e.song)
      omega
    have hmod : (tick - columnStart e.song i) % songSize e.song
        = tick % songSize e.song - columnStart e.song i := by
      rw [hsplit, Int.add_mul_emod_self_left]
      exact Int.emod_eq_of_lt (by omega) (by omega)
    have htm : Int.tmod (tick - columnStart e.song i) (songSize e.song)
        = (tick - columnStart e.song i) % songSize e.song := by
      apply Int.tmod_eq_emod _ (le_of_lt hL)
      have h2 : tick % songSize e.song ≤ tick := by
        have h3 := Int.emod_add_ediv tick (songSize e.song)
        have h4 : 0 ≤ tick / songSize e.song := Int.ediv_nonneg h0 (le_of_lt hL)
        nlinarith
      omega
    simp only [hne, ne_eq, not_false_eq_true, if_true, htm, hmod]
    rw [toU32_of_bounds (by omega) (by omega)]
    exact ⟨rfl, by omega, by omega⟩
  · have hz : (if e.song.isLoopEnabled = true ∧ songSize e.song ≤ tick then songSize e.song
        else 0) = 0 := if_neg hw
    simp only [hw, if_false] at hlo hhi ⊢
    simp only [ne_eq, not_true_eq_false, if_false]
    rw [toU32_of_bounds (by omega) (by omega)]
    exact ⟨rfl, by omega, by omega⟩

/-- C11. Song-mode position within the pattern.  Take a song of total length
`L` with `0 < L < 2^32` and a tick `T ≥ 0` processed by
`audioEngine_updateNoteQueue` while PLAYING in song mode, for which the lookup
finds a column `i`, with start tick `s`.  After the tick
`m_nPatternTickPosition` is `(T - s) % L` when the lookup had to wrap (loop
enabled and `T ≥ L`) and `T - s` otherwise, and in both cases it is at least 0
and less than the length of column `i`. -/
theorem updateNoteQueue_tick_songPosition (tick : Int) (ts : ℚ) (llf : Int) (e : Engine)
    (b : Bool)
    (hplay : e.m_audioEngineState = STATE_PLAYING)
    (hmode : e.song.mode = SongMode.SONG_MODE)
    (hL : 0 < songSize e.song) (hmax : songSize e.song < 4294967296)
    (h0 : 0 ≤ tick)
    (hfound : (findPatternInTick e.song tick e.song.isLoopEnabled e.m_nPatternStartTick).ret ≠ -1) :
    ∃ i : Nat, i < e.song.patternGroupVector.length ∧
      (findPatternInTick e.song tick e.song.isLoopEnabled e.m_nPatternStartTick).ret = i ∧
      (findPatternInTick e.song tick e.song.isLoopEnabled e.m_nPatternStartTick).patternStartTick
        = columnStart e.song i ∧
      (updateNoteQueue_tick tick ts llf e b).engine.m_nPatternTickPosition
        = (if e.song.isLoopEnabled = true ∧ songSize e.song ≤ tick then
            (tick - columnStart e.song i) % songSize e.song
          else tick - columnStart e.song i) ∧
      0 ≤ (updateNoteQueue_tick tick ts llf e b).engine.m_nPatternTickPosition ∧
      (updateNoteQueue_tick tick ts llf e b).engine.m_nPatternTickPosition
        < (columnSizes e.song).getD i 0 := by
  have hmm := midiMergeLoop_eq tick e.m_midiNoteQueue e
  have hsong : (midiMerge tick e).song = e.song := by rw [midiMerge, hmm]
  have hstart : (midiMerge tick e).m_nPatternStartTick = e.m_nPatternStartTick := by
    rw [midiMerge, hmm]
  have hst : ¬ (midiMerge tick e).m_audioEngineState ≠ STATE_PLAYING := by
    rw [midiMerge, hmm]; simpa using hplay
  have hm : (midiMerge tick e).song.mode = SongMode.SONG_MODE := by rw [hsong, hmode]
  obtain ⟨i, hi, hret, hs, e', b', hsm, hp, hp0, hp1⟩ :=
    songModeTick_found tick (midiMerge tick e) b h0 (by rw [hsong]; exact hL)
      (by rw [hsong]; exact hmax) (by rw [hsong, hstart]; exact hfound)
  rw [hsong] at hi hp hp1
  rw [hsong, hstart] at hret hs
  have htick : (updateNoteQueue_tick tick ts llf e b).engine
      = scheduleNotes tick ts llf (metronomeTick tick e') := by
    unfold updateNoteQueue_tick
    rw [if_neg hst, if_pos hm, hsm]
    rfl
  have hsame := samePosition_trans (metronomeTick_samePosition tick e')
    (scheduleNotes_samePosition tick ts llf _)
  rw [htick, hsame.1]
  exact ⟨i, hi, hret, hs, hp, hp0, hp1⟩

/-- Witness of C11: playing the looped song of 192 + 96 ticks, tick 300 wraps
into column 0 and the position within the pattern is 12; tick 200 lies in
column 1, which starts at tick 192, at position 8. -/
theorem updateNoteQueue_tick_songPosition_witness :
    (∃ i : Nat, i < (enginePlayingSong (songOfLengths [192, 96] true) 0).song.patternGroupVector.length ∧
      (findPatternInTick (enginePlayingSong (songOfLengths [192, 96] true) 0).song 300
          (enginePlayingSong (songOfLengths [192, 96] true) 0).song.isLoopEnabled
          (enginePlayingSong (songOfLengths [192, 96] true) 0).m_nPatternStartTick).ret = i ∧
      (findPatternInTick (enginePlayingSong (songOfLengths [192, 96] true) 0).song 300
          (enginePlayingSong (songOfLengths [192, 96] true) 0).song.isLoopEnabled
          (enginePlayingSong (songOfLengths [192, 96] true) 0).m_nPatternStartTick).patternStartTick
        = columnStart (enginePlayingSong (songOfLengths [192, 96] true) 0).song i ∧
      (updateNoteQueue_tick 300 500 2500 (enginePlayingSong (songOfLengths [192, 96] true) 0)
          false).engine.m_nPatternTickPosition
        = (if (enginePlayingSong (songOfLengths [192, 96] true) 0).song.isLoopEnabled = true
              ∧ songSize (enginePlayingSong (songOfLengths [192, 96] true) 0).song ≤ 300 then
            (300 - columnStart (enginePlayingSong (songOfLengths [192, 96] true) 0).song i)
              % songSize (enginePlayingSong (songOfLengths [192, 96] true) 0).song
          else 300 - columnStart (enginePlayingSong (songOfLengths [192, 96] true) 0).song i) ∧
      0 ≤ (updateNoteQueue_tick 300 500 2500 (enginePlayingSong (songOfLengths [192, 96] true) 0)
          false).engine.m_nPatternTickPosition ∧
      (updateNoteQueue_tick 300 500 2500 (enginePlayingSong (songOfLengths [192, 96] true) 0)
          false).engine.m_nPatternTickPosition
        < (columnSizes (enginePlayingSong (songOfLengths [192, 96] true) 0).song).getD i 0) ∧
    (updateNoteQueue_tick 300 500 2500 (enginePlayingSong (songOfLengths [192, 96] true) 0)
      false).engine.m_nPatternTickPosition = 12 ∧
    (updateNoteQueue_tick 200 500 2500 (enginePlayingSong (songOfLengths [192, 96] true) 0)
      false).engine.m_nPatternTickPosition = 8 :=
  ⟨updateNoteQueue_tick_songPosition 300 500 2500
      (enginePlayingSong (songOfLengths [192, 96] true) 0) false rfl rfl
      (by decide) (by decide) (by decide) (by decide),
    by decide!, by decide!⟩

/-! ## End of song -/

/-- While PLAYING in song mode without looping, a tick at or beyond the end of
the song makes the scheduler return -1. -/
theorem updateNoteQueue_tick_beyond (tick : Int) (ts : ℚ) (llf : Int) (e : Engine) (b : Bool)
    (hplay : e.m_audioEngineState = STATE_PLAYING)
    (hmode : e.song.mode = SongMode.SONG_MODE)
    (hloop : e.song.isLoopEnabled = false)
    (hT : songSize e.song ≤ tick) :
    ∃ e' : Engine, updateNoteQueue_tick tick ts llf e b = TickOutcome.done (-1) e' := by
  have hmm := midiMergeLoop_eq tick e.m_midiNoteQueue e
  have hsong : (midiMerge tick e).song = e.song := by rw [midiMerge, hmm]
  have hst : ¬ (midiMerge tick e).m_audioEngineState ≠ STATE_PLAYING := by
    rw [midiMerge, hmm]; simpa using hplay
  have hm : (midiMerge tick e).song.mode = SongMode.SONG_MODE := by rw [hsong, hmode]
  have h1 := scanColumns_song_notFound e.song tick hT
  have hfind : ∀ s0 : Int, (findPatternInTick e.song tick false s0).ret = -1 := by
    intro s0
    unfold findPatternInTick
    rw [h1]
    simp
  unfold updateNoteQueue_tick
  rw [if_neg hst, if_pos hm]
  unfold songModeTick
  by_cases hc : (midiMerge tick e).song.patternGroupVector.length = 0
  · rw [if_pos hc]
    exact ⟨_, rfl⟩
  · rw [if_neg hc]
    simp only [hsong, hloop, hfind, and_self, if_true]
    exact ⟨_, rfl⟩

/-- With looping on and at least one column, a pass of the tick loop never
returns. -/
theorem updateNoteQueue_tick_looping (tick : Int) (ts : ℚ) (llf : Int) (e : Engine) (b : Bool)
    (hloop : e.song.isLoopEnabled = true)
    (hcols : e.song.patternGroupVector.length ≠ 0) :
    ∃ (e1 : Engine) (b1 : Bool), updateNoteQueue_tick tick ts llf e b = TickOutcome.next e1 b1 := by
  have hmm := midiMergeLoop_eq tick e.m_midiNoteQueue e
  have hsong : (midiMerge tick e).song = e.song := by rw [midiMerge, hmm]
  unfold updateNoteQueue_tick
  by_cases hst : (midiMerge tick e).m_audioEngineState ≠ STATE_PLAYING
  · rw [if_pos hst]
    exact ⟨_, _, rfl⟩
  · rw [if_neg hst]
    by_cases hm : (midiMerge tick e).song.mode = SongMode.SONG_MODE
    · rw [if_pos hm]
      unfold songModeTick
      rw [hsong, if_neg hcols]
      simp only [hloop, Bool.true_eq_false, and_false, if_false]
      exact ⟨_, _, rfl⟩
    · rw [if_neg hm]
      exact ⟨_, _, rfl⟩

theorem updateNoteQueue_loop_noColumns (ts : ℚ) (llf : Int) (tick : Int) (rest : List Int)
    (e : Engine) (b : Bool)
    (hplay : e.m_audioEngineState = STATE_PLAYING)
    (hmode : e.song.mode = SongMode.SONG_MODE)
    (hcols : e.song.patternGroupVector = []) :
    (updateNoteQueue_loop ts llf (tick :: rest) e b).1 = -1 := by
  have hmm := midiMergeLoop_eq tick e.m_midiNoteQueue e
  have hsong : (midiMerge tick e).song = e.song := by rw [midiMerge, hmm]
  have hst : ¬ (midiMerge tick e).m_audioEngineState ≠ STATE_PLAYING := by
    rw [midiMerge, hmm]; simpa using hplay
  have hm : (midiMerge tick e).song.mode = SongMode.SONG_MODE := by rw [hsong, hmode]
  have hc : (midiMerge tick e).song.patternGroupVector.length = 0 := by
    rw [hsong, hcols]; rfl
  have htick : updateNoteQueue_tick tick ts llf e b
      = TickOutcome.done (-1) (driverStop (midiMerge tick e)) := by
    unfold updateNoteQueue_tick
    rw [if_neg hst, if_pos hm]
    unfold songModeTick
    rw [if_pos hc]
  rw [updateNoteQueue_loop, htick]

theorem updateNoteQueue_loop_beyond (ts : ℚ) (llf : Int) (ticks : List Int) (t : Int)
    (ht : t ∈ ticks) :
    ∀ (e : Engine) (b : Bool), e.m_audioEngineState = STATE_PLAYING →
      e.song.mode = SongMode.SONG_MODE → e.song.isLoopEnabled = false →
      songSize e.song ≤ t → (updateNoteQueue_loop ts llf ticks e b).1 = -1 := by
  induction ticks with
  | nil => exact absurd ht (by simp)
  | cons tick rest ih =>
    intro e b hplay hmode hloop hT
    rw [updateNoteQueue_loop]
    have hsc := updateNoteQueue_tick_sameControl tick ts llf e b
    cases hto : updateNoteQueue_tick tick ts llf e b with
    | done r e1 => exact updateNoteQueue_tick_done _ _ _ _ _ _ _ hto
    | next e1 b1 =>
      rw [hto] at hsc
      rcases List.mem_cons.mp ht with rfl | hmem
      · obtain ⟨e', he'⟩ := updateNoteQueue_tick_beyond t ts llf e b hplay hmode hloop hT
        rw [he'] at hto
        exact absurd hto (by simp)
      · exact ih hmem e1 b1 (hsc.2.2.1.trans hplay) (hsc.2.2.2.1.trans hmode)
          (hsc.2.2.2.2.2.1.trans hloop) (by
            have := sameControl_songSize hsc
            simp only [TickOutcome.engine] at this
            rw [this]; exact hT)

theorem updateNoteQueue_loop_looping (ts : ℚ) (llf : Int) (ticks : List Int) :
    ∀ (e : Engine) (b : Bool), e.song.isLoopEnabled = true →
      e.song.patternGroupVector.length ≠ 0 →
      (updateNoteQueue_loop ts llf ticks e b).1 ≠ -1 := by
  induction ticks with
  | nil =>
    intro e b _ _
    rw [updateNoteQueue_loop]
    cases b <;> simp
  | cons tick rest ih =>
    intro e b hloop hcols
    obtain ⟨e1, b1, h1⟩ := updateNoteQueue_tick_looping tick ts llf e b hloop hcols
    have hsc := updateNoteQueue_tick_sameControl tick ts llf e b
    rw [h1] at hsc
    rw [updateNoteQueue_loop, h1]
    refine ih e1 b1 (hsc.2.2.2.2.2.1.trans hloop) ?_
    have : e1.song.patternGroupVector = e.song.patternGroupVector := hsc.2.2.2.2.2.2.1
    rw [this]
    exact hcols

/-- C12, counterexample. Playing an empty song in song mode from frame 250 at
tick size 500, a buffer of 100 frames contains no tick (the window starts and
ends at tick 9): `audioEngine_updateNoteQueue( 100 )` returns 0, not -1,
although the song has no pattern columns. -/
theorem updateNoteQueue_noColumns_emptyWindow :
    (enginePlayingSong (songOfLengths [] false) 250).m_audioEngineState = STATE_PLAYING ∧
    (enginePlayingSong (songOfLengths [] false) 250).song.mode = SongMode.SONG_MODE ∧
    (enginePlayingSong (songOfLengths [] false) 250).song.patternGroupVector = [] ∧
    tickNumber_start (enginePlayingSong (songOfLengths [] false) 250) = 9 ∧
    tickNumber_end 100 (enginePlayingSong (songOfLengths [] false) 250) = 9 ∧
    (audioEngine_updateNoteQueue 100 (enginePlayingSong (songOfLengths [] false) 250)).1 = 0 := by
  decide!

/-- C12, amended. End of song, while PLAYING in song mode:
`audioEngine_updateNoteQueue` returns -1 if the song has no pattern columns
and the tick window is not empty, and if looping is off and some tick of the
window is at or beyond the total length of the song; with looping on and a
song of positive total length it does not return -1. -/
theorem updateNoteQueue_endOfSong (nFrames : Nat) (e : Engine)
    (hplay : e.m_audioEngineState = STATE_PLAYING)
    (hmode : e.song.mode = SongMode.SONG_MODE) :
    (e.song.patternGroupVector = [] → tickNumber_start e < tickNumber_end nFrames e →
      (audioEngine_updateNoteQueue nFrames e).1 = -1) ∧
    (e.song.isLoopEnabled = false →
      (∃ t : Int, tickNumber_start e ≤ t ∧ t < tickNumber_end nFrames e ∧ songSize e.song ≤ t) →
      (audioEngine_updateNoteQueue nFrames e).1 = -1) ∧
    (e.song.isLoopEnabled = true → 0 < songSize e.song →
      (audioEngine_updateNoteQueue nFrames e).1 ≠ -1) := by
  refine ⟨?_, ?_, ?_⟩
  · intro hcols hwin
    have hmem : tickNumber_start e ∈ tickRange (tickNumber_start e) (tickNumber_end nFrames e) :=
      (mem_tickRange _ _ _).mpr ⟨le_refl _, hwin⟩
    unfold audioEngine_updateNoteQueue
    cases hr : tickRange (tickNumber_start e) (tickNumber_end nFrames e) with
    | nil => rw [hr] at hmem; exact absurd hmem (by simp)
    | cons tick rest => exact updateNoteQueue_loop_noColumns _ _ tick rest e false hplay hmode hcols
  · rintro hloop ⟨t, h1, h2, h3⟩
    exact updateNoteQueue_loop_beyond _ _ _ t ((mem_tickRange _ _ _).mpr ⟨h1, h2⟩) e false
      hplay hmode hloop h3
  · intro hloop hL
    apply updateNoteQueue_loop_looping _ _ _ e false hloop
    intro hlen
    have : e.song.patternGroupVector = [] := List.length_eq_zero.mp hlen
    rw [songSize, columnSizes, this] at hL
    simp at hL

/-- Witness of C12, amended: from frame 250 with a buffer of 1024 frames (ticks
9 and 10) the empty song ends; the song of 8 ticks ends when not looped and
goes on when looped. -/
theorem updateNoteQueue_endOfSong_witness :
    (audioEngine_updateNoteQueue 1024 (enginePlayingSong (songOfLengths [] false) 250)).1 = -1 ∧
    (audioEngine_updateNoteQueue 1024 (enginePlayingSong (songOfLengths [8] false) 250)).1 = -1 ∧
    (audioEngine_updateNoteQueue 1024 (enginePlayingSong (songOfLengths [8] true) 250)).1 ≠ -1 :=
  ⟨(updateNoteQueue_endOfSong 1024 (enginePlayingSong (songOfLengths [] false) 250) rfl rfl).1
      rfl (by decide!),
    (updateNoteQueue_endOfSong 1024 (enginePlayingSong (songOfLengths [8] false) 250) rfl
      rfl).2.1 rfl ⟨9, by decide!, by decide!, by decide⟩,
    (updateNoteQueue_endOfSong 1024 (enginePlayingSong (songOfLengths [8] true) 250) rfl
      rfl).2.2 rfl (by decide)⟩

/-! ## The offset of the scheduled copies -/

/-- The note loop pushes the copy `scheduledCopy` of the template. -/
theorem scheduleNote_queue (tick : Int) (ts : ℚ) (llf : Int) (e : Engine) (pNote : Note) :
    (scheduleNote tick ts llf e pNote).m_songNoteQueue
      = queuePush e.m_transport.m_fTickSize (scheduledCopy tick ts llf e pNote)
          e.m_songNoteQueue := by
  unfold scheduleNote scheduledCopy
  simp only [getGaussian, Engine.enqueue, Engine.pushSongNote]
  split_ifs <;> simp

/-- C14, failing input. Playing `songLead` from frame 0 at tick size 500 (lead
and lag factor 2500), the template at tick 1 with lead/lag -1 is enqueued with
position 1 and humanize delay -2500: its start frame, position times tick size
plus humanize delay, is -2000.  In the renderer feed the `unsigned int` start
frame of this copy is 4294965296, so the copy is not taken in this buffer. -/
theorem updateNoteQueue_negative_start :
    (audioEngine_updateNoteQueue 1024 (enginePlayingSong songLead 0)).2.m_songNoteQueue
      = [{ noteLead with position := 1, humanize_delay := -2500 }] ∧
    noteKey (enginePlayingSong songLead 0).m_transport.m_fTickSize
      { noteLead with position := 1, humanize_delay := -2500 } = -2000 ∧
    scheduledCopy 1 500 2500 (enginePlayingSong songLead 0) noteLead
      = { noteLead with position := 1, humanize_delay := -2500 } ∧
    noteStartInFrames 500 { noteLead with position := 1, humanize_delay := -2500 }
      = 4294965296 ∧
    noteIsDue 500 0 1024 { noteLead with position := 1, humanize_delay := -2500 } = false := by
  decide!

/-- C15. Clamp at song start: the copy of a template that the note loop pushes
to the song note queue at tick 0 has position 0 and a humanize delay of at
least 0, whatever the swing, humanize and lead/lag contributions; the delay is
their sum when that is at least 0, and 0 otherwise. -/
theorem scheduleNote_clamp_tick0 (ts : ℚ) (llf : Int) (e : Engine) (pNote : Note) :
    (scheduleNote 0 ts llf e pNote).m_songNoteQueue
        = queuePush e.m_transport.m_fTickSize (scheduledCopy 0 ts llf e pNote)
            e.m_songNoteQueue ∧
      (scheduledCopy 0 ts llf e pNote).position = 0 ∧
      0 ≤ (scheduledCopy 0 ts llf e pNote).humanize_delay ∧
      (scheduledCopy 0 ts llf e pNote).humanize_delay
        = max 0 (swingOffset ts e.song.swingFactor e.m_nPatternTickPosition
            + (if e.song.humanizeTimeValue ≠ 0 then
                humanizeOffset (toFloat (e.gaussian e.nDraws * toFloat (3 / 10)))
                  e.song.humanizeTimeValue
              else 0)
            + leadLagOffset pNote.lead_lag llf) := by
  refine ⟨scheduleNote_queue 0 ts llf e pNote, rfl, ?_, ?_⟩
  · unfold scheduledCopy
    simp only [true_and]
    split_ifs <;> omega
  · unfold scheduledCopy
    simp only [true_and, getGaussian]
    split_ifs with h1 h2 h2
    · rw [max_eq_left (le_of_lt h2)]
    · rw [max_eq_right (by omega)]
    · rw [max_eq_left (le_of_lt h2)]
    · rw [max_eq_right (by omega)]

/-! ## Failure to obtain the engine lock -/

/-- C18, counterexample. With a driver other than the disk writer, a call of
`audioEngine_process` that does not obtain the engine lock returns 0, not 2. -/
theorem audioEngine_process_lock_failure_returns_0 :
    (enginePlaying 250).driverClass ≠ DriverClass.DiskWriterDriver ∧
    (audioEngine_process 1024 false id [] (enginePlaying 250)).map Prod.fst = some 0 := by
  decide!

/-- C18, amended. When `audioEngine_process` does not obtain the engine lock it
returns 2 if the driver is the disk writer and 0 for every other driver, and
in both cases the engine (state, transport position, both note queues and all
the rest) is as before the call.  A call that obtains the lock never returns
2: it returns 0 or 1, or ends in the undefined modulo of the renderer feed. -/
theorem audioEngine_process_lock_failure (nframes : Nat)
    (upd : TransportInfo → TransportInfo) (pBuffer : List (ℚ × ℚ)) (e : Engine) :
    audioEngine_process nframes false upd pBuffer e
      = some (if e.driverClass = DriverClass.DiskWriterDriver then 2 else 0, e) ∧
    ((audioEngine_process nframes true upd pBuffer e).map Prod.fst = none ∨
      (audioEngine_process nframes true upd pBuffer e).map Prod.fst = some 0 ∨
      (audioEngine_process nframes true upd pBuffer e).map Prod.fst = some 1) := by
  constructor
  · simp [audioEngine_process]
  · unfold audioEngine_process
    simp only [Bool.true_eq_false, if_false]
    split_ifs
    · simp
    · simp
    · simp
    · cases audioEngine_process_playNotes nframes _ <;> simp

/-! ## The realtime frame counter -/

theorem audioEngine_stop_realtime (b : Bool) (e : Engine) :
    (audioEngine_stop b e).m_nRealtimeFrames = e.m_nRealtimeFrames := by
  unfold audioEngine_stop
  split
  · rfl
  · dsimp only
    rw [clearSongNoteQueue_eq]
    rfl

theorem setBPM_transport_frames (fBPM : ℚ) (e : Engine) :
    (setBPM fBPM e).m_transport.m_nFrames = e.m_transport.m_nFrames := by
  unfold setBPM
  split_ifs <;> rfl

theorem toU64_of_bounds {x : Int} (h0 : 0 ≤ x) (h1 : x < 18446744073709551616) : toU64 x = x :=
  Int.emod_eq_of_lt h0 h1

theorem toU64_toU32 (x : Int) : toU64 (toU32 x) = toU32 x :=
  toU64_of_bounds (toU32_nonneg x) (by have := toU32_lt x; omega)

/-- The frame position after a transport sync with the driver rolling: the
position the driver reports, taken modulo `2 ^ 32` when the sync starts the
engine. -/
theorem audioEngine_process_transport_rolling (nFrames : Nat)
    (upd : TransportInfo → TransportInfo) (e : Engine)
    (hstate : e.m_audioEngineState = STATE_READY ∨ e.m_audioEngineState = STATE_PLAYING)
    (hs : (upd e.m_transport).m_status = TransportStatus.ROLLING) :
    (audioEngine_process_transport nFrames upd e).m_transport.m_nFrames
        = (if e.m_audioEngineState = STATE_READY then toU32 (upd e.m_transport).m_nFrames
            else (upd e.m_transport).m_nFrames) ∧
      (audioEngine_process_transport nFrames upd e).m_nRealtimeFrames
        = toU64 (audioEngine_process_transport nFrames upd e).m_transport.m_nFrames := by
  have h1 : ¬ (e.m_audioEngineState ≠ STATE_READY ∧ e.m_audioEngineState ≠ STATE_PLAYING) := by
    rcases hstate with h | h <;> simp [h]
  unfold audioEngine_process_transport
  simp only [h1, if_false, hs]
  rcases hstate with h | h
  · simp only [h, if_true, audioEngine_start, push_event, ne_eq, not_true_eq_false, if_false]
    split_ifs <;> simp [setBPM_transport_frames]
  · have h2 : ¬ (STATE_PLAYING = STATE_READY) := by decide
    simp only [h, h2, if_false, ne_eq, not_true_eq_false]
    split_ifs <;> simp [setBPM_transport_frames]

/-- C19, counterexample. Playing at frame 250 with the transport rolling and
the realtime frame counter at 0, a transport sync for 1024 frames leaves the
counter at 250, the transport frame position, not at 0 + 1024. -/
theorem audioEngine_process_transport_realtime_rolling :
    (enginePlaying 250).m_audioEngineState = STATE_PLAYING ∧
    (enginePlaying 250).m_nRealtimeFrames = 0 ∧
    (audioEngine_process_transport 1024 id (enginePlaying 250)).m_nRealtimeFrames = 250 := by
  decide!

/-- C19, amended. For a call `audioEngine_process_transport( nFrames )` made in
state READY or PLAYING: when the driver reports the transport stopped, the
realtime frame counter after the call is its value before plus `nFrames`
(modulo `2^64`, the counter being an `unsigned long`); when the driver reports
it rolling, the counter is set to the transport frame position after the call,
which is the position the driver reports if the engine was PLAYING, and that
position modulo `2^32` if the engine was READY and the call starts it (the
parameter of `audioEngine_start` is an `unsigned`); for any other status the
counter is unchanged. -/
theorem audioEngine_process_transport_realtime (nFrames : Nat)
    (upd : TransportInfo → TransportInfo) (e : Engine)
    (hstate : e.m_audioEngineState = STATE_READY ∨ e.m_audioEngineState = STATE_PLAYING) :
    ((upd e.m_transport).m_status = TransportStatus.STOPPED →
      (audioEngine_process_transport nFrames upd e).m_nRealtimeFrames
          = toU64 (e.m_nRealtimeFrames + nFrames) ∧
        (0 ≤ e.m_nRealtimeFrames → e.m_nRealtimeFrames + nFrames < 18446744073709551616 →
          (audioEngine_process_transport nFrames upd e).m_nRealtimeFrames
            = e.m_nRealtimeFrames + nFrames)) ∧
    ((upd e.m_transport).m_status = TransportStatus.ROLLING →
      (audioEngine_process_transport nFrames upd e).m_nRealtimeFrames
          = toU64 (audioEngine_process_transport nFrames upd e).m_transport.m_nFrames ∧
        (e.m_audioEngineState = STATE_PLAYING →
          (audioEngine_process_transport nFrames upd e).m_transport.m_nFrames
              = (upd e.m_transport).m_nFrames ∧
            (0 ≤ (upd e.m_transport).m_nFrames →
              (upd e.m_transport).m_nFrames < 18446744073709551616 →
              (audioEngine_process_transport nFrames upd e).m_nRealtimeFrames
                = (upd e.m_transport).m_nFrames)) ∧
        (e.m_audioEngineState = STATE_READY →
          (audioEngine_process_transport nFrames upd e).m_transport.m_nFrames
              = toU32 (upd e.m_transport).m_nFrames ∧
            (audioEngine_process_transport nFrames upd e).m_nRealtimeFrames
              = toU32 (upd e.m_transport).m_nFrames)) ∧
    ((upd e.m_transport).m_status = TransportStatus.BAD →
      (audioEngine_process_transport nFrames upd e).m_nRealtimeFrames = e.m_nRealtimeFrames) := by
  have h1 : ¬ (e.m_audioEngineState ≠ STATE_READY ∧ e.m_audioEngineState ≠ STATE_PLAYING) := by
    rcases hstate with h | h <;> simp [h]
  refine ⟨fun hs => ?_, fun hs => ?_, fun hs => ?_⟩
  · have hst : (audioEngine_process_transport nFrames upd e).m_nRealtimeFrames
        = toU64 (e.m_nRealtimeFrames + nFrames) := by
      unfold audioEngine_process_transport
      simp only [h1, if_false, hs]
      split_ifs
      · exact congrArg (fun x => toU64 (x + (nFrames : Int))) (audioEngine_stop_realtime false _)
      · rfl
    refine ⟨hst, fun h0 h2 => ?_⟩
    rw [hst, toU64_of_bounds (by omega) h2]
  · obtain ⟨hfr, hrt⟩ := audioEngine_process_transport_rolling nFrames upd e hstate hs
    refine ⟨hrt, fun hp => ?_, fun hr => ?_⟩
    · have hne : ¬ (e.m_audioEngineState = STATE_READY) := by rw [hp]; decide
      rw [if_neg hne] at hfr
      refine ⟨hfr, fun h0 h2 => ?_⟩
      rw [hrt, hfr, toU64_of_bounds h0 h2]
    · rw [if_pos hr] at hfr
      refine ⟨hfr, ?_⟩
      rw [hrt, hfr, toU64_toU32]
  · unfold audioEngine_process_transport
    simp only [h1, if_false, hs]

/-- Witness of C19, amended: the sync of the ready engine `engine0`, whose
driver reports the transport stopped, advances the counter from 0 to 1024; the
sync of the playing engine `enginePlaying 250`, whose driver reports the
transport rolling at frame 250, sets it to 250; the sync of the ready engine
whose driver reports the transport rolling at frame `2^32 + 5` starts the
engine at frame 5 and sets the counter to 5. -/
theorem audioEngine_process_transport_realtime_witness :
    (audioEngine_process_transport 1024 id engine0).m_nRealtimeFrames
        = engine0.m_nRealtimeFrames + (1024 : Nat) ∧
      ((audioEngine_process_transport 1024 id (enginePlaying 250)).m_transport.m_nFrames
          = (id (enginePlaying 250).m_transport).m_nFrames ∧
        (audioEngine_process_transport 1024 id (enginePlaying 250)).m_nRealtimeFrames
          = (id (enginePlaying 250).m_transport).m_nFrames) ∧
      ((audioEngine_process_transport 1024 id
            (engineReadyRolling 4294967301)).m_transport.m_nFrames
          = toU32 (id (engineReadyRolling 4294967301).m_transport).m_nFrames ∧
        (audioEngine_process_transport 1024 id (engineReadyRolling 4294967301)).m_nRealtimeFrames
          = toU32 (id (engineReadyRolling 4294967301).m_transport).m_nFrames) ∧
      (audioEngine_process_transport 1024 id (engineReadyRolling 4294967301)).m_nRealtimeFrames
        = 5 :=
  ⟨((audioEngine_process_transport_realtime 1024 id engine0 (Or.inl rfl)).1 rfl).2
      (by decide) (by decide),
    ⟨(((audioEngine_process_transport_realtime 1024 id (enginePlaying 250)
        (Or.inr rfl)).2.1 rfl).2.1 rfl).1,
      (((audioEngine_process_transport_realtime 1024 id (enginePlaying 250)
        (Or.inr rfl)).2.1 rfl).2.1 rfl).2 (by decide) (by decide)⟩,
    ((audioEngine_process_transport_realtime 1024 id (engineReadyRolling 4294967301)
      (Or.inl rfl)).2.1 rfl).2.2 rfl,
    by decide!⟩

/-! ## Tick-size recomputation with a degenerate tick size -/

/-- C20, counterexample. With a stored tick size of 0 and a song whose tick
size is 500, the recomputation stores 500: the stored tick size is not left
unchanged.  The frame position stays at 250 and no event is pushed. -/
theorem checkBPMChanged_degenerate_stores_tick_size :
    engineNoTick.m_transport.m_fTickSize = 0 ∧
    (audioEngine_process_checkBPMChanged song0 engineNoTick).m_transport.m_fTickSize = 500 ∧
    (audioEngine_process_checkBPMChanged song0 engineNoTick).m_transport.m_nFrames = 250 ∧
    (audioEngine_process_checkBPMChanged song0 engineNoTick).events = [] := by
  decide!

/-- C20, amended. If the old tick size or the newly computed tick size is 0,
`audioEngine_process_checkBPMChanged`, called in state READY or PLAYING, stores
the newly computed tick size, leaves the transport frame position and
everything else in the engine unchanged, and pushes no event. -/
theorem checkBPMChanged_degenerate (pSong : Song) (e : Engine)
    (hstate : e.m_audioEngineState = STATE_READY ∨ e.m_audioEngineState = STATE_PLAYING)
    (hzero : e.m_transport.m_fTickSize = 0
      ∨ compute_tick_size e.sampleRate pSong.bpm pSong.resolution = 0) :
    (audioEngine_process_checkBPMChanged pSong e).m_transport.m_fTickSize
        = compute_tick_size e.sampleRate pSong.bpm pSong.resolution ∧
      (audioEngine_process_checkBPMChanged pSong e).m_transport.m_nFrames
        = e.m_transport.m_nFrames ∧
      (audioEngine_process_checkBPMChanged pSong e).events = e.events ∧
      audioEngine_process_checkBPMChanged pSong e
        = { e with m_transport :=
              { e.m_transport with
                m_fTickSize := compute_tick_size e.sampleRate pSong.bpm pSong.resolution } } := by
  have h1 : ¬ (e.m_audioEngineState ≠ STATE_READY ∧ e.m_audioEngineState ≠ STATE_PLAYING) := by
    rcases hstate with h | h <;> simp [h]
  have h2 : compute_tick_size e.sampleRate pSong.bpm pSong.resolution = 0
      ∨ e.m_transport.m_fTickSize = 0 := hzero.symm
  unfold audioEngine_process_checkBPMChanged
  simp only [h1, if_false, h2, if_true]
  split_ifs with heq
  · refine ⟨heq.symm, rfl, rfl, ?_⟩
    rw [heq]
  · exact ⟨rfl, rfl, rfl, rfl⟩

/-- Witness of C20: the ready engine `engineNoTick`, with a stored tick size
of 0, and the song `song0`. -/
theorem checkBPMChanged_degenerate_witness :
    (audioEngine_process_checkBPMChanged song0 engineNoTick).m_transport.m_fTickSize
        = compute_tick_size engineNoTick.sampleRate song0.bpm song0.resolution ∧
      (audioEngine_process_checkBPMChanged song0 engineNoTick).m_transport.m_nFrames
        = engineNoTick.m_transport.m_nFrames ∧
      (audioEngine_process_checkBPMChanged song0 engineNoTick).events = engineNoTick.events ∧
      audioEngine_process_checkBPMChanged song0 engineNoTick
        = { engineNoTick with m_transport :=
              { engineNoTick.m_transport with
                m_fTickSize :=
                  compute_tick_size engineNoTick.sampleRate song0.bpm song0.resolution } } :=
  checkBPMChanged_degenerate song0 engineNoTick (Or.inl rfl) (Or.inl rfl)

/-! ## The note templates of the patterns -/

theorem sameButRecorded_refl (n : Note) : n.sameButRecorded n := Or.inl rfl

theorem sameButRecorded_trans (a b c : Note) (h1 : a.sameButRecorded b)
    (h2 : b.sameButRecorded c) : a.sameButRecorded c := by
  rcases h1 with rfl | rfl
  · exact h2
  · rcases h2 with rfl | rfl
    · exact Or.inr rfl
    · exact Or.inr rfl

theorem forall₂_refl_of {α : Type} {R : α → α → Prop} (hR : ∀ a, R a a) (l : List α) :
    List.Forall₂ R l l := by
  induction l with
  | nil => exact List.Forall₂.nil
  | cons a t ih => exact List.Forall₂.cons (hR a) ih

theorem forall₂_trans_of {α : Type} {R : α → α → Prop}
    (hR : ∀ a b c, R a b → R b c → R a c) {l1 l2 l3 : List α}
    (h12 : List.Forall₂ R l1 l2) (h23 : List.Forall₂ R l2 l3) : List.Forall₂ R l1 l3 := by
  induction h12 generalizing l3 with
  | nil => cases h23; exact List.Forall₂.nil
  | cons hab _ ih =>
    cases h23 with
    | cons hbc ht => exact List.Forall₂.cons (hR _ _ _ hab hbc) (ih ht)

theorem patternTemplates_refl (p : Pattern) : p.sameTemplates p :=
  ⟨rfl, rfl, forall₂_refl_of sameButRecorded_refl _⟩

theorem patternTemplates_trans (a b c : Pattern) (h1 : a.sameTemplates b)
    (h2 : b.sameTemplates c) : a.sameTemplates c :=
  ⟨h2.1.trans h1.1, h2.2.1.trans h1.2.1,
    @forall₂_trans_of Note Note.sameButRecorded sameButRecorded_trans _ _ _ h1.2.2 h2.2.2⟩

theorem sameTemplates_refl (e : Engine) : e.sameTemplates e :=
  forall₂_refl_of patternTemplates_refl _

theorem sameTemplates_trans {e1 e2 e3 : Engine} (h12 : e1.sameTemplates e2)
    (h23 : e2.sameTemplates e3) : e1.sameTemplates e3 :=
  @forall₂_trans_of Pattern Pattern.sameTemplates patternTemplates_trans _ _ _ h12 h23

theorem sameTemplates_of_song_eq {e e' : Engine} (h : e'.song = e.song) :
    e.sameTemplates e' := by
  unfold Engine.sameTemplates
  rw [h]
  exact forall₂_refl_of patternTemplates_refl _

theorem sameTemplates_foldl {α : Type} (f : Engine → α → Engine)
    (hf : ∀ (e : Engine) (x : α), e.sameTemplates (f e x)) (l : List α) (e : Engine) :
    e.sameTemplates (l.foldl f e) := by
  induction l generalizing e with
  | nil => exact sameTemplates_refl e
  | cons x t ih => exact sameTemplates_trans (hf e x) (ih (f e x))

theorem midiMerge_song (tick : Int) (e : Engine) : (midiMerge tick e).song = e.song := by
  rw [midiMerge, midiMergeLoop_eq]

theorem songModeTick_song (tick : Int) (e : Engine) (b : Bool) :
    (songModeTick tick e b).engine.song = e.song := by
  unfold songModeTick
  simp only [driverStop]
  split_ifs <;> simp [TickOutcome.engine]

theorem patternModeTick_song (tick : Int) (e : Engine) (b : Bool) :
    (patternModeTick tick e b).1.song = e.song := by
  unfold patternModeTick
  simp only []
  split_ifs <;> simp

theorem metronomeTick_song (tick : Int) (e : Engine) : (metronomeTick tick e).song = e.song := by
  unfold metronomeTick
  simp only [push_event, Engine.enqueue, Engine.pushSongNote]
  split_ifs <;> simp

theorem scheduleNote_song (tick : Int) (ts : ℚ) (llf : Int) (e : Engine) (n : Note) :
    (scheduleNote tick ts llf e n).song = e.song := by
  unfold scheduleNote
  simp only [getGaussian, Engine.enqueue, Engine.pushSongNote]
  split_ifs <;> simp

theorem clearJustRecorded_sameTemplates (pos : Int) (p : Pattern) :
    p.sameTemplates (clearJustRecorded pos p) := by
  refine ⟨rfl, rfl, ?_⟩
  unfold clearJustRecorded
  simp only
  induction p.notes with
  | nil => exact List.Forall₂.nil
  | cons n t ih =>
    refine List.Forall₂.cons ?_ ih
    by_cases h : n.position = pos
    · exact Or.inr (if_pos h)
    · exact Or.inl (if_neg h)

theorem modify_clearJustRecorded_sameTemplates (pos : Int) (k : Nat) (l : List Pattern) :
    List.Forall₂ Pattern.sameTemplates l (List.modify (clearJustRecorded pos) k l) := by
  induction l generalizing k with
  | nil => cases k <;> exact List.Forall₂.nil
  | cons x t ih =>
    cases k with
    | zero =>
      exact List.Forall₂.cons (clearJustRecorded_sameTemplates pos x)
        (forall₂_refl_of patternTemplates_refl t)
    | succ k =>
      exact List.Forall₂.cons (patternTemplates_refl x) (by simpa [List.modify] using ih k)

theorem schedulePattern_sameTemplates (tick : Int) (ts : ℚ) (llf : Int) (e : Engine)
    (p : PatPtr) : e.sameTemplates (schedulePattern tick ts llf e p) := by
  unfold schedulePattern
  refine sameTemplates_trans ?_
    (sameTemplates_foldl _
      (fun e1 n => sameTemplates_of_song_eq (scheduleNote_song tick ts llf e1 n)) _ _)
  exact modify_clearJustRecorded_sameTemplates _ p e.song.patternList

theorem scheduleNotes_sameTemplates (tick : Int) (ts : ℚ) (llf : Int) (e : Engine) :
    e.sameTemplates (scheduleNotes tick ts llf e) := by
  unfold scheduleNotes
  split
  · exact sameTemplates_foldl _ (schedulePattern_sameTemplates tick ts llf) _ _
  · exact sameTemplates_refl _

theorem updateNoteQueue_tick_sameTemplates (tick : Int) (ts : ℚ) (llf : Int) (e : Engine)
    (b : Bool) : e.sameTemplates (updateNoteQueue_tick tick ts llf e b).engine := by
  have hm : e.sameTemplates (midiMerge tick e) := sameTemplates_of_song_eq (midiMerge_song tick e)
  unfold updateNoteQueue_tick
  by_cases hst : (midiMerge tick e).m_audioEngineState ≠ STATE_PLAYING
  · rw [if_pos hst]
    exact hm
  · rw [if_neg hst]
    by_cases hmode : (midiMerge tick e).song.mode = SongMode.SONG_MODE
    · rw [if_pos hmode]
      have hs := sameTemplates_of_song_eq (songModeTick_song tick (midiMerge tick e) b)
      cases hso : songModeTick tick (midiMerge tick e) b with
      | done r e2 =>
        rw [hso] at hs
        exact sameTemplates_trans hm hs
      | next e2 b2 =>
        rw [hso] at hs
        exact sameTemplates_trans hm (sameTemplates_trans hs
          (sameTemplates_trans (sameTemplates_of_song_eq (metronomeTick_song tick e2))
            (scheduleNotes_sameTemplates tick ts llf _)))
    · rw [if_neg hmode]
      exact sameTemplates_trans hm
        (sameTemplates_trans
          (sameTemplates_of_song_eq (patternModeTick_song tick (midiMerge tick e) b))
          (sameTemplates_trans (sameTemplates_of_song_eq (metronomeTick_song tick _))
            (scheduleNotes_sameTemplates tick ts llf _)))

theorem updateNoteQueue_loop_sameTemplates (ts : ℚ) (llf : Int) (ticks : List Int) (e : Engine)
    (b : Bool) : e.sameTemplates (updateNoteQueue_loop ts llf ticks e b).2 := by
  induction ticks generalizing e b with
  | nil => exact sameTemplates_refl e
  | cons tick rest ih =>
    have ht := updateNoteQueue_tick_sameTemplates tick ts llf e b
    rw [updateNoteQueue_loop]
    cases hto : updateNoteQueue_tick tick ts llf e b with
    | done r e1 =>
      rw [hto] at ht
      exact ht
    | next e1 b1 =>
      rw [hto] at ht
      exact sameTemplates_trans ht (ih e1 b1)

theorem getD_sameTemplates {l l' : List Pattern}
    (h : List.Forall₂ Pattern.sameTemplates l l') (p : Nat) :
    (l.getD p ⟨0, [], []⟩).sameTemplates (l'.getD p ⟨0, [], []⟩) := by
  induction h generalizing p with
  | nil => exact patternTemplates_refl _
  | cons hab _ ih =>
    cases p with
    | zero => exact hab
    | succ p => simpa using ih p

/-- C16, failing input. Playing `songRec` from frame 0, the scheduler visits
tick 0 and clears the flag `just_recorded` of the template stored at tick 0 of
the first pattern: the template does not keep all its field values, although
the comment at the note loop says that the notes are not altered. -/
theorem updateNoteQueue_clears_just_recorded :
    (enginePlayingSong songRec 0).song.patternList
      = [⟨192, [{ noteAt 0 with just_recorded := true }], []⟩, ⟨96, [], []⟩] ∧
    (audioEngine_updateNoteQueue 1024 (enginePlayingSong songRec 0)).2.song.patternList
      = [⟨192, [{ noteAt 0 with just_recorded := false }], []⟩, ⟨96, [], []⟩] := by
  decide!

/-- Scheduling changes no field of a note template other than the flag
`just_recorded`: for every engine state and buffer size, after
`audioEngine_updateNoteQueue` the song has the same patterns in the same
order, each with the same length, the same virtual patterns and the same
templates in the same order, and every template is as it was before the call
or as it was with `just_recorded` set to false. -/
theorem updateNoteQueue_templates (nFrames : Nat) (e : Engine) :
    List.Forall₂ Pattern.sameTemplates e.song.patternList
        (audioEngine_updateNoteQueue nFrames e).2.song.patternList ∧
      ∀ p : PatPtr,
        ((audioEngine_updateNoteQueue nFrames e).2.song.pattern p).notes.length
            = (e.song.pattern p).notes.length ∧
          List.Forall₂ (fun n n' => n' = n ∨ n' = { n with just_recorded := false })
            (e.song.pattern p).notes
            ((audioEngine_updateNoteQueue nFrames e).2.song.pattern p).notes := by
  have h : e.sameTemplates (audioEngine_updateNoteQueue nFrames e).2 :=
    updateNoteQueue_loop_sameTemplates _ _ _ e false
  refine ⟨h, fun p => ?_⟩
  have hp := getD_sameTemplates h p
  exact ⟨hp.2.2.length_eq.symm, hp.2.2⟩

/-! ## Order of the song note queue -/

theorem queuePush_sorted (ts : ℚ) (n : Note) (q : List Note) (h : queueSorted ts q) :
    queueSorted ts (queuePush ts n q) := by
  unfold queueSorted at h ⊢
  induction q with
  | nil => simp [queuePush]
  | cons m rest ih =>
    rw [List.pairwise_cons] at h
    rw [queuePush]
    split
    · rename_i hc
      simp only [compare_pNotes, gt_iff_lt, decide_eq_true_eq] at hc
      rw [List.pairwise_cons]
      refine ⟨fun x hx => ?_, List.pairwise_cons.2 h⟩
      rcases List.mem_cons.1 hx with rfl | hx
      · exact le_of_lt hc
      · exact le_trans (le_of_lt hc) (h.1 x hx)
    · rename_i hc
      simp only [compare_pNotes, gt_iff_lt, decide_eq_true_eq, not_lt] at hc
      rw [List.pairwise_cons]
      refine ⟨fun x hx => ?_, ih h.2⟩
      rcases (mem_queuePush ts n x rest).1 hx with rfl | hx
      · exact hc
      · exact h.1 x hx

theorem queueSorted_suffix (ts : ℚ) (popped q : List Note)
    (h : queueSorted ts (popped ++ q)) : queueSorted ts q := by
  unfold queueSorted at h ⊢
  exact (List.pairwise_append.1 h).2.1

theorem queueSorted_top (ts : ℚ) (top : Note) (rest : List Note)
    (h : queueSorted ts (top :: rest)) (n : Note) (hn : n ∈ rest) :
    noteKey ts top ≤ noteKey ts n :=
  (List.pairwise_cons.1 h).1 n hn

theorem pushSongNote_queueOrdered (e : Engine) (n : Note) (h : e.queueOrdered) :
    (e.pushSongNote n).queueOrdered :=
  queuePush_sorted _ n _ h

theorem queueOrdered_foldl {α : Type} (f : Engine → α → Engine)
    (hf : ∀ (e : Engine) (x : α), e.queueOrdered → (f e x).queueOrdered) (l : List α)
    (e : Engine) (h : e.queueOrdered) : (l.foldl f e).queueOrdered := by
  induction l generalizing e with
  | nil => exact h
  | cons x t ih => exact ih (f e x) (hf e x h)

theorem midiMergeLoop_queueOrdered (tick : Int) (q : List Note) (e : Engine)
    (h : e.queueOrdered) : (midiMergeLoop tick q e).queueOrdered := by
  induction q generalizing e with
  | nil => exact h
  | cons n rest ih =>
    rw [midiMergeLoop]
    split
    · exact h
    · exact ih _ (pushSongNote_queueOrdered _ n h)

theorem songModeTick_queueOrdered (tick : Int) (e : Engine) (b : Bool) (h : e.queueOrdered) :
    (songModeTick tick e b).engine.queueOrdered := by
  unfold Engine.queueOrdered at h ⊢
  unfold songModeTick
  simp only [driverStop]
  split_ifs <;> simpa [TickOutcome.engine] using h

theorem patternModeTick_queueOrdered (tick : Int) (e : Engine) (b : Bool) (h : e.queueOrdered) :
    (patternModeTick tick e b).1.queueOrdered := by
  unfold Engine.queueOrdered at h ⊢
  unfold patternModeTick
  simp only []
  split_ifs <;> simpa using h

theorem metronomeTick_queueOrdered (tick : Int) (e : Engine) (h : e.queueOrdered) :
    (metronomeTick tick e).queueOrdered := by
  unfold metronomeTick
  simp only [push_event, Engine.enqueue]
  split_ifs <;> first | exact pushSongNote_queueOrdered _ _ h | exact h

theorem scheduleNote_queueOrdered (tick : Int) (ts : ℚ) (llf : Int) (e : Engine) (n : Note)
    (h : e.queueOrdered) : (scheduleNote tick ts llf e n).queueOrdered := by
  unfold scheduleNote
  simp only [getGaussian, Engine.enqueue]
  split_ifs <;> exact pushSongNote_queueOrdered _ _ h

theorem schedulePattern_queueOrdered (tick : Int) (ts : ℚ) (llf : Int) (e : Engine)
    (p : PatPtr) (h : e.queueOrdered) : (schedulePattern tick ts llf e p).queueOrdered := by
  unfold schedulePattern
  exact queueOrdered_foldl _ (scheduleNote_queueOrdered tick ts llf) _ _ h

theorem scheduleNotes_queueOrdered (tick : Int) (ts : ℚ) (llf : Int) (e : Engine)
    (h : e.queueOrdered) : (scheduleNotes tick ts llf e).queueOrdered := by
  unfold scheduleNotes
  split
  · exact queueOrdered_foldl _ (schedulePattern_queueOrdered tick ts llf) _ _ h
  · exact h

theorem updateNoteQueue_tick_queueOrdered (tick : Int) (ts : ℚ) (llf : Int) (e : Engine)
    (b : Bool) (h : e.queueOrdered) :
    (updateNoteQueue_tick tick ts llf e b).engine.queueOrdered := by
  have hm : (midiMerge tick e).queueOrdered := midiMergeLoop_queueOrdered tick _ e h
  unfold updateNoteQueue_tick
  by_cases hst : (midiMerge tick e).m_audioEngineState ≠ STATE_PLAYING
  · rw [if_pos hst]
    exact hm
  · rw [if_neg hst]
    by_cases hmode : (midiMerge tick e).song.mode = SongMode.SONG_MODE
    · rw [if_pos hmode]
      have hs := songModeTick_queueOrdered tick (midiMerge tick e) b hm
      cases hso : songModeTick tick (midiMerge tick e) b with
      | done r e2 =>
        rw [hso] at hs
        exact hs
      | next e2 b2 =>
        rw [hso] at hs
        exact scheduleNotes_queueOrdered tick ts llf _ (metronomeTick_queueOrdered tick e2 hs)
    · rw [if_neg hmode]
      exact scheduleNotes_queueOrdered tick ts llf _
        (metronomeTick_queueOrdered tick _
          (patternModeTick_queueOrdered tick (midiMerge tick e) b hm))

theorem updateNoteQueue_loop_queueOrdered (ts : ℚ) (llf : Int) (ticks : List Int) (e : Engine)
    (b : Bool) (h : e.queueOrdered) : (updateNoteQueue_loop ts llf ticks e b).2.queueOrdered := by
  induction ticks generalizing e b with
  | nil => exact h
  | cons tick rest ih =>
    have ht := updateNoteQueue_tick_queueOrdered tick ts llf e b h
    rw [updateNoteQueue_loop]
    cases hto : updateNoteQueue_tick tick ts llf e b with
    | done r e1 =>
      rw [hto] at ht
      exact ht
    | next e1 b1 =>
      rw [hto] at ht
      exact ih e1 b1 ht

theorem playNotesLoop_suffix (nframes : Nat) (fp len : Int) (q : List Note) (e e' : Engine)
    (h : playNotesLoop nframes fp len q e = some e') :
    ∃ popped : List Note, q = popped ++ e'.m_songNoteQueue := by
  induction q generalizing e with
  | nil =>
    simp only [playNotesLoop, Option.some.injEq] at h
    subst h
    exact ⟨[], rfl⟩
  | cons n rest ih =>
    rw [playNotesLoop] at h
    split_ifs at h
    · obtain ⟨p, hp⟩ := ih _ h
      exact ⟨n :: p, by rw [List.cons_append, ← hp]⟩
    · obtain ⟨p, hp⟩ := ih _ h
      exact ⟨n :: p, by rw [List.cons_append, ← hp]⟩
    · obtain ⟨p, hp⟩ := ih _ h
      exact ⟨n :: p, by rw [List.cons_append, ← hp]⟩
    · simp only [Option.some.injEq] at h
      subst h
      exact ⟨[], rfl⟩

/-- C17, counterexample. The scheduler queues, at tick size 500, the copy for
tick 12 (swing offset 1100, start 7100) behind the copy for tick 14 (start
7000).  After the tempo is set to 100 BPM the tick-size recomputation stores
600 and the queue is as it was: the copy for tick 14 is on top with start
8400, above the copy for tick 12 whose start is now 8300. -/
theorem songNoteQueue_top_not_minimal :
    engineSwingQueued.m_transport.m_fTickSize = 500 ∧
    (audioEngine_process_checkBPMChanged engineSwingQueued.song
        engineSwingQueued).m_transport.m_fTickSize = 600 ∧
    (audioEngine_process_checkBPMChanged engineSwingQueued.song
        engineSwingQueued).m_songNoteQueue
      = [noteAt 14, { noteAt 12 with humanize_delay := 1100 }] ∧
    noteKey 600 { noteAt 12 with humanize_delay := 1100 } = 8300 ∧
    noteKey 600 (noteAt 14) = 8400 := by
  decide!

/-- C17, amended. While the tick size stays the one the queued notes were
pushed at, the song note queue yields a note of minimal start time: if the
queue is in order at the current tick size (as the empty queue is), then it is
in order at that tick size after `audioEngine_updateNoteQueue`, whatever the
scheduler pushes, and after `audioEngine_process_playNotes`, whatever it pops;
in a queue in order, every note that gets on top while the notes before it
are popped has a start time `humanize delay + position * tick size` that is at
most that of every note still queued; and a tick-size recomputation that finds
the tick size unchanged leaves the engine as it is. -/
theorem songNoteQueue_top_minimal (nFrames : Nat) (e : Engine)
    (hq : queueSorted e.m_transport.m_fTickSize e.m_songNoteQueue) :
    ((audioEngine_updateNoteQueue nFrames e).2.m_transport.m_fTickSize
          = e.m_transport.m_fTickSize ∧
        queueSorted e.m_transport.m_fTickSize
          (audioEngine_updateNoteQueue nFrames e).2.m_songNoteQueue) ∧
      (∀ e' : Engine, audioEngine_process_playNotes nFrames e = some e' →
        e'.m_transport.m_fTickSize = e.m_transport.m_fTickSize ∧
          queueSorted e.m_transport.m_fTickSize e'.m_songNoteQueue) ∧
      (∀ (popped : List Note) (top : Note) (rest : List Note),
        e.m_songNoteQueue = popped ++ top :: rest →
        ∀ n ∈ rest, noteKey e.m_transport.m_fTickSize top
          ≤ noteKey e.m_transport.m_fTickSize n) ∧
      (∀ pSong : Song,
        compute_tick_size e.sampleRate pSong.bpm pSong.resolution = e.m_transport.m_fTickSize →
        audioEngine_process_checkBPMChanged pSong e = e) := by
  refine ⟨?_, ?_, ?_, ?_⟩
  · have hts := (audioEngine_updateNoteQueue_sameControl nFrames e).2.1
    have ho : (audioEngine_updateNoteQueue nFrames e).2.queueOrdered :=
      updateNoteQueue_loop_queueOrdered _ _ _ e false hq
    unfold Engine.queueOrdered at ho
    rw [hts] at ho
    exact ⟨hts, ho⟩
  · intro e' he'
    refine ⟨(audioEngine_process_playNotes_sameControl nFrames e e' he').2.1, ?_⟩
    obtain ⟨p, hp⟩ := playNotesLoop_suffix _ _ _ _ e e' he'
    rw [hp] at hq
    exact queueSorted_suffix _ p _ hq
  · intro popped top rest hsplit n hn
    rw [hsplit] at hq
    exact queueSorted_top _ top rest (queueSorted_suffix _ popped _ hq) n hn
  · intro pSong hts
    unfold audioEngine_process_checkBPMChanged
    simp only [hts, if_true]
    split_ifs <;> rfl

/-- Witness of C17: the engine `enginePlaying 0`, whose song note queue holds
one note. -/
theorem songNoteQueue_top_minimal_witness :
    queueSorted (enginePlaying 0).m_transport.m_fTickSize (enginePlaying 0).m_songNoteQueue ∧
    (audioEngine_updateNoteQueue 1024 (enginePlaying 0)).2.m_transport.m_fTickSize
      = (enginePlaying 0).m_transport.m_fTickSize ∧
    queueSorted (enginePlaying 0).m_transport.m_fTickSize
      (audioEngine_updateNoteQueue 1024 (enginePlaying 0)).2.m_songNoteQueue :=
  ⟨List.pairwise_singleton _ _,
    (songNoteQueue_top_minimal 1024 (enginePlaying 0) (List.pairwise_singleton _ _)).1⟩

/-! ## Tempo changes through `Hydrogen::setBPM` -/

/-- C21. Contract of `Hydrogen::setBPM( x )` with a driver and a song present,
the bounds being in order (`MIN_BPM ≤ MAX_BPM`): under an external JACK
timebase master (timebase state `Slave`) the song tempo, the driver tempo and
the fallback tempo `m_fNewBpmJTM` are unchanged, as is the whole engine;
otherwise all three become `min (max x MIN_BPM) MAX_BPM`. -/
theorem setBPM_contract (fBPM : ℚ) (e : Engine) (hb : MIN_BPM ≤ MAX_BPM) :
    (e.jackTimebaseState = Timebase.Slave →
      (setBPM fBPM e).song.bpm = e.song.bpm ∧
        (setBPM fBPM e).m_transport.m_fBPM = e.m_transport.m_fBPM ∧
        (setBPM fBPM e).m_fNewBpmJTM = e.m_fNewBpmJTM ∧
        setBPM fBPM e = e) ∧
    (e.jackTimebaseState ≠ Timebase.Slave →
      (setBPM fBPM e).song.bpm = min (max fBPM MIN_BPM) MAX_BPM ∧
        (setBPM fBPM e).m_transport.m_fBPM = min (max fBPM MIN_BPM) MAX_BPM ∧
        (setBPM fBPM e).m_fNewBpmJTM = min (max fBPM MIN_BPM) MAX_BPM) := by
  have hclamp : (if fBPM > MAX_BPM then MAX_BPM else if fBPM < MIN_BPM then MIN_BPM else fBPM)
      = min (max fBPM MIN_BPM) MAX_BPM := by
    split_ifs with h1 h2
    · rw [min_eq_right (le_trans (le_of_lt h1) (le_max_left _ _))]
    · rw [max_eq_right (le_of_lt h2), min_eq_left hb]
    · rw [max_eq_left (not_lt.1 h2), min_eq_left (not_lt.1 h1)]
  constructor
  · intro hs
    have h : setBPM fBPM e = e := by
      unfold setBPM
      simp only [hs, if_true]
    rw [h]
    exact ⟨rfl, rfl, rfl, rfl⟩
  · intro hs
    simp [setBPM, hs, hclamp]

/-- Witness of C21: a tempo of 500 BPM is refused under an external timebase
master and becomes 400 BPM, the upper bound, otherwise. -/
theorem setBPM_contract_witness :
    ((setBPM 500 engineSlave).song.bpm = engineSlave.song.bpm ∧
        (setBPM 500 engineSlave).m_transport.m_fBPM = engineSlave.m_transport.m_fBPM ∧
        (setBPM 500 engineSlave).m_fNewBpmJTM = engineSlave.m_fNewBpmJTM ∧
        setBPM 500 engineSlave = engineSlave) ∧
      ((setBPM 500 engine0).song.bpm = min (max 500 MIN_BPM) MAX_BPM ∧
        (setBPM 500 engine0).m_transport.m_fBPM = min (max 500 MIN_BPM) MAX_BPM ∧
        (setBPM 500 engine0).m_fNewBpmJTM = min (max 500 MIN_BPM) MAX_BPM) ∧
      (setBPM 500 engine0).song.bpm = 400 :=
  ⟨(setBPM_contract 500 engineSlave (by decide!)).1 rfl,
    (setBPM_contract 500 engine0 (by decide!)).2 (by decide),
    by decide!⟩

/-! ## Repeating the pattern lookup -/

/-- C23. Pattern lookup is repeatable: for every song, tick, loop flag and
initial content `s0` of the start-tick output, a second call
`findPatternInTick( T, loop, &s )`, made with `s` as the first call left it,
returns the same column index and leaves the same value in `s`, and the same
value in `m_nSongSizeInTicks`. -/
theorem findPatternInTick_repeatable (song : Song) (T : Int) (loop : Bool) (s0 : Int) :
    (findPatternInTick song T loop (findPatternInTick song T loop s0).patternStartTick).ret
        = (findPatternInTick song T loop s0).ret ∧
      (findPatternInTick song T loop
          (findPatternInTick song T loop s0).patternStartTick).patternStartTick
        = (findPatternInTick song T loop s0).patternStartTick ∧
      findPatternInTick song T loop (findPatternInTick song T loop s0).patternStartTick
        = findPatternInTick song T loop s0 := by
  have h : findPatternInTick song T loop (findPatternInTick song T loop s0).patternStartTick
      = findPatternInTick song T loop s0 := by
    unfold findPatternInTick
    cases h1 : scanColumns song T song.patternGroupVector 0 0 with
    | inl p => rfl
    | inr total =>
      cases loop with
      | false => rfl
      | true =>
        simp only [if_true]
        cases h2 : scanColumns song (if total ≠ 0 then Int.tmod T total else 0)
            song.patternGroupVector 0 0 with
        | inl p => rfl
        | inr t2 => rfl
  rw [h]
  exact ⟨rfl, rfl, rfl⟩

/-! ## Swing and lead/lag -/

/-- C25, counterexample. Playing `songLag` from frame 0 at tick size 500, the
lead/lag factor is `trunc (5 * 500) = 2500` and the template at tick 1 has the
lead/lag `0.7f = 11744051 / 16777216`.  The `float` product of the two is
1750, and the copy is queued with humanize delay 1750, while
`trunc (noteLeadLag * trunc (5 * tickSize))` is 1749. -/
theorem scheduleNote_leadlag_rounds :
    noteLag.lead_lag = 11744051 / 16777216 ∧
    (enginePlayingSong songLag 0).m_transport.m_fTickSize = 500 ∧
    (enginePlayingSong songLag 0).song.swingFactor = 0 ∧
    (enginePlayingSong songLag 0).song.humanizeTimeValue = 0 ∧
    calculateLeadLagFactor (enginePlayingSong songLag 0).m_transport.m_fTickSize = 2500 ∧
    truncQ (5 * (enginePlayingSong songLag 0).m_transport.m_fTickSize) = 2500 ∧
    (audioEngine_updateNoteQueue 1024 (enginePlayingSong songLag 0)).2.m_songNoteQueue
      = [{ noteLag with position := 1, humanize_delay := 1750 }] ∧
    truncQ (noteLag.lead_lag
      * ((truncQ (5 * (enginePlayingSong songLag 0).m_transport.m_fTickSize) : Int) : ℚ))
      = 1749 := by
  decide!

/-- C25, amended. Swing rule and lead/lag: the copy `audioEngine_updateNoteQueue`
pushes for a template at pattern tick position `p` carries, before the clamp
at tick 0, the offset swing + humanize + lead/lag; tick size and lead/lag
factor are those the function reads when it starts.  The swing part is 0
unless `p % 12 = 0` and `p % 24 ≠ 0`, and then the `double` product
`6.0 * tickSize * swingFactor` truncated, which is
`trunc (6 * tickSize * swingFactor)` when tick size and swing factor are
`float` values.  The lead/lag part is the `float` product of the lead/lag of
the note and the lead/lag factor, truncated, the factor being the `float`
product `tickSize * 5` truncated; it is
`trunc (noteLeadLag * trunc (5 * tickSize))` when five times the numerator of
the tick size, and the numerator of the lead/lag times `trunc (5 * tickSize)`,
are below `2^24` in absolute value. -/
theorem scheduleNote_swing_leadlag (nFrames : Nat) (tick : Int) (e0 e : Engine)
    (pNote : Note) :
    audioEngine_updateNoteQueue nFrames e0
        = updateNoteQueue_loop e0.m_transport.m_fTickSize
            (truncQ (toFloat (e0.m_transport.m_fTickSize * 5)))
            (tickRange (tickNumber_start e0) (tickNumber_end nFrames e0)) e0 false ∧
      (scheduleNote tick e0.m_transport.m_fTickSize
          (calculateLeadLagFactor e0.m_transport.m_fTickSize) e pNote).m_songNoteQueue
        = queuePush e.m_transport.m_fTickSize
            (scheduledCopy tick e0.m_transport.m_fTickSize
              (calculateLeadLagFactor e0.m_transport.m_fTickSize) e pNote)
            e.m_songNoteQueue ∧
      (scheduledCopy tick e0.m_transport.m_fTickSize
          (calculateLeadLagFactor e0.m_transport.m_fTickSize) e pNote).humanize_delay
        = (if tick = 0 ∧
              (if e.m_nPatternTickPosition % 12 = 0 ∧ e.m_nPatternTickPosition % 24 ≠ 0 then
                  truncQ (toDouble (toDouble (6 * e0.m_transport.m_fTickSize)
                    * e.song.swingFactor))
                else 0)
              + (if e.song.humanizeTimeValue ≠ 0 then
                  humanizeOffset (toFloat (e.gaussian e.nDraws * toFloat (3 / 10)))
                    e.song.humanizeTimeValue
                else 0)
              + truncQ (toFloat (pNote.lead_lag
                  * toFloat ((truncQ (toFloat (e0.m_transport.m_fTickSize * 5)) : Int) : ℚ))) < 0
            then 0
            else
              (if e.m_nPatternTickPosition % 12 = 0 ∧ e.m_nPatternTickPosition % 24 ≠ 0 then
                  truncQ (toDouble (toDouble (6 * e0.m_transport.m_fTickSize)
                    * e.song.swingFactor))
                else 0)
              + (if e.song.humanizeTimeValue ≠ 0 then
                  humanizeOffset (toFloat (e.gaussian e.nDraws * toFloat (3 / 10)))
                    e.song.humanizeTimeValue
                else 0)
              + truncQ (toFloat (pNote.lead_lag
                  * toFloat ((truncQ (toFloat (e0.m_transport.m_fTickSize * 5)) : Int) : ℚ)))) ∧
      (toFloat e0.m_transport.m_fTickSize = e0.m_transport.m_fTickSize →
        toFloat e.song.swingFactor = e.song.swingFactor →
        swingOffset e0.m_transport.m_fTickSize e.song.swingFactor e.m_nPatternTickPosition
          = (if e.m_nPatternTickPosition % 12 = 0 ∧ e.m_nPatternTickPosition % 24 ≠ 0 then
              truncQ (6 * e0.m_transport.m_fTickSize * e.song.swingFactor)
            else 0)) ∧
      (0 < e0.m_transport.m_fTickSize →
        5 * e0.m_transport.m_fTickSize.num < 16777216 →
        |pNote.lead_lag.num * truncQ (5 * e0.m_transport.m_fTickSize)| < 16777216 →
        leadLagOffset pNote.lead_lag (calculateLeadLagFactor e0.m_transport.m_fTickSize)
          = truncQ (pNote.lead_lag
              * ((truncQ (5 * e0.m_transport.m_fTickSize) : Int) : ℚ))) := by
  refine ⟨rfl, scheduleNote_queue _ _ _ _ _, ?_, ?_, ?_⟩
  · unfold scheduledCopy swingOffset calculateLeadLagFactor leadLagOffset
    simp only [getGaussian]
  · intro hts hsw
    unfold swingOffset
    rw [swing_product_exact _ _ hts hsw]
  · intro hts h5 hll
    have h5q : (0 : ℚ) ≤ 5 * e0.m_transport.m_fTickSize := by positivity
    have hllf : calculateLeadLagFactor e0.m_transport.m_fTickSize
        = truncQ (5 * e0.m_transport.m_fTickSize) := by
      rw [calculateLeadLagFactor_exact _ hts h5, truncQ_of_nonneg h5q]
    have hbound : |truncQ (5 * e0.m_transport.m_fTickSize)| < 16777216 := by
      rw [truncQ_of_nonneg h5q, abs_of_nonneg (Int.floor_nonneg.mpr h5q)]
      have hden : (1 : ℚ) ≤ (e0.m_transport.m_fTickSize.den : ℚ) := by
        exact_mod_cast e0.m_transport.m_fTickSize.den_pos
      have hnum : (0 : ℚ) < (e0.m_transport.m_fTickSize.num : ℚ) := by
        exact_mod_cast Rat.num_pos.mpr hts
      have hle : e0.m_transport.m_fTickSize ≤ (e0.m_transport.m_fTickSize.num : ℚ) := by
        conv_lhs => rw [← Rat.num_div_den e0.m_transport.m_fTickSize]
        exact div_le_self (le_of_lt hnum) hden
      have h5' : (5 * (e0.m_transport.m_fTickSize.num : ℚ)) < 16777216 := by
        exact_mod_cast h5
      have hfl : (⌊5 * e0.m_transport.m_fTickSize⌋ : ℚ) < ((16777216 : Int) : ℚ) := by
        have := Int.floor_le (5 * e0.m_transport.m_fTickSize)
        push_cast
        linarith
      exact_mod_cast hfl
    rw [hllf]
    exact leadLagOffset_exact _ _ hll hbound

/-- Witness of C25, amended: playing `songSwingLag` at tick size 500, with the
swing factor 0.5 and a note of lead/lag 0.5 at tick 12, the swing part is
`trunc (6 * 500 * 0.5) = 1500`, the lead/lag part `trunc (0.5 * 2500) = 1250`,
and the copy is queued with humanize delay 2750. -/
theorem scheduleNote_swing_leadlag_witness :
    swingOffset (enginePlayingSong songSwingLag 0).m_transport.m_fTickSize
        (enginePlayingSong songSwingLag 0).song.swingFactor 12
      = (if (12 : Int) % 12 = 0 ∧ (12 : Int) % 24 ≠ 0 then
          truncQ (6 * (enginePlayingSong songSwingLag 0).m_transport.m_fTickSize
            * (enginePlayingSong songSwingLag 0).song.swingFactor)
        else 0) ∧
    leadLagOffset ({ noteAt 12 with lead_lag := 1 / 2 } : Note).lead_lag
        (calculateLeadLagFactor (enginePlayingSong songSwingLag 0).m_transport.m_fTickSize)
      = truncQ (({ noteAt 12 with lead_lag := 1 / 2 } : Note).lead_lag
          * ((truncQ (5 * (enginePlayingSong songSwingLag 0).m_transport.m_fTickSize) : Int) : ℚ)) ∧
    swingOffset 500 (1 / 2) 12 = 1500 ∧
    leadLagOffset (1 / 2) (calculateLeadLagFactor 500) = 1250 ∧
    (audioEngine_updateNoteQueue 8192 (enginePlayingSong songSwingLag 0)).2.m_songNoteQueue
      = [{ noteAt 12 with lead_lag := 1 / 2, humanize_delay := 2750 }] :=
  ⟨(scheduleNote_swing_leadlag 8192 12 (enginePlayingSong songSwingLag 0)
      { enginePlayingSong songSwingLag 0 with m_nPatternTickPosition := 12 }
      { noteAt 12 with lead_lag := 1 / 2 }).2.2.2.1 (by decide!) (by decide!),
    (scheduleNote_swing_leadlag 8192 12 (enginePlayingSong songSwingLag 0)
      { enginePlayingSong songSwingLag 0 with m_nPatternTickPosition := 12 }
      { noteAt 12 with lead_lag := 1 / 2 }).2.2.2.2 (by decide!) (by decide!) (by decide!),
    by decide!, by decide!, by decide!⟩

/-! ## Tick windows of consecutive buffers -/

theorem toU32_toU32_add (a b : Int) : toU32 (toU32 a + b) = toU32 (a + b) := by
  unfold toU32
  exact Int.emod_add_cancel_right b |>.mpr (Int.emod_emod_of_dvd a (dvd_refl _))

/-- C27, counterexample. Playing at frame `2^32 - 1024` at tick size 500 with
buffers of 1024 frames, the first call of `audioEngine_updateNoteQueue` has
the end bound 9 (the `unsigned int` sum `framepos + nFrames + lookahead` is
4501); for the second call, at frame `2^32`, the `unsigned int framepos` is 0,
so its window starts at tick 0, not at tick 9. -/
theorem updateNoteQueue_consecutive_wraps :
    (0 : Int) ≤ (enginePlaying 4294966272).m_transport.m_nFrames ∧
    (enginePlaying 4294967296).m_transport.m_nFrames
      = (enginePlaying 4294966272).m_transport.m_nFrames + (1024 : Nat) ∧
    (enginePlaying 4294967296).m_transport.m_fTickSize
      = (enginePlaying 4294966272).m_transport.m_fTickSize ∧
    ¬ ((enginePlaying 4294967296).song.mode = SongMode.SONG_MODE
        ∧ (enginePlaying 4294967296).m_nSongPos = -1) ∧
    framepos (enginePlaying 4294967296) = 0 ∧
    tickNumber_end 1024 (enginePlaying 4294966272) = 9 ∧
    tickNumber_start (enginePlaying 4294967296) = 0 := by
  decide!

/-- C27, amended. Consecutive buffers: if `audioEngine_updateNoteQueue( N )`
runs while PLAYING at a frame position `f` and then, with the same positive
tick size, at `f + N`, the second call not being in the reset case `m_nSongPos = -1` of
song mode and the `unsigned int framepos` of the second call, `f + N` modulo
`2^32`, not being 0, then the first tick of the second call is the end bound
of the first call, and no tick lies in both tick ranges. -/
theorem updateNoteQueue_consecutive (N : Nat) (e1 e2 : Engine)
    (hp1 : e1.m_audioEngineState = STATE_PLAYING)
    (hp2 : e2.m_audioEngineState = STATE_PLAYING)
    (_hpos : 0 < e1.m_transport.m_fTickSize)
    (hts : e2.m_transport.m_fTickSize = e1.m_transport.m_fTickSize)
    (hfr : e2.m_transport.m_nFrames = e1.m_transport.m_nFrames + N)
    (hwrap : toU32 (e1.m_transport.m_nFrames + N) ≠ 0)
    (hreset : ¬ (e2.song.mode = SongMode.SONG_MODE ∧ e2.m_nSongPos = -1)) :
    tickNumber_start e2 = tickNumber_end N e1 ∧
      tickRange (tickNumber_start e2) (tickNumber_end N e2)
        = tickRange (tickNumber_end N e1) (tickNumber_end N e2) ∧
      ∀ t : Int, t ∈ tickRange (tickNumber_start e1) (tickNumber_end N e1) →
        t ∉ tickRange (tickNumber_start e2) (tickNumber_end N e2) := by
  have hfp1 : framepos e1 = toU32 e1.m_transport.m_nFrames := by simp [framepos, hp1]
  have hfp2 : framepos e2 = toU32 (e1.m_transport.m_nFrames + N) := by
    simp [framepos, hp2, hfr]
  have hne : ¬ (framepos e2 = 0) := by
    rw [hfp2]
    exact hwrap
  have hstart : tickNumber_start e2 = tickNumber_end N e1 := by
    unfold tickNumber_start tickNumber_end
    have hcond : ¬ (framepos e2 = 0
        ∨ (e2.m_audioEngineState = STATE_PLAYING ∧ e2.song.mode = SongMode.SONG_MODE
            ∧ e2.m_nSongPos = -1)) := by
      rintro (h | ⟨_, h2, h3⟩)
      · exact hne h
      · exact hreset ⟨h2, h3⟩
    rw [if_neg hcond, hfp2, hfp1, hts, toU32_toU32_add,
      show toU32 e1.m_transport.m_nFrames + (N : Int)
          + calculateLookahead e1.m_transport.m_fTickSize
        = toU32 e1.m_transport.m_nFrames
          + ((N : Int) + calculateLookahead e1.m_transport.m_fTickSize) by ring,
      toU32_toU32_add]
    congr 2
    ring
  refine ⟨hstart, by rw [hstart], ?_⟩
  intro t ht1 ht2
  rw [mem_tickRange] at ht1 ht2
  rw [hstart] at ht2
  omega

/-- Witness of C27, amended: the engine playing at frame 250 and then at frame
1274, with buffers of 1024 frames at tick size 500: the first call ends at
tick 11, where the second starts. -/
theorem updateNoteQueue_consecutive_witness :
    (tickNumber_start (enginePlaying 1274) = tickNumber_end 1024 (enginePlaying 250) ∧
      tickRange (tickNumber_start (enginePlaying 1274)) (tickNumber_end 1024 (enginePlaying 1274))
        = tickRange (tickNumber_end 1024 (enginePlaying 250))
            (tickNumber_end 1024 (enginePlaying 1274)) ∧
      ∀ t : Int,
        t ∈ tickRange (tickNumber_start (enginePlaying 250))
            (tickNumber_end 1024 (enginePlaying 250)) →
        t ∉ tickRange (tickNumber_start (enginePlaying 1274))
            (tickNumber_end 1024 (enginePlaying 1274))) ∧
    tickNumber_end 1024 (enginePlaying 250) = 11 :=
  ⟨updateNoteQueue_consecutive 1024 (enginePlaying 250) (enginePlaying 1274)
      rfl rfl (by decide!) rfl (by decide) (by decide) (by decide),
    by decide!⟩

/-! ## Setting the song -/

/-- C22, failing input. `audioEngine_setSong` goes through in every engine
state: afterwards the engine is READY, the driver tempo is the tempo of the new
song and the tick size is computed from it.  Called while PLAYING (not
PREPARED) at tick size 500 and driver tempo 120 with a song at 100 BPM, it
leaves the engine READY with pattern 0 playing, tick size 600, driver tempo
100 and the transport at frame 0, and pushes the state event. -/
theorem audioEngine_setSong_wrong_state :
    (∀ (pNewSong : Song) (e : Engine),
      (audioEngine_setSong pNewSong e).m_audioEngineState = STATE_READY ∧
        (audioEngine_setSong pNewSong e).m_transport.m_fBPM = pNewSong.bpm ∧
        (audioEngine_setSong pNewSong e).m_transport.m_fTickSize
          = compute_tick_size e.sampleRate pNewSong.bpm pNewSong.resolution) ∧
    (enginePlayingSong song100 250).m_audioEngineState = STATE_PLAYING ∧
    STATE_PLAYING ≠ STATE_PREPARED ∧
    (enginePlayingSong song100 250).m_pPlayingPatterns = [] ∧
    (enginePlayingSong song100 250).m_transport = ⟨TransportStatus.ROLLING, 250, 500, 120⟩ ∧
    (audioEngine_setSong song100 (enginePlayingSong song100 250)).m_audioEngineState
      = STATE_READY ∧
    (audioEngine_setSong song100 (enginePlayingSong song100 250)).m_pPlayingPatterns = [0] ∧
    (audioEngine_setSong song100 (enginePlayingSong song100 250)).m_transport
      = ⟨TransportStatus.ROLLING, 0, 600, 100⟩ ∧
    (audioEngine_setSong song100 (enginePlayingSong song100 250)).events
      = [⟨EventType.EVENT_RECALCULATERUBBERBAND, -1⟩, ⟨EventType.EVENT_STATE, STATE_READY⟩] := by
  refine ⟨fun pNewSong e => ?_, by decide!, by decide, by decide!, by decide!, by decide!,
    by decide!, by decide!, by decide!⟩
  have hsr : ∀ (p : Song) (x : Engine),
      (audioEngine_process_checkBPMChanged p x).sampleRate = x.sampleRate := by
    intro p x
    unfold audioEngine_process_checkBPMChanged
    simp only [push_event]
    split_ifs <;> rfl
  unfold audioEngine_setSong
  simp only [push_event, locate0]
  split_ifs <;> simp [hsr]

/-! ## The divisor of the renderer feed -/

/-- C28, failing input. The engine is READY with a song in song mode that has
no columns, and a note for tick 0 waits in the MIDI queue.  One call of
`audioEngine_process` merges the note into the song note queue (the engine is
not PLAYING, so the scheduler does not test for the empty song); the renderer
feed finds it due and computes `position % nSongLength` with
`nSongLength = 0`. -/
theorem audioEngine_process_modulo_zero :
    engineNoColumns.m_audioEngineState = STATE_READY ∧
    engineNoColumns.song.mode = SongMode.SONG_MODE ∧
    engineNoColumns.song.patternGroupVector = [] ∧
    engineNoColumns.m_midiNoteQueue = [noteAt 0] ∧
    (audioEngine_updateNoteQueue 1024
        (engineAtScheduler 1024 id engineNoColumns)).1 = 0 ∧
    (audioEngine_updateNoteQueue 1024
        (engineAtScheduler 1024 id engineNoColumns)).2.m_songNoteQueue = [noteAt 0] ∧
    noteIsDue 500 (framepos (engineAtScheduler 1024 id engineNoColumns)) 1024 (noteAt 0)
      = true ∧
    engineNoColumns.song.lengthInTicks = 0 ∧
    (audioEngine_process_playNotes 1024
        (audioEngine_updateNoteQueue 1024
          (engineAtScheduler 1024 id engineNoColumns)).2).isNone = true ∧
    (audioEngine_process 1024 true id [] engineNoColumns).isNone = true := by
  decide!

/-! ## Column index and start tick -/

theorem getTickForPosition_eq (song : Song) (pos : Nat)
    (hpos : pos < song.patternGroupVector.length) :
    getTickForPosition song pos = columnStart song pos := by
  have hne : ¬ ((song.patternGroupVector.length : Int) = 0) := by omega
  have hlt : ¬ ((pos : Int) ≥ (song.patternGroupVector.length : Int)) := by omega
  unfold getTickForPosition
  simp only [hne, hlt, if_false, false_and, Int.toNat_ofNat]
  unfold columnStart columnSizes
  rw [← List.map_take]
  generalize song.patternGroupVector.take pos = l
  have hfold : ∀ (cols : List PatternList) (acc : Int),
      cols.foldl (fun totalTick pColumn =>
          totalTick
            + (if pColumn.length > 0 then longest_pattern_length song pColumn else MAX_NOTES))
        acc = acc + (cols.map (columnSize song)).sum := by
    intro cols
    induction cols with
    | nil => intro acc; simp
    | cons c t ih =>
      intro acc
      rw [List.foldl_cons, ih, List.map_cons, List.sum_cons]
      have hc : (if c.length > 0 then longest_pattern_length song c else MAX_NOTES)
          = columnSize song c := by
        unfold columnSize
        by_cases h : c.length = 0
        · simp [h]
        · have h2 : c.length > 0 := Nat.pos_of_ne_zero h
          simp [h, h2]
      rw [hc]
      ring
  rw [hfold]
  simp

/-- C29. Round trip between column index and start tick: for every song and
every column index `pos` below the number of columns whose column has positive
length, `findPatternInTick( getTickForPosition( pos ), loop, &s )` returns
`pos` and writes `s = getTickForPosition( pos )`, for either value of the loop
flag; `getTickForPosition( pos )` is the summed length of the columns before
`pos`. -/
theorem findPatternInTick_getTickForPosition (song : Song) (pos : Nat) (loop : Bool)
    (s0 : Int) (hpos : pos < song.patternGroupVector.length)
    (hlen : 0 < (columnSizes song).getD pos 0) :
    (findPatternInTick song (getTickForPosition song pos) loop s0).ret = pos ∧
      (findPatternInTick song (getTickForPosition song pos) loop s0).patternStartTick
        = getTickForPosition song pos ∧
      getTickForPosition song pos = columnStart song pos := by
  have hT := getTickForPosition_eq song pos hpos
  have hsucc := columnStart_succ song pos hpos
  have h0 : 0 ≤ columnStart song pos := by
    have := columnStart_mono song (Nat.zero_le pos)
    simpa [columnStart] using this
  have hend : columnStart song (pos + 1) ≤ songSize song := by
    rw [← columnStart_length]
    exact columnStart_mono song hpos
  obtain ⟨k, hk, hs, hlo, hhi⟩ := scanColumns_song_found song (columnStart song pos) h0
    (by omega)
  have hkp : k = pos := by
    rcases Nat.lt_trichotomy k pos with h | h | h
    · have := columnStart_mono song (show k + 1 ≤ pos from h)
      omega
    · exact h
    · have := columnStart_mono song (show pos + 1 ≤ k from h)
      omega
  subst hkp
  rw [hT]
  unfold findPatternInTick
  rw [hs]
  exact ⟨rfl, rfl, rfl⟩

/-- Witness of C29: column 1 of the song of 192 + 96 ticks starts at tick 192,
and tick 192 is looked up as column 1 starting at 192. -/
theorem findPatternInTick_getTickForPosition_witness :
    ((findPatternInTick song0 (getTickForPosition song0 (1 : Nat)) false 7).ret = (1 : Nat) ∧
      (findPatternInTick song0 (getTickForPosition song0 (1 : Nat)) false 7).patternStartTick
        = getTickForPosition song0 (1 : Nat) ∧
      getTickForPosition song0 (1 : Nat) = columnStart song0 1) ∧
    getTickForPosition song0 1 = 192 :=
  ⟨findPatternInTick_getTickForPosition song0 1 false 7 (by decide) (by decide),
    by decide⟩

/-! ## Position within the pattern in pattern mode -/

/-- The pattern-mode part of a tick leaves a pattern tick position inside the
pattern, whatever the start tick was. -/
theorem patternModeTick_position (tick : Int) (e : Engine) (b : Bool)
    (hS : 0 < patternModeSize e) (hSmax : patternModeSize e < 2147483648)
    (htick : 0 ≤ tick) (htmax : tick < 2147483648)
    (hs1 : -2147483648 ≤ e.m_nPatternStartTick) (hs2 : e.m_nPatternStartTick < 2147483648) :
    0 ≤ (patternModeTick tick e b).1.m_nPatternTickPosition ∧
      (patternModeTick tick e b).1.m_nPatternTickPosition < patternModeSize e := by
  have hm0 : 0 ≤ Int.tmod tick (patternModeSize e) := Int.tmod_nonneg _ htick
  have hm1 : Int.tmod tick (patternModeSize e) < patternModeSize e :=
    Int.tmod_lt_of_pos _ hS
  have hm2 : Int.tmod tick (patternModeSize e) ≤ tick := by
    rw [Int.tmod_eq_emod htick (le_of_lt hS)]
    have h1 := Int.emod_add_ediv tick (patternModeSize e)
    have h2 := mul_nonneg (le_of_lt hS) (Int.ediv_nonneg htick (le_of_lt hS))
    linarith
  unfold patternModeTick
  simp only []
  generalize patternModeSize e = S at *
  generalize Int.tmod tick S = m at *
  split_ifs <;> simp only [toU32] at * <;> omega

/-- C24. Pattern-mode position stays inside the pattern: for a tick `tick ≥ 0`
processed by the tick loop while PLAYING in pattern mode, with `S > 0` the
longest playing-pattern length read for that tick, the pattern tick position
after the tick satisfies `0 ≤ m_nPatternTickPosition < S`, for every prior
value of `m_nPatternStartTick` (tick, `S` and start tick being values of an
`int`). -/
theorem updateNoteQueue_tick_patternPosition (tick : Int) (ts : ℚ) (llf : Int) (e : Engine)
    (b : Bool)
    (hplay : e.m_audioEngineState = STATE_PLAYING)
    (hmode : e.song.mode = SongMode.PATTERN_MODE)
    (hS : 0 < patternModeSize e) (hSmax : patternModeSize e < 2147483648)
    (htick : 0 ≤ tick) (htmax : tick < 2147483648)
    (hs1 : -2147483648 ≤ e.m_nPatternStartTick) (hs2 : e.m_nPatternStartTick < 2147483648) :
    0 ≤ (updateNoteQueue_tick tick ts llf e b).engine.m_nPatternTickPosition ∧
      (updateNoteQueue_tick tick ts llf e b).engine.m_nPatternTickPosition
        < patternModeSize e := by
  have hmm := midiMergeLoop_eq tick e.m_midiNoteQueue e
  have hst : (midiMerge tick e).m_audioEngineState = STATE_PLAYING := by
    rw [midiMerge, hmm]; exact hplay
  have hmd : (midiMerge tick e).song.mode ≠ SongMode.SONG_MODE := by
    rw [midiMerge, hmm]
    show e.song.mode ≠ SongMode.SONG_MODE
    rw [hmode]
    decide
  have hsize : patternModeSize (midiMerge tick e) = patternModeSize e := by
    rw [midiMerge, hmm]; rfl
  have hstart : (midiMerge tick e).m_nPatternStartTick = e.m_nPatternStartTick := by
    rw [midiMerge, hmm]
  have hpos := patternModeTick_position tick (midiMerge tick e) b (by rw [hsize]; exact hS)
    (by rw [hsize]; exact hSmax) htick htmax (by rw [hstart]; exact hs1)
    (by rw [hstart]; exact hs2)
  rw [hsize] at hpos
  have hsame := samePosition_trans
    (metronomeTick_samePosition tick (patternModeTick tick (midiMerge tick e) b).1)
    (scheduleNotes_samePosition tick ts llf _)
  unfold updateNoteQueue_tick
  rw [if_neg (by rw [hst]; exact fun h => h rfl), if_neg hmd]
  simp only [TickOutcome.engine]
  rw [hsame.1]
  exact hpos

/-- Witness of C24: in pattern mode with the playing pattern of 192 ticks and
the start tick at 400, beyond the tick, tick 200 gets the pattern tick
position 8. -/
theorem updateNoteQueue_tick_patternPosition_witness :
    (0 ≤ (updateNoteQueue_tick 200 500 2500
          { enginePatternMode [] with m_nPatternStartTick := 400 } false).engine.m_nPatternTickPosition ∧
      (updateNoteQueue_tick 200 500 2500
          { enginePatternMode [] with m_nPatternStartTick := 400 } false).engine.m_nPatternTickPosition
        < patternModeSize { enginePatternMode [] with m_nPatternStartTick := 400 }) ∧
    (updateNoteQueue_tick 200 500 2500
        { enginePatternMode [] with m_nPatternStartTick := 400 } false).engine.m_nPatternTickPosition
      = 8 :=
  ⟨updateNoteQueue_tick_patternPosition 200 500 2500
      { enginePatternMode [] with m_nPatternStartTick := 400 } false
      (by decide) (by decide) (by decide) (by decide) (by decide) (by decide) (by decide)
      (by decide),
    by decide!⟩

/-! ## Notes left in the queue by the renderer feed -/

theorem noteIsDue_false (ts : ℚ) (fp : Int) (nframes : Nat) (n : Note)
    (h : noteIsDue ts fp nframes n = false) : fp + nframes ≤ noteStartInFrames ts n := by
  unfold noteIsDue at h
  simp only [decide_eq_false_iff_not, not_or, not_and, not_lt, ge_iff_le] at h
  exact h.1 h.2

theorem playNotesLoop_top (nframes : Nat) (fp len : Int) (q : List Note) (e e' : Engine)
    (h : playNotesLoop nframes fp len q e = some e') (top : Note) (rest : List Note)
    (hq : e'.m_songNoteQueue = top :: rest) :
    noteIsDue e.m_transport.m_fTickSize fp nframes top = false := by
  induction q generalizing e with
  | nil =>
    simp only [playNotesLoop, Option.some.injEq] at h
    subst h
    simp at hq
  | cons n t ih =>
    rw [playNotesLoop] at h
    split_ifs at h with h1 h2 h3 h4
    · have := ih _ h
      exact this
    · have := ih _ h
      rw [(playNote_sameControl _ _ _).2.1] at this
      exact this
    · have := ih _ h
      rw [(playNote_sameControl _ _ _).2.1] at this
      exact this
    · simp only [Option.some.injEq] at h
      subst h
      simp only [List.cons.injEq] at hq
      rw [← hq.1]
      simpa using h1

/-- C26, counterexample. At tick size 500 the scheduler queues the copy for
tick 12, whose swing offset is 1100, behind the copy for tick 14.  In the
buffer of 1024 frames at frame 5120 the copy on top, for tick 14, is not due
(window start 7000), so the renderer feed returns with both copies queued;
the copy for tick 12 has window start 6000, inside the buffer. -/
theorem playNotes_leaves_due_note :
    (audioEngine_updateNoteQueue 8192 (enginePlayingSong songSwing 0)).2.m_songNoteQueue
      = engineLateNote.m_songNoteQueue ∧
    framepos engineLateNote = 5120 ∧
    (audioEngine_process_playNotes 1024 engineLateNote).map (fun x => x.m_songNoteQueue)
      = some [noteAt 14, { noteAt 12 with humanize_delay := 1100 }] ∧
    noteStartInFrames 500 (noteAt 14) = 7000 ∧
    noteStartInFrames 500 { noteAt 12 with humanize_delay := 1100 } = 6000 ∧
    noteIsDue 500 5120 1024 { noteAt 12 with humanize_delay := 1100 } = true := by
  decide!

/-- C26, amended. The renderer feed stops at the first note on top of the
queue that is not due: when `audioEngine_process_playNotes( nframes )` returns,
the song note queue is what is left of the queue once some notes are popped
from the top, and it is empty or the note on its top has a window start at or
beyond `framePos + nframes` (window start: `trunc (position * tickSize)`, plus
the humanize delay when negative, as an `unsigned int`). -/
theorem playNotes_top_not_due (nframes : Nat) (e : Engine) :
    ∀ e' : Engine, audioEngine_process_playNotes nframes e = some e' →
      (∃ popped : List Note, e.m_songNoteQueue = popped ++ e'.m_songNoteQueue) ∧
      (e'.m_songNoteQueue = [] ∨
        ∃ (top : Note) (rest : List Note), e'.m_songNoteQueue = top :: rest ∧
          framepos e + nframes ≤ noteStartInFrames e.m_transport.m_fTickSize top) := by
  intro e' h
  refine ⟨playNotesLoop_suffix _ _ _ _ e e' h, ?_⟩
  cases hq : e'.m_songNoteQueue with
  | nil => exact Or.inl rfl
  | cons top rest =>
    exact Or.inr ⟨top, rest, rfl,
      noteIsDue_false _ _ _ _ (playNotesLoop_top _ _ _ _ e e' h top rest hq)⟩

/-- Witness of C26: the feed of `enginePlaying 0`, whose queue holds a note for
tick 300, returns with that note queued. -/
theorem playNotes_top_not_due_witness :
    (∀ e' : Engine, audioEngine_process_playNotes 1024 (enginePlaying 0) = some e' →
      (∃ popped : List Note, (enginePlaying 0).m_songNoteQueue = popped ++ e'.m_songNoteQueue) ∧
      (e'.m_songNoteQueue = [] ∨
        ∃ (top : Note) (rest : List Note), e'.m_songNoteQueue = top :: rest ∧
          framepos (enginePlaying 0) + (1024 : Nat)
            ≤ noteStartInFrames (enginePlaying 0).m_transport.m_fTickSize top)) ∧
    (audioEngine_process_playNotes 1024 (enginePlaying 0)).map (fun x => x.m_songNoteQueue)
      = some [noteAt 300] :=
  ⟨playNotes_top_not_due 1024 (enginePlaying 0), by decide!⟩

/-! ## The in-flight counters of the instruments -/

theorem queuedCount_cons (n : Note) (q : List Note) (j : Nat) :
    queuedCount (n :: q) j = queuedCount q j + (if n.instrument = j then 1 else 0) := by
  unfold queuedCount
  rw [List.countP_cons]
  by_cases h : n.instrument = j <;> simp [h]

theorem queuedCount_queuePush (ts : ℚ) (n : Note) (q : List Note) (j : Nat) :
    queuedCount (queuePush ts n q) j
      = queuedCount q j + (if n.instrument = j then 1 else 0) := by
  induction q with
  | nil => simp [queuePush, queuedCount_cons]
  | cons m rest ih =>
    rw [queuePush]
    split
    · rw [queuedCount_cons]
    · rw [queuedCount_cons, ih, queuedCount_cons]
      ring

theorem enqueue_push_queuedInvariant (e : Engine) (n : Note) (h : e.queuedInvariant) :
    ((e.enqueue n.instrument).pushSongNote n).queuedInvariant := by
  intro j
  have hj := h j
  show (if j = n.instrument then
      { e.instruments j with queued := (e.instruments j).queued + 1 }
    else e.instruments j).queued
    = queuedCount (queuePush e.m_transport.m_fTickSize n e.m_songNoteQueue) j
  rw [queuedCount_queuePush]
  by_cases hc : j = n.instrument
  · rw [if_pos hc, if_pos hc.symm]
    show (e.instruments j).queued + 1 = _
    rw [hj]
  · rw [if_neg hc, if_neg (fun h' => hc h'.symm)]
    rw [hj]
    ring

theorem enqueue_push_queuedInvariant_at (e : Engine) (i : Nat) (n : Note)
    (hi : n.instrument = i) (h : e.queuedInvariant) :
    ((e.enqueue i).pushSongNote n).queuedInvariant := by
  subst hi
  exact enqueue_push_queuedInvariant e n h

theorem queuedInvariant_of_eq (e e' : Engine) (hq : e'.m_songNoteQueue = e.m_songNoteQueue)
    (hi : ∀ j, (e'.instruments j).queued = (e.instruments j).queued)
    (h : e.queuedInvariant) : e'.queuedInvariant := by
  intro j
  rw [hi j, hq]
  exact h j

theorem queuedInvariant_foldl {α : Type} (f : Engine → α → Engine)
    (hf : ∀ (e : Engine) (x : α), e.queuedInvariant → (f e x).queuedInvariant) (l : List α)
    (e : Engine) (h : e.queuedInvariant) : (l.foldl f e).queuedInvariant := by
  induction l generalizing e with
  | nil => exact h
  | cons x t ih => exact ih (f e x) (hf e x h)

theorem midiMergeLoop_queuedInvariant (tick : Int) (q : List Note) (e : Engine)
    (h : e.queuedInvariant) : (midiMergeLoop tick q e).queuedInvariant := by
  induction q generalizing e with
  | nil => exact h
  | cons n rest ih =>
    rw [midiMergeLoop]
    split
    · exact h
    · exact ih _ (enqueue_push_queuedInvariant { e with m_midiNoteQueue := rest } n h)

theorem songModeTick_queuedInvariant (tick : Int) (e : Engine) (b : Bool)
    (h : e.queuedInvariant) : (songModeTick tick e b).engine.queuedInvariant := by
  unfold Engine.queuedInvariant at h ⊢
  unfold songModeTick
  simp only [driverStop]
  split_ifs <;> simpa [TickOutcome.engine] using h

theorem patternModeTick_queuedInvariant (tick : Int) (e : Engine) (b : Bool)
    (h : e.queuedInvariant) : (patternModeTick tick e b).1.queuedInvariant := by
  unfold Engine.queuedInvariant at h ⊢
  unfold patternModeTick
  simp only []
  split_ifs <;> simpa using h

theorem metronomeVolume_queuedInvariant (e : Engine) (events : List Event)
    (h : e.queuedInvariant) :
    Engine.queuedInvariant
      { e with
        events := events
        instruments := fun j =>
          if j = e.m_pMetronomeInstrument then
            { e.instruments j with volume := e.m_fMetronomeVolume }
          else e.instruments j } := by
  refine queuedInvariant_of_eq e _ rfl (fun j => ?_) h
  dsimp only
  split_ifs <;> rfl

theorem metronomeTick_queuedInvariant (tick : Int) (e : Engine) (h : e.queuedInvariant) :
    (metronomeTick tick e).queuedInvariant := by
  unfold metronomeTick
  simp only [push_event]
  split_ifs <;>
    first
    | exact h
    | exact enqueue_push_queuedInvariant_at _ _ _ rfl (metronomeVolume_queuedInvariant e _ h)

theorem scheduleNote_queuedInvariant (tick : Int) (ts : ℚ) (llf : Int) (e : Engine) (n : Note)
    (h : e.queuedInvariant) : (scheduleNote tick ts llf e n).queuedInvariant := by
  unfold scheduleNote
  simp only [getGaussian]
  split_ifs <;> exact enqueue_push_queuedInvariant_at _ _ _ rfl h

theorem schedulePattern_queuedInvariant (tick : Int) (ts : ℚ) (llf : Int) (e : Engine)
    (p : PatPtr) (h : e.queuedInvariant) : (schedulePattern tick ts llf e p).queuedInvariant := by
  unfold schedulePattern
  exact queuedInvariant_foldl _ (scheduleNote_queuedInvariant tick ts llf) _ _ h

theorem scheduleNotes_queuedInvariant (tick : Int) (ts : ℚ) (llf : Int) (e : Engine)
    (h : e.queuedInvariant) : (scheduleNotes tick ts llf e).queuedInvariant := by
  unfold scheduleNotes
  split
  · exact queuedInvariant_foldl _ (schedulePattern_queuedInvariant tick ts llf) _ _ h
  · exact h

theorem updateNoteQueue_tick_queuedInvariant (tick : Int) (ts : ℚ) (llf : Int) (e : Engine)
    (b : Bool) (h : e.queuedInvariant) :
    (updateNoteQueue_tick tick ts llf e b).engine.queuedInvariant := by
  have hm : (midiMerge tick e).queuedInvariant := midiMergeLoop_queuedInvariant tick _ e h
  unfold updateNoteQueue_tick
  by_cases hst : (midiMerge tick e).m_audioEngineState ≠ STATE_PLAYING
  · rw [if_pos hst]
    exact hm
  · rw [if_neg hst]
    by_cases hmode : (midiMerge tick e).song.mode = SongMode.SONG_MODE
    · rw [if_pos hmode]
      have hs := songModeTick_queuedInvariant tick (midiMerge tick e) b hm
      cases hso : songModeTick tick (midiMerge tick e) b with
      | done r e2 =>
        rw [hso] at hs
        exact hs
      | next e2 b2 =>
        rw [hso] at hs
        exact scheduleNotes_queuedInvariant tick ts llf _
          (metronomeTick_queuedInvariant tick e2 hs)
    · rw [if_neg hmode]
      exact scheduleNotes_queuedInvariant tick ts llf _
        (metronomeTick_queuedInvariant tick _
          (patternModeTick_queuedInvariant tick (midiMerge tick e) b hm))

theorem updateNoteQueue_loop_queuedInvariant (ts : ℚ) (llf : Int) (ticks : List Int)
    (e : Engine) (b : Bool) (h : e.queuedInvariant) :
    (updateNoteQueue_loop ts llf ticks e b).2.queuedInvariant := by
  induction ticks generalizing e b with
  | nil => exact h
  | cons tick rest ih =>
    have ht := updateNoteQueue_tick_queuedInvariant tick ts llf e b h
    rw [updateNoteQueue_loop]
    cases hto : updateNoteQueue_tick tick ts llf e b with
    | done r e1 =>
      rw [hto] at ht
      exact ht
    | next e1 b1 =>
      rw [hto] at ht
      exact ih e1 b1 ht

theorem queuedMatches_pop (instruments : Nat → Instrument) (n : Note) (rest : List Note)
    (h : queuedMatches instruments (n :: rest)) :
    queuedMatches
      (fun j => if j = n.instrument then
          { instruments j with queued := (instruments j).queued - 1 }
        else instruments j)
      rest := by
  intro j
  have hj := h j
  rw [queuedCount_cons] at hj
  by_cases hc : j = n.instrument
  · rw [if_pos hc.symm] at hj
    simp only [hc, if_true]
    rw [← hc, hj]
    ring
  · rw [if_neg (fun h' => hc h'.symm)] at hj
    simp only [hc, if_false]
    rw [hj]
    ring

theorem playNote_instruments (n : Note) (rest : List Note) (e : Engine) (j : Nat) :
    ((playNote n rest e).instruments j).queued
        = (if j = n.instrument then (e.instruments j).queued - 1 else (e.instruments j).queued) ∧
      (playNote n rest e).m_songNoteQueue = rest := by
  unfold playNote
  simp only [push_event, Engine.dequeue, getGaussian]
  split_ifs <;> simp_all

theorem playNote_queuedMatches (n m : Note) (rest : List Note) (e : Engine)
    (hm : m.instrument = n.instrument)
    (h : queuedMatches e.instruments (n :: rest)) : (playNote m rest e).queuedInvariant := by
  intro j
  have hp := queuedMatches_pop e.instruments n rest h j
  obtain ⟨h1, h2⟩ := playNote_instruments m rest e j
  show ((playNote m rest e).instruments j).queued
    = queuedCount (playNote m rest e).m_songNoteQueue j
  rw [h1, h2, hm, ← hp]
  by_cases hc : j = n.instrument <;> simp [hc]

theorem playNotesLoop_queuedInvariant (nframes : Nat) (fp len : Int) (q : List Note)
    (e e' : Engine) (h : playNotesLoop nframes fp len q e = some e')
    (hq : queuedMatches e.instruments q) : e'.queuedInvariant := by
  induction q generalizing e with
  | nil =>
    simp only [playNotesLoop, Option.some.injEq] at h
    subst h
    exact hq
  | cons n t ih =>
    have hadj : (velocityAutomationAdjust len e n).instrument = n.instrument := by
      unfold velocityAutomationAdjust
      simp only []
      split_ifs <;> rfl
    rw [playNotesLoop] at h
    split_ifs at h
    · exact ih _ h (queuedMatches_pop e.instruments n t hq)
    · exact ih _ h
        (playNote_queuedMatches n _ t { e with nDraws := e.nDraws + 1 } hadj hq)
    · exact ih _ h (playNote_queuedMatches n _ t e hadj hq)
    · simp only [Option.some.injEq] at h
      subst h
      exact hq

theorem clearSongNoteQueue_queuedInvariant (q : List Note) (e : Engine)
    (hq : queuedMatches e.instruments q) : (clearSongNoteQueue q e).queuedInvariant := by
  induction q generalizing e with
  | nil => exact hq
  | cons n t ih =>
    rw [clearSongNoteQueue]
    exact ih _ (queuedMatches_pop e.instruments n t hq)

theorem audioEngine_clearNoteQueue_queuedInvariant (e : Engine) (h : e.queuedInvariant) :
    (audioEngine_clearNoteQueue e).queuedInvariant :=
  clearSongNoteQueue_queuedInvariant e.m_songNoteQueue e h

/-- C30. In-flight counter invariant: if, for every instrument, the number of
`enqueue()` calls minus the number of `dequeue()` calls made on it equals the
number of notes of the song note queue that refer to it, then the same holds
after `audioEngine_updateNoteQueue`, after `audioEngine_process_playNotes`,
after `audioEngine_stop`, after `audioEngine_clearNoteQueue` and after
`audioEngine_seek`; `audioEngine_noteOn`, which puts a note in the MIDI note
queue, changes neither the counters nor the song note queue. -/
theorem queuedInvariant_preserved (e : Engine) (h : e.queuedInvariant) :
    (∀ nFrames : Nat, (audioEngine_updateNoteQueue nFrames e).2.queuedInvariant) ∧
      (∀ (nframes : Nat) (e' : Engine),
        audioEngine_process_playNotes nframes e = some e' → e'.queuedInvariant) ∧
      (∀ b : Bool, (audioEngine_stop b e).queuedInvariant) ∧
      (audioEngine_clearNoteQueue e).queuedInvariant ∧
      (∀ (nFrames : Int) (bLoopMode : Bool),
        (audioEngine_seek nFrames bLoopMode e).queuedInvariant) ∧
      (∀ note : Note,
        (audioEngine_noteOn note e).instruments = e.instruments ∧
          (audioEngine_noteOn note e).m_songNoteQueue = e.m_songNoteQueue) := by
  refine ⟨fun nFrames => updateNoteQueue_loop_queuedInvariant _ _ _ e false h,
    fun nframes e' he' => playNotesLoop_queuedInvariant _ _ _ _ e e' he' h,
    fun b => ?_, audioEngine_clearNoteQueue_queuedInvariant e h, fun nFrames bLoopMode => ?_,
    fun note => ?_⟩
  · unfold audioEngine_stop
    split
    · exact h
    · exact clearSongNoteQueue_queuedInvariant e.m_songNoteQueue _ h
  · unfold audioEngine_seek
    split
    · exact h
    · exact audioEngine_clearNoteQueue_queuedInvariant _ h
  · unfold audioEngine_noteOn
    split_ifs <;> exact ⟨rfl, rfl⟩

/-- Witness of C30: the engine playing `songSwing` from frame 0, with an empty
song note queue and all counters at 0; after the scheduler has queued two
copies for instrument 1, the counter of instrument 1 is 2. -/
theorem queuedInvariant_preserved_witness :
    ((∀ nFrames : Nat,
        (audioEngine_updateNoteQueue nFrames (enginePlayingSong songSwing 0)).2.queuedInvariant) ∧
      (∀ (nframes : Nat) (e' : Engine),
        audioEngine_process_playNotes nframes (enginePlayingSong songSwing 0) = some e' →
          e'.queuedInvariant) ∧
      (∀ b : Bool, (audioEngine_stop b (enginePlayingSong songSwing 0)).queuedInvariant) ∧
      (audioEngine_clearNoteQueue (enginePlayingSong songSwing 0)).queuedInvariant ∧
      (∀ (nFrames : Int) (bLoopMode : Bool),
        (audioEngine_seek nFrames bLoopMode (enginePlayingSong songSwing 0)).queuedInvariant) ∧
      (∀ note : Note,
        (audioEngine_noteOn note (enginePlayingSong songSwing 0)).instruments
            = (enginePlayingSong songSwing 0).instruments ∧
          (audioEngine_noteOn note (enginePlayingSong songSwing 0)).m_songNoteQueue
            = (enginePlayingSong songSwing 0).m_songNoteQueue)) ∧
    ((audioEngine_updateNoteQueue 8192 (enginePlayingSong songSwing 0)).2.instruments 1).queued
      = 2 ∧
    queuedCount (audioEngine_updateNoteQueue 8192 (enginePlayingSong songSwing 0)).2.m_songNoteQueue
      1 = 2 :=
  ⟨queuedInvariant_preserved (enginePlayingSong songSwing 0) (fun _ => rfl),
    by decide!, by decide!⟩

end H2Core
